import Mathlib

/-!
Skill-gap analyser: AI-orchestration layer and quiz routes.

A shallow embedding of `server/services/geminiService.js` and of the quiz
handlers of `server/routes/roadmap.js`.

JavaScript strings are Lean `String`s, read through their character lists.
Thrown errors are values of `JsError`; an `async` function that may reject is
a function into `Except JsError _`. The module-scoped key pool
(`apiKeys`, `currentKeyIndex`) is passed explicitly as a `KeyPool` and handed
back with every result. The remote generation service and the JavaScript
built-ins with locale- or engine-defined behaviour (`toLowerCase`,
`JSON.parse`) are fields of a `Runtime` record over which every theorem
quantifies.
-/

namespace SkillGap

/-! ## Strings -/

/-- Value of `hay.includes(needle)` on character lists: `needle` occurs as a contiguous
run somewhere in `hay` (the empty needle always does). -/
def includesChars : List Char → List Char → Bool
  | [], needle => needle.isEmpty
  | c :: cs, needle => needle.isPrefixOf (c :: cs) || includesChars cs needle

/-- Built-in `String.prototype.includes`. -/
def includes (hay needle : String) : Bool :=
  includesChars hay.data needle.data

/-- JavaScript truthiness of an optional string property: `undefined` and the
empty string are falsy. -/
def truthy : Option String → Bool
  | none => false
  | some s => s != ""

/-- Value of `x || dflt` for an optional string property. -/
def orDefault (x : Option String) (dflt : String) : String :=
  match x with
  | none => dflt
  | some s => if s != "" then s else dflt

/-- An `Error` object as far as the code inspects it: only `message` is read,
and a thrown value may lack one. -/
structure JsError where
  message : Option String
  deriving DecidableEq, Repr

/-- Value of `new Error(msg)`. -/
def newError (msg : String) : JsError := ⟨some msg⟩

/-- Value produced by `JSON.parse`. Every finite double is a rational. -/
inductive Json where
  | null
  | bool (b : Bool)
  | num (q : ℚ)
  | str (s : String)
  | arr (items : List Json)
  | obj (fields : List (String × Json))

/-- What lies outside the module: engine-defined string and JSON built-ins and
the remote generation service. Clients and model handles are named by the
index of the key they were built from; the prompt sent with a request is not
represented because the reply is an arbitrary value of `generateContent`. -/
structure Runtime where
  /-- Built-in `String.prototype.toLowerCase`. -/
  toLowerCase : String → String
  /-- Built-in `JSON.parse`: the decoded value, or the thrown `SyntaxError`. -/
  jsonParse : String → Except JsError Json
  /-- Method `genAI.listModels` when the client has such a function: the model names
  it resolves to, or the error it rejects with, for the client of key `k`. -/
  listModels : Option (Nat → Except JsError (List String))
  /-- Method `genAI.getGenerativeModel(\x7bmodel\x7d)` for the client of key `k`. -/
  getGenerativeModel : Nat → String → Except JsError Unit
  /-- Text of `model.generateContent(prompt)` for the handle bound with key `k`
  to `model`, or the error thrown while obtaining it. -/
  generateContent : Nat → String → Except JsError String
  /-- Built-in `encodeURIComponent`. -/
  encodeURIComponent : String → String
  /-- Value of `Math.round((a / b) * 100)` in double arithmetic, for counts `a`, `b`
  with `b > 0`. -/
  roundPercent : Nat → Nat → Nat

/-! ## Key pool manager -/

/-- Requests observable from outside, kept as a ghost log. -/
inductive Event where
  | bind (key : Nat) (model : String)
  | generate (key : Nat) (model : String)
  | rotated (toKey : Nat)
  deriving DecidableEq, Repr

/-- Module state `apiKeys` / `currentKeyIndex` (`genAIClients[i]` is the
client of `apiKeys[i]`), with the ghost log `trace`, oldest event first. -/
structure KeyPool where
  apiKeys : List String
  currentKeyIndex : Nat
  trace : List Event := []
  deriving DecidableEq, Repr

/-- Append ghost events. -/
def KeyPool.logged (p : KeyPool) (evs : List Event) : KeyPool :=
  { p with trace := p.trace ++ evs }

/-- Function `rotateApiKey`. -/
def rotateApiKey (p : KeyPool) : KeyPool :=
  if p.apiKeys.length > 1 then
    let k := (p.currentKeyIndex + 1) % p.apiKeys.length
    { p with currentKeyIndex := k, trace := p.trace ++ [Event.rotated k] }
  else p

/-- Function `getGenAI`: the client of the current key, named by its index. -/
def getGenAI (p : KeyPool) : Option Nat :=
  if p.apiKeys.length = 0 then none else some p.currentKeyIndex

/-- Function `hasApiKey`. -/
def hasApiKey (p : KeyPool) : Bool := p.apiKeys.length > 0

/-! ## Model resolver -/

/-- The hard-coded list `fetchSupportedModels` answers with when the client has
no `listModels`. -/
def hardcodedModels : List String :=
  ["gemini-2.0-flash-exp", "gemini-2.0-flash", "gemini-1.5-flash", "gemini-1.5-pro"]

/-- Function `fetchSupportedModels`. -/
def fetchSupportedModels (rt : Runtime) (p : KeyPool) : Except JsError (List String) :=
  match getGenAI p with
  | none => .error (newError "Failed to initialize Gemini AI. Please check your API key.")
  | some k =>
    match rt.listModels with
    | some list =>
      match list k with
      | .ok names => .ok names
      | .error _ => .error (newError
          "Unable to fetch supported models. Please check your API key and network connection.")
    | none => .ok hardcodedModels

/-- A bound generative model: the key it was bound with and the model name. -/
structure ModelHandle where
  key : Nat
  model : String
  deriving DecidableEq, Repr

/-- Inner loop of `getModelWithRetry`, `for (const model of validModels)`: the
first model that binds with key `k`, or the last error seen; with the bind
requests made. -/
def tryModels (rt : Runtime) (k : Nat) :
    List String → Option JsError → Except (Option JsError) String × List Event
  | [], lastError => (.error lastError, [])
  | m :: ms, _ =>
    match rt.getGenerativeModel k m with
    | .ok _ => (.ok m, [Event.bind k m])
    | .error e =>
      let r := tryModels rt k ms (some e)
      (r.1, Event.bind k m :: r.2)

/-- Outer loop of `getModelWithRetry`,
`for (attempt; attempt < maxRetries && attempt < apiKeys.length; attempt++)`.
`fuel` bounds the iterations still allowed and is started at `maxRetries`, which
the guard never lets `attempt` exceed. -/
def retryLoop (rt : Runtime) (validModels : List String) (maxRetries : Nat) :
    Nat → Nat → KeyPool → Option JsError → Except JsError ModelHandle × KeyPool
  | 0, _, p, lastError =>
    (.error (lastError.getD (newError "All API keys and models failed")), p)
  | fuel + 1, attempt, p, lastError =>
    if attempt < maxRetries && attempt < p.apiKeys.length then
      match tryModels rt p.currentKeyIndex validModels lastError with
      | (.ok m, evs) => (.ok ⟨p.currentKeyIndex, m⟩, p.logged evs)
      | (.error lastError', evs) =>
        retryLoop rt validModels maxRetries fuel (attempt + 1) (rotateApiKey (p.logged evs))
          lastError'
    else
      (.error (lastError.getD (newError "All API keys and models failed")), p)

/-- Function `getModelWithRetry(maxRetries)`. -/
def getModelWithRetry (rt : Runtime) (p : KeyPool) (maxRetries : Nat) :
    Except JsError ModelHandle × KeyPool :=
  match fetchSupportedModels rt p with
  | .error e => (.error e, p)
  | .ok supportedModels =>
    let validModels := supportedModels.filter (fun model => model != "gemini-2.0-flash-exp")
    retryLoop rt validModels maxRetries maxRetries 0 p none

/-- Call `getModelWithRetry()` with the default `maxRetries = apiKeys.length`. -/
def getModelWithRetryDefault (rt : Runtime) (p : KeyPool) :
    Except JsError ModelHandle × KeyPool :=
  getModelWithRetry rt p p.apiKeys.length

/-- Call of `model.generateContent(prompt)` followed by `response.text()`. -/
def generateText (rt : Runtime) (h : ModelHandle) (p : KeyPool) :
    Except JsError String × KeyPool :=
  (rt.generateContent h.key h.model, p.logged [Event.generate h.key h.model])

/-! ## Error classification -/

/-- Function `isKeyError`. -/
def isKeyError (rt : Runtime) (error : JsError) : Bool :=
  match error.message with
  | none => false
  | some m => m != "" && includes (rt.toLowerCase m) "api key is not configured"

/-- Function `isRecoverableError`. -/
def isRecoverableError (rt : Runtime) (error : JsError) : Bool :=
  if isKeyError rt error then true
  else
    let errorMessage := orDefault (error.message.map rt.toLowerCase) ""
    includes errorMessage "quota" ||
    includes errorMessage "rate limit" ||
    includes errorMessage "429" ||
    includes errorMessage "resource exhausted" ||
    includes errorMessage "unavailable"

/-- Value of `error.message.includes(word)`; a missing message makes the access throw,
which the callers only reach behind `isRecoverableError(error) &&`, false for
such an error. -/
def messageIncludes (error : JsError) (word : String) : Bool :=
  match error.message with
  | none => false
  | some m => includes m word

/-- Value of `'' + error.message`. -/
def messageText (error : JsError) : String :=
  error.message.getD "undefined"

/-! ## Response extractor -/

/-- Characters matched by `\s` in a JavaScript regular expression. -/
def isJsSpace (c : Char) : Bool :=
  let n := c.toNat
  (9 ≤ n && n ≤ 13) || n = 32 || n = 160 || n = 5760 || (8192 ≤ n && n ≤ 8202) ||
    n = 8232 || n = 8233 || n = 8239 || n = 8287 || n = 12288 || n = 65279

/-- Value of `s.replace(/pat\s*/g, '')` for a literal `pat`, scanning left to right:
where `pat` starts, it and the white space after it are dropped and the scan
resumes behind them; elsewhere the character is kept. `fuel` bounds the
number of scan steps. -/
def removeAllAux (pat : List Char) : Nat → List Char → List Char
  | 0, s => s
  | _ + 1, [] => []
  | fuel + 1, c :: cs =>
    if pat.isPrefixOf (c :: cs) then
      removeAllAux pat fuel (((c :: cs).drop pat.length).dropWhile isJsSpace)
    else c :: removeAllAux pat fuel cs

/-- Value of `s.replace(/pat\s*/g, '')`; a scan takes at most one step per character. -/
def removeAll (pat : String) (s : List Char) : List Char :=
  removeAllAux pat.data s.length s

/-- Removal of the code-fence markers,
`.replace(/[fence]json\s*/g, '').replace(/[fence]\s*/g, '')`
with `[fence]` three grave accents. -/
def stripFences (s : List Char) : List Char :=
  removeAll "```" (removeAll "```json" s)

/-- Value of `s.match(/\x7b[\s\S]*\x7d/)`: from the first opening brace through the last
closing brace behind it. -/
def jsonMatch (s : List Char) : Option (List Char) :=
  let t := s.dropWhile (fun c => c != '\x7b')
  let u := (t.reverse.dropWhile (fun c => c != '\x7d')).reverse
  if u.isEmpty then none else some u

/-- Response extraction of `analyzeSkillGaps`: strip the fences, match, parse,
wrapping a parse failure. -/
def extractAnalysis (rt : Runtime) (text : String) : Except JsError Json :=
  match jsonMatch (stripFences text.data) with
  | some jsonText =>
    match rt.jsonParse (String.mk jsonText) with
    | .ok parsed => .ok parsed
    | .error parseError =>
      .error (newError ("Failed to parse JSON response: " ++ messageText parseError))
  | none => .error (newError "Invalid response format - no JSON found")

/-- Response extraction of `getYouTubePlaylists` and `generateQuiz`: strip the
fences, match, parse. -/
def extractFenced (rt : Runtime) (text : String) : Except JsError Json :=
  match jsonMatch (stripFences text.data) with
  | some jsonText => rt.jsonParse (String.mk jsonText)
  | none => .error (newError "Invalid response format")

/-- Response extraction of `generateRoadmap` and `getLearningResources`: match
and parse, fences left in place. -/
def extractPlain (rt : Runtime) (text : String) : Except JsError Json :=
  match jsonMatch text.data with
  | some jsonText => rt.jsonParse (String.mk jsonText)
  | none => .error (newError "Invalid response format")

/-! ## Gap analysis -/

/-- An entry of `jobRole.requiredSkills`: a plain string, or an object whose
`skill`, `level` and `importance` properties may each be missing. -/
inductive SkillReq where
  | str (s : String)
  | obj (skill level importance : Option String)
  deriving DecidableEq, Repr

/-- The string naming a requirement, when it has one: the string itself, or a
truthy `skill` property. -/
def SkillReq.name : SkillReq → Option String
  | .str s => some s
  | .obj skill _ _ => if truthy skill then skill else none

/-- The `jobRole` argument of the analysis. -/
structure JobRole where
  title : String
  description : Option String
  requiredSkills : Option (List SkillReq)
  deriving DecidableEq, Repr

/-- The `SkillGap` record. -/
structure Gap where
  skill : String
  currentLevel : String
  requiredLevel : String
  priority : String
  description : String
  deriving DecidableEq, Repr

/-- Result object of the fallback analysis. -/
structure Analysis where
  gaps : List Gap
  summary : String
  deriving DecidableEq, Repr

/-- What a task resolves to: the object decoded from the model's reply, or the
locally computed substitute. -/
inductive Reply (α : Type) where
  | parsed (value : Json)
  | fallback (value : α)

/-- Function `defaultCurrentLevel`. -/
def defaultCurrentLevel (requiredLevel : String) (mentioned : Bool) : String :=
  if !mentioned then "not_mentioned"
  else if requiredLevel = "expert" then "advanced"
  else if requiredLevel = "advanced" then "intermediate"
  else if requiredLevel = "intermediate" then "beginner"
  else "beginner"

/-- Function `fallbackSummary`. -/
def fallbackSummary (gaps : List Gap) (jobRoleTitle : String) : String :=
  if gaps.length = 0 then
    "Great job! Your resume already covers the key skills for " ++ jobRoleTitle ++ "."
  else
    let critical :=
      (gaps.filter (fun gap => gap.priority = "critical" || gap.priority = "high")).length
    if critical > 0 then
      "Focus on the " ++ toString critical ++
        " highest-priority skills first to become job-ready for " ++ jobRoleTitle ++ "."
    else
      "Keep strengthening the listed skills to align fully with the " ++ jobRoleTitle ++
        " role requirements."

/-- Element of `skillsToAnalyze`. `skill` is `none` when `skillReq.skill || skillReq`
falls through to the requirement object, which is not a string. -/
structure SkillSpec where
  skill : Option String
  level : String
  importance : String
  deriving DecidableEq, Repr

/-- The mapping applied to a non-empty `jobRole.requiredSkills`. -/
def normaliseSkill : SkillReq → SkillSpec
  | .str s => ⟨some s, "intermediate", "medium"⟩
  | .obj skill level importance =>
    ⟨if truthy skill then skill else none, orDefault level "intermediate",
      orDefault importance "medium"⟩

/-- The fixed list of common technical skills. -/
def commonSkills : List String :=
  ["JavaScript", "Python", "Java", "React", "Node.js", "SQL", "Docker", "AWS", "Git"]

/-- The common skills kept when no required skill is given: those occurring in
the lower-cased resume or description, the first five of them. -/
def sampledSkills (rt : Runtime) (resumeTextLower : String) (description : Option String) :
    List String :=
  (commonSkills.filter (fun skill =>
    includes resumeTextLower (rt.toLowerCase skill) ||
    (match description with
     | none => false
     | some d => includes (rt.toLowerCase d) (rt.toLowerCase skill)))).take 5

/-- The list `skillsToAnalyze`. -/
def skillsToAnalyze (rt : Runtime) (resumeTextLower : String) (jobRole : JobRole) :
    List SkillSpec :=
  match jobRole.requiredSkills with
  | some (r :: rs) => (r :: rs).map normaliseSkill
  | _ =>
    (sampledSkills rt resumeTextLower jobRole.description).map
      (fun skill => ⟨some skill, "intermediate", "medium"⟩)

/-- Body of `skillsToAnalyze.map(skillReq => ...)` for one entry. Calling
`toLowerCase` on a `skillName` that is not a string throws a `TypeError`. -/
def gapOf (rt : Runtime) (resumeTextLower : String) (skillReq : SkillSpec) : Except JsError Gap :=
  match skillReq.skill with
  | none => .error (newError "skillName.toLowerCase is not a function")
  | some skillName =>
    let mentioned := includes resumeTextLower (rt.toLowerCase skillName)
    .ok
      { skill := skillName
        currentLevel := defaultCurrentLevel skillReq.level mentioned
        requiredLevel := orDefault (some skillReq.level) "intermediate"
        priority := orDefault (some skillReq.importance) "medium"
        description :=
          if mentioned then
            "Strengthen your proficiency in " ++ skillName ++ " to reach the " ++ skillReq.level ++
              " level expected for this role."
          else
            "Your resume does not mention " ++ skillName ++
              ". Start learning the fundamentals and highlight relevant experience." }

/-- Value of `skillsToAnalyze.map(...)`, stopping at the first entry that throws. -/
def gapsOf (rt : Runtime) (resumeTextLower : String) : List SkillSpec → Except JsError (List Gap)
  | [] => .ok []
  | skillReq :: rest =>
    match gapOf rt resumeTextLower skillReq with
    | .error e => .error e
    | .ok gap =>
      match gapsOf rt resumeTextLower rest with
      | .error e => .error e
      | .ok gaps => .ok (gap :: gaps)

/-- The gap returned in place of an empty gap list. -/
def placeholderGap : Gap :=
  { skill := "General Skills"
    currentLevel := "intermediate"
    requiredLevel := "advanced"
    priority := "medium"
    description := "Review the job description and identify key skills to develop." }

/-- Fallback branch of `analyzeSkillGaps`. -/
def fallbackAnalysis (rt : Runtime) (resumeText : Option String) (jobRole : JobRole) :
    Except JsError Analysis :=
  let resumeTextLower := rt.toLowerCase (orDefault resumeText "")
  match gapsOf rt resumeTextLower (skillsToAnalyze rt resumeTextLower jobRole) with
  | .error e => .error e
  | .ok gaps =>
    .ok
      { gaps := if gaps.length > 0 then gaps else [placeholderGap]
        summary := fallbackSummary gaps jobRole.title }

/-- The steps every task's `try` block shares: `getModelWithRetry()`,
`model.generateContent(prompt)`, `response.text()`, then the task's own
extraction from the text. -/
def requestJson (rt : Runtime) (p : KeyPool) (extract : String → Except JsError Json) :
    Except JsError Json × KeyPool :=
  match getModelWithRetryDefault rt p with
  | (.error e, p1) => (.error e, p1)
  | (.ok model, p1) =>
    match generateText rt model p1 with
    | (.error e, p2) => (.error e, p2)
    | (.ok text, p2) => (extract text, p2)

/-- The `try` block of `analyzeSkillGaps`. -/
def analyzeSkillGapsTry (rt : Runtime) (p : KeyPool) : Except JsError Json × KeyPool :=
  if !hasApiKey p then
    (.error (newError
      "Gemini API key is not configured. Please set GEMINI_API_KEY in your .env file."), p)
  else requestJson rt p (extractAnalysis rt)

/-- The condition under which the `catch` block of `analyzeSkillGaps` answers
with the fallback analysis. -/
def analysisFallbackGuard (rt : Runtime) (error : JsError) : Bool :=
  isRecoverableError rt error && !messageIncludes error "parse" && !messageIncludes error "JSON"

/-- Function `analyzeSkillGaps(resumeText, jobRole)`. -/
def analyzeSkillGaps (rt : Runtime) (p : KeyPool) (resumeText : Option String)
    (jobRole : JobRole) : Except JsError (Reply Analysis) × KeyPool :=
  match analyzeSkillGapsTry rt p with
  | (.ok parsed, p') => (.ok (.parsed parsed), p')
  | (.error error, p') =>
    if analysisFallbackGuard rt error then
      match fallbackAnalysis rt resumeText jobRole with
      | .ok analysis => (.ok (.fallback analysis), p')
      | .error e => (.error e, p')
    else (.error error, p')

/-! ## Other tasks -/

/-- The `catch` block shared by the tasks other than gap analysis: the fallback
value for a recoverable error, the error itself otherwise. -/
def orFallback {α : Type} (rt : Runtime) (r : Except JsError Json × KeyPool) (fallback : α) :
    Except JsError (Reply α) × KeyPool :=
  match r with
  | (.ok parsed, p') => (.ok (.parsed parsed), p')
  | (.error error, p') =>
    if isRecoverableError rt error then (.ok (.fallback fallback), p') else (.error error, p')

/-- A step of the fallback roadmap. -/
structure StepDraft where
  skill : String
  resources : List String
  estimatedTime : String
  description : String
  order : Nat
  deriving DecidableEq, Repr

/-- Result object of the fallback roadmap. -/
structure RoadmapDraft where
  steps : List StepDraft
  totalDuration : String
  deriving DecidableEq, Repr

/-- The function `(gap, index) => (...)` of the fallback roadmap. -/
def fallbackStep (gap : Gap) (index : Nat) : StepDraft :=
  { skill := gap.skill
    resources :=
      [ "Complete a beginner-friendly " ++ gap.skill ++ " course on Coursera or Udemy",
        "Work through official " ++ gap.skill ++ " documentation and tutorials",
        "Build a small project highlighting your " ++ gap.skill ++ " proficiency" ]
    estimatedTime :=
      if gap.priority = "critical" || gap.priority = "high" then "3-4 weeks" else "1-2 weeks"
    description :=
      "Focus on " ++ gap.skill ++ " to move from " ++ gap.currentLevel ++ " to " ++
        gap.requiredLevel ++ "."
    order := index + 1 }

/-- Value of `gaps.map((gap, index) => ...)` of the fallback roadmap, for the gaps from
position `index` on. -/
def fallbackSteps : List Gap → Nat → List StepDraft
  | [], _ => []
  | gap :: rest, index => fallbackStep gap index :: fallbackSteps rest (index + 1)

/-- Fallback branch of `generateRoadmap`. -/
def fallbackRoadmap (skillGaps : Option (List Gap)) : RoadmapDraft :=
  let steps := fallbackSteps (skillGaps.getD []) 0
  { steps := steps
    totalDuration :=
      if steps.length ≠ 0 then toString (steps.length * 2) ++ "-week plan (estimated)"
      else "Up to date" }

/-- Function `generateRoadmap(skillGaps, jobRole)`. -/
def generateRoadmap (rt : Runtime) (p : KeyPool) (skillGaps : Option (List Gap)) :
    Except JsError (Reply RoadmapDraft) × KeyPool :=
  orFallback rt (requestJson rt p (extractPlain rt)) (fallbackRoadmap skillGaps)

/-- A canned learning resource. -/
structure Resource where
  type : String
  name : String
  url : String
  description : String
  deriving DecidableEq, Repr

/-- Fallback branch of `getLearningResources`. -/
def fallbackResources (skill level : String) : List Resource :=
  [ { type := "course", name := skill ++ " fundamentals on Codecademy",
      url := "https://www.codecademy.com",
      description := "Interactive lessons to build " ++ skill ++ " basics." },
    { type := "tutorial", name := skill ++ " quickstart guide", url := "",
      description :=
        "Follow a hands-on tutorial from official documentation or a reputable blog." },
    { type := "project", name := skill ++ " portfolio project", url := "",
      description := "Create a mini project applying " ++ skill ++ " at a " ++ level ++ " level." } ]

/-- Function `getLearningResources(skill, level)`. -/
def getLearningResources (rt : Runtime) (p : KeyPool) (skill level : String) :
    Except JsError (Reply (List Resource)) × KeyPool :=
  orFallback rt (requestJson rt p (extractPlain rt)) (fallbackResources skill level)

/-- The `PlaylistEntry` record. -/
structure Playlist where
  title : String
  channel : String
  url : String
  description : String
  videoCount : String
  duration : String
  deriving DecidableEq, Repr

/-- Fallback branch of `getYouTubePlaylists`. -/
def fallbackPlaylists (rt : Runtime) (skill level : String) : List Playlist :=
  [ { title := skill ++ " Tutorial Playlist"
      channel := "Search on YouTube"
      url := "https://www.youtube.com/results?search_query=" ++
        rt.encodeURIComponent (skill ++ " tutorial playlist " ++ level)
      description := "Search YouTube for \"" ++ skill ++ " " ++ level ++ " tutorial playlist\""
      videoCount := "Various"
      duration := "Varies" } ]

/-- Function `getYouTubePlaylists(skill, level)`. -/
def getYouTubePlaylists (rt : Runtime) (p : KeyPool) (skill level : String) :
    Except JsError (Reply (List Playlist)) × KeyPool :=
  orFallback rt (requestJson rt p (extractFenced rt)) (fallbackPlaylists rt skill level)

/-- The four options of a question. -/
structure Options where
  A : String
  B : String
  C : String
  D : String
  deriving DecidableEq, Repr

/-- A question as the quiz generator returns it. -/
structure QuestionDraft where
  question : String
  options : Options
  correctAnswer : String
  explanation : String
  deriving DecidableEq, Repr

/-- Fallback branch of `generateQuiz`. -/
def fallbackQuiz (topic : String) : List QuestionDraft :=
  [ { question := "What is a key concept in " ++ topic ++ "?"
      options :=
        { A := "Basic understanding", B := "Advanced technique", C := "Common practice",
          D := "All of the above" }
      correctAnswer := "D"
      explanation := "All options are relevant to understanding " ++ topic ++ "." } ]

/-- Function `generateQuiz(skill, topic, level)`. -/
def generateQuiz (rt : Runtime) (p : KeyPool) (topic : String) :
    Except JsError (Reply (List QuestionDraft)) × KeyPool :=
  orFallback rt (requestJson rt p (extractFenced rt)) (fallbackQuiz topic)

/-- The `context` argument of the chat tasks. -/
structure ChatContext where
  jobRole : Option String
  progress : Nat
  deriving DecidableEq, Repr

/-- What a chat task resolves to: the model's text, or the canned reply. -/
inductive ChatReply where
  | generated (text : String)
  | canned (text : String)
  deriving DecidableEq, Repr

/-- Built-in `String.prototype.trim`. -/
def trim (s : String) : String :=
  String.mk ((s.data.dropWhile isJsSpace).reverse.dropWhile isJsSpace).reverse

/-- Fallback branch of `chatWithAssistant`. -/
def fallbackChat (context : ChatContext) : String :=
  "You're currently focusing on " ++ orDefault context.jobRole "exploring roles" ++ ". " ++
    "You've completed about " ++ toString context.progress ++ "% of your roadmap. " ++
    "Start by reviewing your highest priority skill gaps and choose one to work on today. " ++
    "Let me know which skill you want resources for!"

/-- Function `chatWithAssistant(userMessage, context)`. -/
def chatWithAssistant (rt : Runtime) (p : KeyPool) (context : ChatContext) :
    Except JsError ChatReply × KeyPool :=
  match getModelWithRetryDefault rt p with
  | (.ok model, p1) =>
    match generateText rt model p1 with
    | (.ok text, p2) => (.ok (.generated (trim text)), p2)
    | (.error error, p2) =>
      if isRecoverableError rt error then (.ok (.canned (fallbackChat context)), p2)
      else (.error error, p2)
  | (.error error, p1) =>
    if isRecoverableError rt error then (.ok (.canned (fallbackChat context)), p1)
    else (.error error, p1)

/-! ## Quiz submission (`routes/roadmap.js`) -/

/-- The `QuizQuestion` sub-document; `correctAnswer` may be absent from a stored
question. -/
structure QuizQuestion where
  question : String
  options : Options
  correctAnswer : Option String
  explanation : String
  userAnswer : Option String
  isCorrect : Option Bool
  deriving DecidableEq, Repr

/-- The `Quiz` sub-document; dates are time stamps. -/
structure Quiz where
  questions : List QuizQuestion
  generatedAt : Option Nat
  passed : Bool
  passedAt : Option Nat
  deriving DecidableEq, Repr

/-- The `RoadmapStep` sub-document. A step that never had a quiz generated holds
`none`; the handlers treat it like a quiz without questions. -/
structure RoadmapStep where
  skill : String
  resources : List String
  estimatedTime : String
  description : String
  status : String
  completedAt : Option Nat
  quiz : Option Quiz
  youtubePlaylists : List Playlist
  deriving DecidableEq, Repr

/-- The `Progress` sub-document; `lastUpdated` is a time stamp. -/
structure Progress where
  overallCompletion : Nat
  skillsCompleted : Nat
  totalSkills : Nat
  jobAccessibility : Nat
  lastUpdated : Option Nat
  deriving DecidableEq, Repr

/-- The `selectedJobRole` sub-document. -/
structure SelectedJobRole where
  roleId : Option String
  roleName : String
  selectedAt : Nat
  deriving DecidableEq, Repr

/-- The `skillGapAnalysis` sub-document. The document store materialises
nested paths, so it exists on every user, with an empty `gaps` array until the
first analysis is stored. -/
structure SkillGapAnalysis where
  gaps : List Gap
  summary : Option String
  jobRoleId : Option String
  analyzedAt : Option Nat
  deriving DecidableEq, Repr

/-- The user document as far as the routes read and write it:
`user.roadmap.steps`, `user.resume.text`, the stored analysis, the selected
role and the progress record. `roadmap := none` stands for a document on which
`!user.roadmap || !user.roadmap.steps` holds, the case the handlers answer with
404; a document read through the schema always has the array, empty until a
roadmap is generated, which is `some []`. -/
structure User where
  roadmap : Option (List RoadmapStep)
  resumeText : Option String := none
  skillGapAnalysis : SkillGapAnalysis := { gaps := [], summary := none, jobRoleId := none,
                                           analyzedAt := none }
  selectedJobRole : Option SelectedJobRole := none
  progress : Progress := { overallCompletion := 0, skillsCompleted := 0, totalSkills := 0,
                           jobAccessibility := 0, lastUpdated := none }
  deriving DecidableEq, Repr

/-- An element of the submitted `answers` array, with an integer
`questionIndex` and a string `answer`. -/
structure Answer where
  questionIndex : Int
  answer : String
  deriving DecidableEq, Repr

/-- A question as the submit response reports it. -/
structure QuestionReview where
  question : String
  userAnswer : Option String
  correctAnswer : Option String
  isCorrect : Option Bool
  explanation : String
  deriving DecidableEq, Repr

/-- The body of a successful submit response. -/
structure SubmitResult where
  passed : Bool
  correctCount : Nat
  totalQuestions : Nat
  score : Nat
  questions : List QuestionReview
  deriving DecidableEq, Repr

/-- Response of the submit handler. -/
inductive SubmitResponse where
  | rejected (status : Nat) (message : String)
  | accepted (result : SubmitResult)
  deriving DecidableEq, Repr

/-- The list `validAnswers`. -/
def validAnswers : List String := ["A", "B", "C", "D"]

/-- The validation loop over `answers`: the message of the first violation. -/
def validateAnswers (totalQuestions : Nat) : List Answer → Option String
  | [] => none
  | a :: rest =>
    if a.questionIndex < 0 || a.questionIndex ≥ (totalQuestions : Int) then
      some ("Invalid question index: " ++ toString a.questionIndex)
    else if !validAnswers.contains a.answer then
      some ("Invalid answer: " ++ a.answer ++ ". Must be A, B, C, or D.")
    else validateAnswers totalQuestions rest

/-- One round of `answers.forEach(...)`: the question at `questionIndex`, if
there is one, records the answer and whether it is the correct one, and a
correct answer is counted. -/
def recordAnswer (state : List QuizQuestion × Nat) (a : Answer) : List QuizQuestion × Nat :=
  if a.questionIndex < 0 then state
  else
    match state.1[a.questionIndex.toNat]? with
    | none => state
    | some question =>
      let isCorrect : Bool := some a.answer == question.correctAnswer
      (state.1.set a.questionIndex.toNat
          { question with userAnswer := some a.answer, isCorrect := some isCorrect },
        if isCorrect then state.2 + 1 else state.2)

/-- The pass threshold `Math.ceil(totalQuestions * 0.8)`, computed in exact
arithmetic as the ceiling of `4 * totalQuestions / 5`. The same expression in
double arithmetic is `ceilTimesPoint8` below; the two agree for every array
length. -/
def passThreshold (totalQuestions : Nat) : Nat :=
  (4 * totalQuestions + 4) / 5

/-- Rounding of a rational to the nearest integer, ties to the even one. -/
def roundHalfEven (q : ℚ) : ℤ :=
  if q - ⌊q⌋ < 1 / 2 then ⌊q⌋
  else if 1 / 2 < q - ⌊q⌋ then ⌊q⌋ + 1
  else if ⌊q⌋ % 2 = 0 then ⌊q⌋ else ⌊q⌋ + 1

/-- Rounding of a positive rational of the normal range to the nearest double:
to the nearest multiple of the unit in the last place of its binade (53-bit
significand), ties to even. -/
def roundToDouble (x : ℚ) : ℚ :=
  (roundHalfEven (x / 2 ^ (Int.log 2 x - 52)) : ℚ) * 2 ^ (Int.log 2 x - 52)

/-- The double that the literal `0.8` denotes, `0x1.999999999999ap-1`. -/
def doublePoint8 : ℚ := 3602879701896397 / 4503599627370496

/-- Value of `Math.ceil(totalQuestions * 0.8)` in double arithmetic; a count
below `2^53` is a double itself. -/
def ceilTimesPoint8 (totalQuestions : Nat) : Nat :=
  ⌈roundToDouble (totalQuestions * doublePoint8)⌉₊

/-- Element of `questions.map(q => ...)` of the submit response. -/
def reviewOf (q : QuizQuestion) : QuestionReview :=
  { question := q.question, userAnswer := q.userAnswer, correctAnswer := q.correctAnswer,
    isCorrect := q.isCorrect, explanation := q.explanation }

/-- Scoring of a validated submission against a quiz at time `now`: the updated
quiz and the response body. -/
def scoreQuiz (rt : Runtime) (now : Nat) (quiz : Quiz) (answers : List Answer) :
    Quiz × SubmitResult :=
  let graded := answers.foldl recordAnswer (quiz.questions, 0)
  let correctCount := graded.2
  let totalQuestions := graded.1.length
  let passThreshold := passThreshold totalQuestions
  let passed : Bool := correctCount ≥ passThreshold
  ({ quiz with
      questions := graded.1
      passed := passed
      passedAt := if passed then some now else quiz.passedAt },
    { passed := passed
      correctCount := correctCount
      totalQuestions := totalQuestions
      score := if totalQuestions > 0 then rt.roundPercent correctCount totalQuestions else 0
      questions := graded.1.map reviewOf })

/-- Handler of `POST /roadmap/step/:stepIndex/quiz/submit`. `stepIndex` is the value of
`parseInt(req.params.stepIndex)`, `none` for `NaN`; `answers` is `none` when
the body has no `answers` array; `now` is the time of the request. Returns
the response and the user document as saved. -/
def submitQuiz (rt : Runtime) (now : Nat) (user : User) (stepIndex : Option Int)
    (answers : Option (List Answer)) : SubmitResponse × User :=
  match answers with
  | none => (.rejected 400 "Answers array is required", user)
  | some answers =>
    match user.roadmap with
    | none => (.rejected 404 "No roadmap found", user)
    | some steps =>
      match stepIndex with
      | none => (.rejected 500 "Server error", user)
      | some index =>
        if index < 0 || index ≥ (steps.length : Int) then
          (.rejected 400 "Invalid step index", user)
        else
          match steps[index.toNat]? with
          | none => (.rejected 500 "Server error", user)
          | some step =>
            match step.quiz with
            | none => (.rejected 400 "No quiz found for this step. Generate quiz first.", user)
            | some quiz =>
              if quiz.questions.length = 0 then
                (.rejected 400 "No quiz found for this step. Generate quiz first.", user)
              else if answers.length ≠ quiz.questions.length then
                (.rejected 400
                  ("Please answer all " ++ toString quiz.questions.length ++
                    " questions. You provided " ++ toString answers.length ++ " answers."), user)
              else
                match validateAnswers quiz.questions.length answers with
                | some message => (.rejected 400 message, user)
                | none =>
                  let scored := scoreQuiz rt now quiz answers
                  (.accepted scored.2,
                    { user with
                      roadmap := some (steps.set index.toNat { step with quiz := some scored.1 }) })

/-- The quiz stored on step `i` of the user's roadmap. -/
def quizAt (user : User) (i : Nat) : Option Quiz :=
  match user.roadmap with
  | none => none
  | some steps => (steps[i]?).bind (fun step => step.quiz)

/-! ## Error mapping of `POST /analysis` (`routes/analysis.js`) -/

/-- The `message` the route answers with (status 500) for an error raised by
`analyzeSkillGaps` whose message is `message`. -/
def analysisErrorMessage (message : String) : String :=
  if includes message "API key" || includes message "not configured" then
    "Gemini API key is not configured. Please restart the server after setting GEMINI_API_KEY in the .env file."
  else if includes message "parse" || includes message "JSON" then
    "Failed to process AI response. Please try again."
  else if includes message "quota" || includes message "rate limit" then
    "API rate limit reached. Please try again in a few moments."
  else if message != "" then message
  else "Error analyzing skill gaps"

/-! ## Vocabulary of the specification -/

/-- Lower-casing of the letters `A`-`Z`, every other character kept. -/
def asciiLower (s : String) : String :=
  String.mk (s.data.map Char.toLower)

/-- The one property of `toLowerCase` that evaluating the code on its own
messages relies on: on a string of ASCII characters it lower-cases the letters
`A`-`Z` and keeps the rest. -/
def LowersAscii (rt : Runtime) : Prop :=
  ∀ s : String, s.data.all (fun c => c.toNat < 128) = true → rt.toLowerCase s = asciiLower s

/-- Position of a proficiency level in the order
beginner < intermediate < advanced < expert. -/
def levelRank (level : String) : Option Nat :=
  if level = "beginner" then some 0
  else if level = "intermediate" then some 1
  else if level = "advanced" then some 2
  else if level = "expert" then some 3
  else none

/-- The text a fenced reply is made of: prose, the opening fence with its
`json` tag, the payload, the closing fence, prose. -/
def fenced (P J Q : String) : String :=
  P ++ "```json" ++ J ++ "```" ++ Q

/-- The answer names a question of the quiz and gives its correct answer. -/
def answersCorrectly (questions : List QuizQuestion) (a : Answer) : Bool :=
  decide (0 ≤ a.questionIndex) &&
    (match questions[a.questionIndex.toNat]? with
     | none => false
     | some q => some a.answer == q.correctAnswer)

/-- Number of submitted answers that name a question of the quiz and give its
correct answer. -/
def correctAnswers (questions : List QuizQuestion) (answers : List Answer) : Nat :=
  (answers.filter (answersCorrectly questions)).length

/-! ## Concrete runs -/

/-- A runtime for evaluating concrete runs: ASCII lower-casing, a `JSON.parse`
that knows the empty object only, a client without `listModels`, every model
binds, percentages in exact arithmetic, and `reply` as the outcome of every
generation request. -/
def demoRuntimeWith (reply : Except JsError String) : Runtime :=
  { toLowerCase := asciiLower
    jsonParse := fun s =>
      if s = "\x7b\x7d" then .ok (.obj []) else .error (newError "Unexpected token")
    listModels := none
    getGenerativeModel := fun _ _ => .ok ()
    generateContent := fun _ _ => reply
    encodeURIComponent := fun s => s
    roundPercent := fun a b => (200 * a + b) / (2 * b) }

/-- The service answers with the empty object. -/
def demoRuntime : Runtime := demoRuntimeWith (.ok "\x7b\x7d")

/-- The service answers with prose that holds no JSON. -/
def proseRuntime : Runtime := demoRuntimeWith (.ok "I am unable to help with that request.")

/-- The service refuses every generation request for lack of quota. -/
def quotaRuntime : Runtime :=
  demoRuntimeWith (.error (newError "[429 Too Many Requests] Quota exceeded for this key"))

/-- The key pool of a process started without any key. -/
def emptyPool : KeyPool := { apiKeys := [], currentKeyIndex := 0 }

/-- A pool of one key. -/
def oneKeyPool : KeyPool := { apiKeys := ["key-1"], currentKeyIndex := 0 }

/-- A pool of two keys. -/
def twoKeyPool : KeyPool := { apiKeys := ["key-1", "key-2"], currentKeyIndex := 0 }

/-- The role of the end-to-end scenario, requiring "Node.js" and "Docker". -/
def backendRole : JobRole :=
  { title := "Backend Engineer"
    description := some "Build and maintain backend services"
    requiredSkills := some [.str "Node.js", .str "Docker"] }

/-- A role without listed skills whose description names no common skill. -/
def salesRole : JobRole :=
  { title := "Account Manager"
    description := some "Grow revenue with existing customers"
    requiredSkills := some [] }

/-- A role that asks for Docker at beginner level. -/
def juniorRole : JobRole :=
  { title := "Junior DevOps Engineer"
    description := some "Assist with deployments"
    requiredSkills := some [.obj (some "Docker") (some "beginner") (some "high")] }

/-- A stored question without recorded answer. -/
def freshQuestion (text correct : String) : QuizQuestion :=
  { question := text
    options := { A := "first", B := "second", C := "third", D := "fourth" }
    correctAnswer := some correct
    explanation := "see the documentation"
    userAnswer := none
    isCorrect := none }

/-- A user whose single roadmap step carries the quiz `questions`, not yet
passed. -/
def userWithQuiz (questions : List QuizQuestion) : User :=
  { roadmap := some
      [ { skill := "Docker", resources := [], estimatedTime := "1-2 weeks",
          description := "Focus on Docker", status := "in_progress", completedAt := none,
          quiz := some { questions := questions, generatedAt := some 1, passed := false,
                         passedAt := none },
          youtubePlaylists := [] } ] }

/-- A quiz of two questions, answered correctly by "A" and "B". -/
def twoQuestions : List QuizQuestion :=
  [freshQuestion "What is an image?" "A", freshQuestion "What is a container?" "B"]

/-- A quiz of five questions, each answered correctly by "A". -/
def fiveQuestions : List QuizQuestion :=
  [freshQuestion "q1" "A", freshQuestion "q2" "A", freshQuestion "q3" "A",
    freshQuestion "q4" "A", freshQuestion "q5" "A"]

/-- Four correct answers and a wrong one to `fiveQuestions`. -/
def fourOfFive : List Answer :=
  [⟨0, "A"⟩, ⟨1, "A"⟩, ⟨2, "A"⟩, ⟨3, "A"⟩, ⟨4, "B"⟩]

/-! ## Step status and progress (`routes/roadmap.js`, `routes/progress.js`) -/

/-- Value of `Math.round((a / b) * 100)` in double arithmetic: the quotient is
rounded to a double, so is its product with 100, and `Math.round` takes the
nearest integer, a half going up. -/
def percentDouble (a b : Nat) : Nat :=
  (⌊roundToDouble (roundToDouble ((a : ℚ) / b) * 100) + 1 / 2⌋).toNat

/-- The runtime computes percentages in double arithmetic. -/
def DoublePercent (rt : Runtime) : Prop :=
  ∀ a b : Nat, 0 < b → rt.roundPercent a b = percentDouble a b

/-- Rounding of `100 * a / b` to the nearest integer, a half going up, in exact
arithmetic. -/
def roundHalfUp (a b : Nat) : Nat :=
  (⌊(100 * (a : ℚ)) / b + 1 / 2⌋).toNat

/-- Response of the status update handler. -/
inductive StepResponse where
  | rejected (status : Nat) (message : String) (requiresQuiz : Bool)
  | updated (progress : Progress)
  deriving DecidableEq, Repr

/-- Number of steps with status 'completed'. -/
def completedCount (steps : List RoadmapStep) : Nat :=
  (steps.filter (fun s => s.status = "completed")).length

/-- The quiz check of the status update: the step has a quiz with questions that
is not passed. -/
def quizPending (step : RoadmapStep) : Bool :=
  match step.quiz with
  | none => false
  | some quiz => decide (quiz.questions.length > 0) && !quiz.passed

/-- The statuses a step may be given. -/
def validStatuses : List String := ["not_started", "in_progress", "completed"]

/-- Handler of `PUT /roadmap/step/:stepIndex`. `stepIndex` is the value of
`parseInt(req.params.stepIndex)`, `none` for `NaN`; `status` is
`req.body.status`; `now` is the time of the request. Returns the response and
the user document as saved. -/
def updateStep (rt : Runtime) (now : Nat) (user : User) (stepIndex : Option Int)
    (status : String) : StepResponse × User :=
  if !validStatuses.contains status then
    (.rejected 400 "Invalid status" false, user)
  else
    match user.roadmap with
    | none => (.rejected 404 "No roadmap found" false, user)
    | some steps =>
      match stepIndex with
      | none => (.rejected 500 "Server error" false, user)
      | some index =>
        if index < 0 || index ≥ (steps.length : Int) then
          (.rejected 400 "Invalid step index" false, user)
        else
          match steps[index.toNat]? with
          | none => (.rejected 500 "Server error" false, user)
          | some step =>
            if status = "completed" && quizPending step then
              (.rejected 400
                "Please complete and pass the quiz before marking this step as completed" true,
                user)
            else
              let step' : RoadmapStep :=
                { step with
                  completedAt := if status = "completed" then some now else step.completedAt
                  status := status }
              let steps' := steps.set index.toNat step'
              let completedSteps := completedCount steps'
              let progress : Progress :=
                { user.progress with
                  skillsCompleted := completedSteps
                  overallCompletion := rt.roundPercent completedSteps steps'.length
                  lastUpdated := some now }
              (.updated progress, { user with roadmap := some steps', progress := progress })

/-- The gap's priority is critical or high. -/
def isCritical (g : Gap) : Bool :=
  g.priority = "critical" || g.priority = "high"

/-- The count `completedCritical` of `GET /progress`: the completed steps, from
position `idx` on, whose gap at the same position is critical or high. -/
def completedCriticalFrom (gaps : List Gap) : List RoadmapStep → Nat → Nat
  | [], _ => 0
  | step :: rest, idx =>
    (if step.status = "completed" &&
        (match gaps[idx]? with
         | none => false
         | some gap => isCritical gap) then 1 else 0) +
      completedCriticalFrom gaps rest (idx + 1)

/-- The value `jobAccessibility` computed by `GET /progress`. -/
def jobAccessibility (rt : Runtime) (user : User) : Nat :=
  match user.roadmap with
  | none => 0
  | some steps =>
    if steps.length > 0 then
      let criticalSkills := user.skillGapAnalysis.gaps.filter isCritical
      let completedCritical := completedCriticalFrom user.skillGapAnalysis.gaps steps 0
      if criticalSkills.length > 0 then rt.roundPercent completedCritical criticalSkills.length
      else user.progress.overallCompletion
    else 0

/-- The body of the `GET /progress` response. -/
structure ProgressReport where
  overallCompletion : Nat
  skillsCompleted : Nat
  totalSkills : Nat
  jobAccessibility : Nat
  lastUpdated : Option Nat
  deriving DecidableEq, Repr

/-- Handler of `GET /progress` at time `now`: the response and the user
document as saved. -/
def getProgress (rt : Runtime) (now : Nat) (user : User) : ProgressReport × User :=
  let accessibility := jobAccessibility rt user
  let user' : User :=
    if user.progress.jobAccessibility ≠ accessibility then
      { user with
        progress := { user.progress with jobAccessibility := accessibility,
                                          lastUpdated := some now } }
    else user
  ({ overallCompletion := user'.progress.overallCompletion
     skillsCompleted := user'.progress.skillsCompleted
     totalSkills := user'.progress.totalSkills
     jobAccessibility := accessibility
     lastUpdated := user'.progress.lastUpdated }, user')

/-! ## Analysis, roadmap and quiz generation routes -/

/-- The collaborators of the routes: the job role collection and the casting
the document store applies to a value decoded from the model's reply before it
is kept. A cast answers `none` where the handler throws while reading the
value (for instance when the expected array is missing). -/
structure Store where
  /-- Method `JobRole.findById`: the role, `null` for an id nothing is stored
  under, or a thrown error (for an id the store cannot cast). -/
  findJobRole : String → Except JsError (Option JobRole)
  /-- The gaps and summary kept from a decoded analysis. -/
  castAnalysis : Json → Option Analysis
  /-- The steps read from a decoded roadmap. -/
  castSteps : Json → Option (List StepDraft)
  /-- The questions read from a decoded quiz. -/
  castQuestions : Json → Option (List QuestionDraft)

/-- The `customJobRole` object of an analysis request. -/
structure CustomJobRole where
  title : Option String
  description : Option String
  requiredSkills : Option (List SkillReq)
  deriving DecidableEq, Repr

/-- The body of `POST /analysis`. -/
structure AnalysisRequest where
  jobRoleId : Option String
  customJobRole : Option CustomJobRole
  deriving DecidableEq, Repr

/-- Response of `POST /analysis`: an error status with its message, the
analysis with the role it was run against, or none: for an error without
`message` the `catch` block itself throws at `error.message.includes`, before
it sends a response. -/
inductive AnalysisResponse where
  | rejected (status : Nat) (message : String)
  | done (analysis : Reply Analysis) (analyzedAt : Nat) (roleId : Option String)
      (title : String)
  | unanswered

/-- The `catch` block of `POST /analysis` for the error `error`. -/
def analysisFailure (error : JsError) : AnalysisResponse :=
  match error.message with
  | none => .unanswered
  | some message => .rejected 500 (analysisErrorMessage message)

/-- The role selection of `POST /analysis`: the role to analyse against, or the
response the request is refused with. -/
def selectRole (store : Store) (request : AnalysisRequest) : Except AnalysisResponse JobRole :=
  match request.customJobRole with
  | some custom =>
    if !truthy custom.title || !truthy custom.description then
      .error (.rejected 400 "Custom job role must include title and description")
    else
      .ok { title := custom.title.getD ""
            description := custom.description
            requiredSkills := some (custom.requiredSkills.getD []) }
  | none =>
    if !truthy request.jobRoleId then
      .error (.rejected 400 "Please select a job role or provide custom job role")
    else
      match store.findJobRole (request.jobRoleId.getD "") with
      | .error error => .error (analysisFailure error)
      | .ok none => .error (.rejected 404 "Job role not found")
      | .ok (some jobRole) => .ok jobRole

/-- The analysis a reply stands for once stored. -/
def storedAnalysis (store : Store) : Reply Analysis → Option Analysis
  | .fallback analysis => some analysis
  | .parsed value => store.castAnalysis value

/-- Handler of `POST /analysis` at time `now`: the response, the user document
as saved and the key pool. The message of the 500 answer to a reply that cannot
be stored is not represented. -/
def postAnalysis (rt : Runtime) (store : Store) (pool : KeyPool) (now : Nat) (user : User)
    (request : AnalysisRequest) : AnalysisResponse × User × KeyPool :=
  if !truthy user.resumeText then
    (.rejected 400 "Please upload your resume first", user, pool)
  else
    match selectRole store request with
    | .error response => (response, user, pool)
    | .ok jobRole =>
      match analyzeSkillGaps rt pool user.resumeText jobRole with
      | (.error error, pool') =>
        (analysisFailure error, user, pool')
      | (.ok reply, pool') =>
        match storedAnalysis store reply with
        | none => (.rejected 500 "Error analyzing skill gaps", user, pool')
        | some analysis =>
          let roleId := if request.customJobRole.isSome then none else request.jobRoleId
          (.done reply now roleId jobRole.title,
            { user with
              skillGapAnalysis :=
                { gaps := analysis.gaps, summary := some analysis.summary, jobRoleId := roleId,
                  analyzedAt := some now }
              selectedJobRole := some { roleId := roleId, roleName := jobRole.title,
                                        selectedAt := now }
              progress :=
                { overallCompletion := 0, skillsCompleted := 0,
                  totalSkills := analysis.gaps.length, jobAccessibility := 0,
                  lastUpdated := some now } },
            pool')

/-- Response of `POST /roadmap`. -/
inductive RoadmapResponse where
  | rejected (status : Nat) (message : String)
  | done (steps : List RoadmapStep)
  deriving DecidableEq, Repr

/-- The steps a reply stands for. -/
def repliedSteps (store : Store) : Reply RoadmapDraft → Option (List StepDraft)
  | .fallback roadmap => some roadmap.steps
  | .parsed value => store.castSteps value

/-- The function `step => (...)` of `POST /roadmap`: a stored step, not
started. -/
def newStep (step : StepDraft) : RoadmapStep :=
  { skill := step.skill, resources := step.resources, estimatedTime := step.estimatedTime,
    description := step.description, status := "not_started", completedAt := none,
    quiz := none, youtubePlaylists := [] }

/-- The id `user.selectedJobRole?.roleId || user.skillGapAnalysis?.jobRoleId` of
`POST /roadmap`. -/
def roadmapRoleId (user : User) : Option String :=
  if truthy (user.selectedJobRole.bind (fun r => r.roleId)) then
    user.selectedJobRole.bind (fun r => r.roleId)
  else user.skillGapAnalysis.jobRoleId

/-- The selected role `POST /roadmap` saves: the one there is when it has an id,
else one made from the role found, or from the stored role name. -/
def roadmapSelection (now : Nat) (user : User) (jobRole : Option JobRole) :
    Option SelectedJobRole :=
  if truthy (user.selectedJobRole.bind (fun r => r.roleId)) then user.selectedJobRole
  else
    some { roleId := if truthy (roadmapRoleId user) then roadmapRoleId user else none
           roleName :=
             match jobRole with
             | some role => role.title
             | none => orDefault (user.selectedJobRole.map (fun r => r.roleName)) "Analyzed Role"
           selectedAt := now }

/-- Handler of `POST /roadmap` at time `now`: the response, the user document
as saved and the key pool. The job role, looked up or made up from the stored
analysis, only enters the prompt. -/
def postRoadmap (rt : Runtime) (store : Store) (pool : KeyPool) (now : Nat) (user : User) :
    RoadmapResponse × User × KeyPool :=
  if user.skillGapAnalysis.gaps.length = 0 then
    (.rejected 400 "Please run skill gap analysis first", user, pool)
  else
    match (if truthy (roadmapRoleId user) then store.findJobRole ((roadmapRoleId user).getD "")
           else .ok none) with
    | .error _ => (.rejected 500 "Error generating roadmap", user, pool)
    | .ok jobRole =>
      match generateRoadmap rt pool (some user.skillGapAnalysis.gaps) with
      | (.error _, pool') => (.rejected 500 "Error generating roadmap", user, pool')
      | (.ok reply, pool') =>
        match repliedSteps store reply with
        | none => (.rejected 500 "Error generating roadmap", user, pool')
        | some steps =>
          (.done (steps.map newStep),
            { user with roadmap := some (steps.map newStep)
                        selectedJobRole := roadmapSelection now user jobRole },
            pool')

/-- A question as the quiz generation response shows it. -/
structure QuestionView where
  question : String
  options : Options
  correctAnswer : Option String
  explanation : String
  deriving DecidableEq, Repr

/-- The function `q => (...)` of the quiz generation response. -/
def viewOf (q : QuizQuestion) : QuestionView :=
  { question := q.question, options := q.options, correctAnswer := q.correctAnswer,
    explanation := q.explanation }

/-- Response of `POST /roadmap/step/:stepIndex/quiz`. -/
inductive QuizResponse where
  | rejected (status : Nat) (message : String)
  | questions (shown : List QuestionView)
  deriving DecidableEq, Repr

/-- The questions a reply stands for. -/
def repliedQuestions (store : Store) : Reply (List QuestionDraft) → Option (List QuestionDraft)
  | .fallback questions => some questions
  | .parsed value => store.castQuestions value

/-- The function `q => (...)` that builds a stored question, not answered. -/
def newQuestion (q : QuestionDraft) : QuizQuestion :=
  { question := q.question, options := q.options, correctAnswer := some q.correctAnswer,
    explanation := q.explanation, userAnswer := none, isCorrect := none }

/-- Handler of `POST /roadmap/step/:stepIndex/quiz` at time `now`: the
response, the user document as saved and the key pool. -/
def postQuiz (rt : Runtime) (store : Store) (pool : KeyPool) (now : Nat) (user : User)
    (stepIndex : Option Int) : QuizResponse × User × KeyPool :=
  match user.roadmap with
  | none => (.rejected 404 "No roadmap found", user, pool)
  | some steps =>
    match stepIndex with
    | none => (.rejected 500 "Server error", user, pool)
    | some index =>
      if index < 0 || index ≥ (steps.length : Int) then
        (.rejected 400 "Invalid step index", user, pool)
      else
        match steps[index.toNat]? with
        | none => (.rejected 500 "Server error", user, pool)
        | some step =>
          if quizPending step then
            (.questions (((step.quiz.map (fun quiz => quiz.questions)).getD []).map viewOf),
              user, pool)
          else
            match generateQuiz rt pool step.skill with
            | (.error _, pool') => (.rejected 500 "Error generating quiz", user, pool')
            | (.ok reply, pool') =>
              match repliedQuestions store reply with
              | none => (.rejected 500 "Error generating quiz", user, pool')
              | some drafts =>
                let quiz : Quiz :=
                  { questions := drafts.map newQuestion, generatedAt := some now,
                    passed := false, passedAt := none }
                (.questions (quiz.questions.map viewOf),
                  { user with
                    roadmap := some (steps.set index.toNat { step with quiz := some quiz }) },
                  pool')

/-! ## Enhanced chat -/

/-- The `userProgress` argument of the enhanced chat. -/
structure UserProgress where
  completedSkills : Option (List String)
  inProgressSkills : Option (List String)
  deriving DecidableEq, Repr

/-- Value of `list.join(', ')`. -/
def joinComma : List String → String
  | [] => ""
  | [s] => s
  | s :: rest => s ++ ", " ++ joinComma rest

/-- The string the `catch` block of `chatWithAssistantEnhanced` builds, given a
value for the name `completedSkills`. -/
def enhancedFallbackText (context : ChatContext) (completedSkills : List String) : String :=
  "You're working on " ++ orDefault context.jobRole "your career goals" ++ ". " ++
    (if completedSkills.length > 0 then
      "You've completed: " ++ joinComma completedSkills ++ ". " ++
        "Great progress! Consider building a project combining these skills. "
     else "") ++
    "Focus on your highest priority skill gaps. " ++
    "Would you like project recommendations or learning resources?"

/-- The fallback branch of `chatWithAssistantEnhanced` as it runs. The names
`completedSkills`, `inProgressSkills` and `roadmapSteps` are declared with
`const` inside the `try` block, so they are not in scope in the `catch` block:
evaluating `completedSkills.length` there throws a `ReferenceError` before the
string is returned. -/
def enhancedFallback (_context : ChatContext) (_userProgress : UserProgress) :
    Except JsError String :=
  .error (newError "completedSkills is not defined")

/-- Function `chatWithAssistantEnhanced(userMessage, context, userProgress)`. -/
def chatWithAssistantEnhanced (rt : Runtime) (p : KeyPool) (context : ChatContext)
    (userProgress : UserProgress) : Except JsError ChatReply × KeyPool :=
  match getModelWithRetryDefault rt p with
  | (.ok model, p1) =>
    match generateText rt model p1 with
    | (.ok text, p2) => (.ok (.generated (trim text)), p2)
    | (.error error, p2) =>
      if isRecoverableError rt error then
        (match enhancedFallback context userProgress with
         | .ok text => (.ok (.canned text), p2)
         | .error e => (.error e, p2))
      else (.error error, p2)
  | (.error error, p1) =>
    if isRecoverableError rt error then
      (match enhancedFallback context userProgress with
       | .ok text => (.ok (.canned text), p1)
       | .error e => (.error e, p1))
    else (.error error, p1)

/-! ## Key loading -/

/-- The environment variables `initializeApiKeys` reads: `GEMINI_API_KEY`, the
series `GEMINI_API_KEY_1`, `GEMINI_API_KEY_2`, ... in order (a variable behind
the end of the list is unset) and `GEMINI_API_KEYS`. -/
structure KeyEnv where
  single : Option String
  numbered : List (Option String)
  list : Option String
  deriving DecidableEq, Repr

/-- The `while (true)` loop over the numbered variables: the trimmed values up
to the first variable that is unset or blank. -/
def numberedKeys : List (Option String) → List String
  | [] => []
  | none :: _ => []
  | some key :: rest => if trim key != "" then trim key :: numberedKeys rest else []

/-- Value of `s.split(',')` on characters. -/
def splitComma : List Char → List (List Char)
  | [] => [[]]
  | c :: cs =>
    if c = ',' then [] :: splitComma cs
    else
      match splitComma cs with
      | [] => [[c]]
      | item :: items => (c :: item) :: items

/-- Value of `s.split(',').map(k => k.trim()).filter(k => k)`. -/
def listedKeys (s : String) : List String :=
  ((splitComma s.data).map (fun item => trim (String.mk item))).filter (fun k => k != "")

/-- The keys pushed before duplicates are removed. -/
def loadedKeys (env : KeyEnv) : List String :=
  (match env.single with
   | none => []
   | some key => if key != "" && trim key != "" then [trim key] else []) ++
  numberedKeys env.numbered ++
  (match env.list with
   | none => []
   | some keys => if keys != "" then listedKeys keys else [])

/-- Value of `[...new Set(keys)]` given the members already in the set: a key
is kept where it is new. -/
def uniqueAfter (seen : List String) : List String → List String
  | [] => []
  | key :: rest =>
    if seen.contains key then uniqueAfter seen rest else key :: uniqueAfter (key :: seen) rest

/-- Function `initializeApiKeys`: the new value of `apiKeys`. -/
def initializeApiKeys (env : KeyEnv) : List String :=
  uniqueAfter [] (loadedKeys env)

/-- The module state after loading: the keys of the environment, the first one
current. -/
def loadedPool (env : KeyEnv) : KeyPool :=
  { apiKeys := initializeApiKeys env, currentKeyIndex := 0 }

/-- Function `getCurrentApiKey`, in the environment `env`: the current key, if
any, and the module state, reloaded when the pool was empty. -/
def getCurrentApiKey (env : KeyEnv) (p : KeyPool) : Option String × KeyPool :=
  let p' : KeyPool := if p.apiKeys.length = 0 then { p with apiKeys := initializeApiKeys env } else p
  if p'.apiKeys.length = 0 then (none, p') else (p'.apiKeys[p'.currentKeyIndex]?, p')

/-- The states of the key pool that a process can be in: loaded from the
environment, then changed by rotations, by reloads through `getCurrentApiKey`
and by the ghost log. -/
inductive PoolReachable : KeyPool → Prop where
  | loaded (env : KeyEnv) : PoolReachable (loadedPool env)
  | rotated (p : KeyPool) : PoolReachable p → PoolReachable (rotateApiKey p)
  | current (env : KeyEnv) (p : KeyPool) : PoolReachable p →
      PoolReachable (getCurrentApiKey env p).2
  | logged (p : KeyPool) (evs : List Event) : PoolReachable p → PoolReachable (p.logged evs)

/-- First-occurrence de-duplication, in the words of the specification: the
head is kept and removed from the de-duplicated rest. -/
def firstOccurrences : List String → List String
  | [] => []
  | key :: rest => key :: (firstOccurrences rest).filter (fun k => k != key)

/-- Function `rotateApiKey` called `n` times. -/
def rotateTimes : Nat → KeyPool → KeyPool
  | 0, p => p
  | n + 1, p => rotateTimes n (rotateApiKey p)

/-! ## Concrete runs of the routes -/

/-- The demonstration runtime with percentages in double arithmetic. -/
def ieeeRuntime : Runtime := { demoRuntime with roundPercent := percentDouble }

/-- The quota-refusing runtime with percentages in double arithmetic. -/
def ieeeQuotaRuntime : Runtime := { quotaRuntime with roundPercent := percentDouble }

/-- A store with no job role, unable to keep any decoded value. -/
def emptyStore : Store :=
  { findJobRole := fun _ => .ok none, castAnalysis := fun _ => none, castSteps := fun _ => none,
    castQuestions := fun _ => none }

/-- A step for Docker without quiz. -/
def plainStep (status : String) : RoadmapStep :=
  { skill := "Docker", resources := [], estimatedTime := "3-4 weeks",
    description := "Focus on Docker", status := status, completedAt := none, quiz := none,
    youtubePlaylists := [] }

/-- A gap of high priority. -/
def highGap : Gap :=
  { skill := "Docker", currentLevel := "not_mentioned", requiredLevel := "intermediate",
    priority := "high", description := "Your resume does not mention Docker." }

/-- A user with forty high-priority gaps and a roadmap of forty steps, the first
`k` of them completed. -/
def fortySteps (k : Nat) : User :=
  { roadmap := some (List.replicate k (plainStep "completed") ++
      List.replicate (40 - k) (plainStep "in_progress"))
    skillGapAnalysis := { gaps := List.replicate 40 highGap, summary := none,
                          jobRoleId := none, analyzedAt := none } }

/-! ## Measures on the ghost log -/

/-- Number of key rotations among the events. -/
def rotationCount (evs : List Event) : Nat :=
  (evs.filter (fun ev => match ev with
    | .rotated _ => true
    | _ => false)).length

/-- Number of bind requests among the events. -/
def bindCount (evs : List Event) : Nat :=
  (evs.filter (fun ev => match ev with
    | .bind _ _ => true
    | _ => false)).length

/-- The models `getModelWithRetry` tries: the supported ones without
'gemini-2.0-flash-exp'. -/
def validModelsOf (supportedModels : List String) : List String :=
  supportedModels.filter (fun model => model != "gemini-2.0-flash-exp")

/-- A runtime in which no model binds. -/
def unboundRuntime : Runtime :=
  { demoRuntime with getGenerativeModel := fun _ _ => .error (newError "model not found") }

/-- A pool of three keys, the second one current. -/
def threeKeyPool : KeyPool := { apiKeys := ["key-1", "key-2", "key-3"], currentKeyIndex := 1 }

/-- A value without the white space at its two ends, in the words of the
specification and independent of `trim`: the leading white space is dropped
from the front and the trailing white space from the back. -/
def trimmedValue (s : String) : String :=
  String.mk ((s.data.dropWhile isJsSpace).rdropWhile isJsSpace)

/-- The items of a comma-separated list, in the words of the specification and
independent of `splitComma`: the pieces between the commas, by the library's
split. -/
def commaItems (s : String) : List String :=
  (s.data.splitOn ',').map String.mk

/-- The key list in the words of the specification, before de-duplication: the
trimmed single value if it is non-empty, then the trimmed numbered values up to
but excluding the first missing or blank one, then the trimmed non-empty items
of the comma-separated list. -/
def specifiedKeys (env : KeyEnv) : List String :=
  (match env.single with
   | none => []
   | some key => if trimmedValue key != "" then [trimmedValue key] else []) ++
  (env.numbered.takeWhile (fun value =>
      match value with
      | none => false
      | some key => trimmedValue key != "")).filterMap (fun value => value.map trimmedValue) ++
  (match env.list with
   | none => []
   | some keys => ((commaItems keys).map trimmedValue).filter (fun k => k != ""))

/-- The string neither starts nor ends with a white space character. -/
def noOuterSpace (s : String) : Prop :=
  (∀ c, s.data.head? = some c → isJsSpace c = false) ∧
  (∀ c, s.data.getLast? = some c → isJsSpace c = false)

/-- An environment with a single key, a numbered series with a blank third
value and a list that repeats keys. -/
def demoEnv : KeyEnv :=
  { single := some " key-a "
    numbered := [some "key-b", some "key-a ", some "  ", some "key-z"]
    list := some "key-c, key-b,, key-d" }

/-! ## Concrete runs of the analysis and roadmap routes -/

/-- Status code of a response of `POST /analysis`, 0 when the handler sends
none. -/
def AnalysisResponse.status : AnalysisResponse → Nat
  | .rejected status _ => status
  | .done _ _ _ _ => 200
  | .unanswered => 0

/-- A store that holds the backend role and the junior role, and keeps no
decoded value. -/
def demoStore : Store :=
  { findJobRole := fun id =>
      if id = "role-backend" then .ok (some backendRole)
      else if id = "role-junior" then .ok (some juniorRole)
      else .ok none
    castAnalysis := fun _ => none
    castSteps := fun _ => none
    castQuestions := fun _ => none }

/-- A user with the resume of the end-to-end scenario and nothing else: the
roadmap has no steps. -/
def resumeUser : User := { roadmap := some [], resumeText := some "Node.js, Express, MongoDB" }

/-- The user after analysis against the backend role and roadmap generation,
the service refusing for lack of quota. -/
def plannedUser : User :=
  (postRoadmap quotaRuntime demoStore oneKeyPool 2
    (postAnalysis quotaRuntime demoStore oneKeyPool 1 resumeUser
      ⟨some "role-backend", none⟩).2.1).2.1

/-- The planned user after marking the first step (Node.js) completed. -/
def startedUser : User :=
  (updateStep quotaRuntime 3 plannedUser (some 0) "completed").2

/-- The started user after a second analysis, against the junior role. -/
def reanalysedUser : User :=
  (postAnalysis quotaRuntime demoStore oneKeyPool 4 startedUser ⟨some "role-junior", none⟩).2.1

/-- The started user after generating the roadmap again. -/
def replannedUser : User :=
  (postRoadmap quotaRuntime demoStore oneKeyPool 4 startedUser).2.1

/-- The roadmap steps and the skill gaps name the same skills at the same
positions, when there is a roadmap. -/
def aligned (user : User) : Bool :=
  match user.roadmap with
  | none => true
  | some steps =>
    steps.map (fun step => step.skill) == user.skillGapAnalysis.gaps.map (fun gap => gap.skill)

/-- The statuses of the user's roadmap steps. -/
def stepStatuses (user : User) : List String :=
  (user.roadmap.getD []).map (fun step => step.status)

/-! ## Vocabulary and concrete runs for chat, quiz generation and analysis results -/

/-- The proficiency levels a gap may require. -/
def requiredLevels : List String := ["beginner", "intermediate", "advanced", "expert"]

/-- The levels a gap may report as current. -/
def currentLevels : List String :=
  ["beginner", "intermediate", "advanced", "expert", "not_mentioned"]

/-- The priorities of a gap. -/
def priorities : List String := ["low", "medium", "high", "critical"]

/-- Every requirement object of the role that carries a level or an importance
carries one of the enumeration. -/
def enumeratedRole (jobRole : JobRole) : Bool :=
  (jobRole.requiredSkills.getD []).all (fun r =>
    match r with
    | .str _ => true
    | .obj _ level importance =>
      (!truthy level || requiredLevels.contains (level.getD "")) &&
        (!truthy importance || priorities.contains (importance.getD "")))

/-- A custom role that asks for Docker at a level and with an importance
outside the enumerations. -/
def guruRole : JobRole :=
  { title := "Platform Lead"
    description := some "Own the platform"
    requiredSkills := some [.obj (some "Docker") (some "guru") (some "urgent")] }

/-- A chat context for the backend role. -/
def demoContext : ChatContext := { jobRole := some "Backend Engineer", progress := 50 }

/-- A user progress record with one completed skill. -/
def demoProgress : UserProgress :=
  { completedSkills := some ["Node.js"], inProgressSkills := some ["Docker"] }

/-- A user whose single step (Docker, in progress) has no quiz. -/
def userWithoutQuiz : User := { roadmap := some [plainStep "in_progress"] }

/-- The user with the two-question quiz after a failed submission. -/
def failedUser : User :=
  (submitQuiz quotaRuntime 5 (userWithQuiz twoQuestions) (some 0)
    (some [⟨0, "B"⟩, ⟨1, "A"⟩])).2

/-- A user whose single step is completed, its two-question quiz passed at
time 2. -/
def passedUser : User :=
  { roadmap := some
      [ { skill := "Docker", resources := [], estimatedTime := "1-2 weeks",
          description := "Focus on Docker", status := "completed", completedAt := some 3,
          quiz := some { questions := twoQuestions, generatedAt := some 1, passed := true,
                         passedAt := some 2 },
          youtubePlaylists := [] } ] }

/-- The runtime `rt` with another answer for a percentage over zero. -/
def withZeroPercent (rt : Runtime) (atZero : Nat → Nat) : Runtime :=
  { rt with roundPercent := fun a b => if b = 0 then atZero a else rt.roundPercent a b }

/-! # Theorems -/

/-! ## Fallback gap analysis -/

theorem defaultCurrentLevel_eq_not_mentioned (level : String) (mentioned : Bool) :
    defaultCurrentLevel level mentioned = "not_mentioned" ↔ mentioned = false := by
  unfold defaultCurrentLevel
  cases mentioned
  · simp
  · simp only [Bool.not_true, Bool.false_eq_true, if_false]
    split_ifs <;> decide

theorem defaultCurrentLevel_orDefault (level : String) (mentioned : Bool) :
    defaultCurrentLevel (orDefault (some level) "intermediate") mentioned =
      defaultCurrentLevel level mentioned := by
  by_cases h : level = ""
  · subst h; cases mentioned <;> decide
  · simp [orDefault, h]

/-- Every gap the fallback mapping produces carries the level
`defaultCurrentLevel` derives from its own required level and from whether its
skill occurs in the lower-cased resume. -/
theorem gapsOf_currentLevel (rt : Runtime) (lower : String) (specs : List SkillSpec)
    (gs : List Gap) (h : gapsOf rt lower specs = .ok gs) :
    ∀ g ∈ gs, g.currentLevel =
      defaultCurrentLevel g.requiredLevel (includes lower (rt.toLowerCase g.skill)) := by
  induction specs generalizing gs with
  | nil =>
    simp only [gapsOf, Except.ok.injEq] at h
    subst h; simp
  | cons sr rest ih =>
    simp only [gapsOf] at h
    cases hg : gapOf rt lower sr with
    | error e => simp [hg] at h
    | ok g0 =>
      cases hr : gapsOf rt lower rest with
      | error e => simp [hg, hr] at h
      | ok gs0 =>
        simp only [hg, hr, Except.ok.injEq] at h
        subst h
        intro g hmem
        rcases List.mem_cons.mp hmem with rfl | hmem
        · unfold gapOf at hg
          cases hs : sr.skill with
          | none => simp [hs] at hg
          | some name =>
            simp only [hs, Except.ok.injEq] at hg
            subst hg
            simp [defaultCurrentLevel_orDefault]
        · exact ih gs0 hr g hmem

/-- The gaps of the fallback mapping carry the names of the entries, in order. -/
theorem gapsOf_names (rt : Runtime) (lower : String) (specs : List SkillSpec)
    (gs : List Gap) (h : gapsOf rt lower specs = .ok gs) :
    gs.map (fun g => some g.skill) = specs.map (fun sr => sr.skill) := by
  induction specs generalizing gs with
  | nil =>
    simp only [gapsOf, Except.ok.injEq] at h
    subst h; rfl
  | cons sr rest ih =>
    simp only [gapsOf] at h
    cases hg : gapOf rt lower sr with
    | error e => simp [hg] at h
    | ok g0 =>
      cases hr : gapsOf rt lower rest with
      | error e => simp [hg, hr] at h
      | ok gs0 =>
        simp only [hg, hr, Except.ok.injEq] at h
        subst h
        unfold gapOf at hg
        cases hs : sr.skill with
        | none => simp [hs] at hg
        | some name =>
          simp only [hs, Except.ok.injEq] at hg
          subst hg
          simp [ih gs0 hr, hs]

/-- The fallback mapping succeeds when every entry has a skill name, and keeps
the entries' names in order. -/
theorem gapsOf_ok (rt : Runtime) (lower : String) (specs : List SkillSpec)
    (h : ∀ sr ∈ specs, sr.skill.isSome = true) :
    ∃ gs, gapsOf rt lower specs = .ok gs ∧
      gs.map (fun g => some g.skill) = specs.map (fun sr => sr.skill) := by
  induction specs with
  | nil => exact ⟨[], rfl, rfl⟩
  | cons sr rest ih =>
    obtain ⟨gs, hgs, hmap⟩ := ih (fun x hx => h x (List.mem_cons_of_mem _ hx))
    have hsr := h sr (List.mem_cons_self _ _)
    obtain ⟨name, hname⟩ := Option.isSome_iff_exists.mp hsr
    simp only [gapsOf, gapOf, hname, hgs]
    exact ⟨_, rfl, by simp [hmap, hname]⟩

theorem normaliseSkill_skill (r : SkillReq) : (normaliseSkill r).skill = r.name := by
  cases r <;> rfl

theorem sampledSkills_length (rt : Runtime) (lower : String) (d : Option String) :
    (sampledSkills rt lower d).length ≤ 5 := by
  unfold sampledSkills
  exact List.length_take_le _ _

theorem sampledSkills_sublist (rt : Runtime) (lower : String) (d : Option String) :
    (sampledSkills rt lower d).Sublist commonSkills := by
  unfold sampledSkills
  exact (List.take_sublist _ _).trans (List.filter_sublist _)

/-- The fallback branch on a role whose requirements all carry a name: it
returns, and its gap list is the mapped skill list or, when that is empty, the
placeholder. -/
theorem fallbackAnalysis_ok (rt : Runtime) (resumeText : Option String) (jobRole : JobRole)
    (hnames : ∀ r ∈ jobRole.requiredSkills.getD [], (SkillReq.name r).isSome = true) :
    ∃ gs, gapsOf rt (rt.toLowerCase (orDefault resumeText ""))
        (skillsToAnalyze rt (rt.toLowerCase (orDefault resumeText "")) jobRole) = .ok gs ∧
      fallbackAnalysis rt resumeText jobRole =
        .ok { gaps := if gs.length > 0 then gs else [placeholderGap]
              summary := fallbackSummary gs jobRole.title } ∧
      gs.map (fun g => some g.skill) =
        (skillsToAnalyze rt (rt.toLowerCase (orDefault resumeText "")) jobRole).map
          (fun sr => sr.skill) := by
  have hspecs : ∀ sr ∈ skillsToAnalyze rt (rt.toLowerCase (orDefault resumeText "")) jobRole,
      sr.skill.isSome = true := by
    intro sr hsr
    unfold skillsToAnalyze at hsr
    split at hsr
    · next r rs heq =>
      obtain ⟨x, hx, rfl⟩ := List.mem_map.mp hsr
      rw [normaliseSkill_skill]
      exact hnames x (by simpa [heq] using hx)
    · obtain ⟨x, _, rfl⟩ := List.mem_map.mp hsr
      rfl
  obtain ⟨gs, hgs, hmap⟩ := gapsOf_ok rt _ _ hspecs
  exact ⟨gs, hgs, by simp [fallbackAnalysis, hgs], hmap⟩

/-- C1, as stated, fails: for a role without listed skills whose description and
resume name no common skill, the fallback path returns the single placeholder
gap "General Skills", which is not taken from the common-skill list and has
`currentLevel = "intermediate"` although its name does not occur in the
resume. -/
theorem analyzeSkillGaps_placeholder_counterexample :
    (analyzeSkillGaps demoRuntime emptyPool (some "Ten years of retail sales experience")
        salesRole).1 =
      .ok (.fallback
        { gaps := [placeholderGap]
          summary := "Great job! Your resume already covers the key skills for Account Manager." }) ∧
    placeholderGap.skill ∉ commonSkills ∧
    ¬ (placeholderGap.currentLevel = "not_mentioned" ↔
        includes (demoRuntime.toLowerCase "Ten years of retail sales experience")
          (demoRuntime.toLowerCase placeholderGap.skill) = false) := by
  refine ⟨rfl, by decide, by decide⟩

/-- C1, amended: when `analyzeSkillGaps` takes its fallback path it returns an
analysis if every required-skill entry carries a skill name, and every analysis
it returns has, for a non-empty required-skill list, one gap per required skill
in the same order and with the same name; for an empty one, one gap per sampled
common skill (at most five, in the order of the common-skill list), or the
single placeholder gap when no common skill is sampled. Every gap other than
the placeholder has `currentLevel = "not_mentioned"` exactly when its
lower-cased name does not occur in the lower-cased resume. -/
theorem analyzeSkillGaps_fallback_gaps (rt : Runtime) (p p' : KeyPool)
    (resumeText : Option String) (jobRole : JobRole) (error : JsError)
    (htry : analyzeSkillGapsTry rt p = (.error error, p'))
    (hguard : analysisFallbackGuard rt error = true) :
    ((∀ r ∈ jobRole.requiredSkills.getD [], (SkillReq.name r).isSome = true) →
      ∃ a, analyzeSkillGaps rt p resumeText jobRole = (.ok (.fallback a), p')) ∧
    ∀ a, analyzeSkillGaps rt p resumeText jobRole = (.ok (.fallback a), p') →
      (jobRole.requiredSkills.getD [] ≠ [] →
        a.gaps.map (fun g => some g.skill) =
          (jobRole.requiredSkills.getD []).map SkillReq.name ∧
        ∀ g ∈ a.gaps, (g.currentLevel = "not_mentioned" ↔
          includes (rt.toLowerCase (orDefault resumeText "")) (rt.toLowerCase g.skill) = false)) ∧
      (jobRole.requiredSkills.getD [] = [] →
        (sampledSkills rt (rt.toLowerCase (orDefault resumeText "")) jobRole.description).length ≤ 5 ∧
        (sampledSkills rt (rt.toLowerCase (orDefault resumeText "")) jobRole.description).Sublist
          commonSkills ∧
        (sampledSkills rt (rt.toLowerCase (orDefault resumeText "")) jobRole.description ≠ [] →
          a.gaps.map (fun g => g.skill) =
            sampledSkills rt (rt.toLowerCase (orDefault resumeText "")) jobRole.description ∧
          ∀ g ∈ a.gaps, (g.currentLevel = "not_mentioned" ↔
            includes (rt.toLowerCase (orDefault resumeText "")) (rt.toLowerCase g.skill) = false)) ∧
        (sampledSkills rt (rt.toLowerCase (orDefault resumeText "")) jobRole.description = [] →
          a.gaps = [placeholderGap])) := by
  constructor
  · intro hnames
    obtain ⟨gs, _, hfb, _⟩ := fallbackAnalysis_ok rt resumeText jobRole hnames
    exact ⟨{ gaps := if gs.length > 0 then gs else [placeholderGap]
             summary := fallbackSummary gs jobRole.title },
      by simp only [analyzeSkillGaps, htry, hguard, if_true, hfb]⟩
  intro a ha
  have hfb : fallbackAnalysis rt resumeText jobRole = .ok a := by
    simp only [analyzeSkillGaps, htry, hguard, if_true] at ha
    split at ha
    · next analysis hfb =>
      simp only [Prod.mk.injEq, Except.ok.injEq, Reply.fallback.injEq, and_true] at ha
      rw [hfb, ha]
    · simp at ha
  obtain ⟨gs, hgs, rfl⟩ : ∃ gs, gapsOf rt (rt.toLowerCase (orDefault resumeText ""))
      (skillsToAnalyze rt (rt.toLowerCase (orDefault resumeText "")) jobRole) = .ok gs ∧
      a = { gaps := if gs.length > 0 then gs else [placeholderGap]
            summary := fallbackSummary gs jobRole.title } := by
    unfold fallbackAnalysis at hfb
    simp only at hfb
    split at hfb
    · simp at hfb
    · next gs hgs =>
      simp only [Except.ok.injEq] at hfb
      exact ⟨gs, hgs, hfb.symm⟩
  have hmap := gapsOf_names rt _ _ gs hgs
  have hlev := gapsOf_currentLevel rt _ _ gs hgs
  have hiff : ∀ g ∈ gs, (g.currentLevel = "not_mentioned" ↔
      includes (rt.toLowerCase (orDefault resumeText "")) (rt.toLowerCase g.skill) = false) := by
    intro g hg
    rw [hlev g hg]
    exact defaultCurrentLevel_eq_not_mentioned _ _
  refine ⟨?_, ?_⟩
  · intro hne
    have hsk : skillsToAnalyze rt (rt.toLowerCase (orDefault resumeText "")) jobRole =
        (jobRole.requiredSkills.getD []).map normaliseSkill := by
      unfold skillsToAnalyze
      cases hreq : jobRole.requiredSkills with
      | none => simp [hreq] at hne
      | some l =>
        cases l with
        | nil => simp [hreq] at hne
        | cons r rs => simp
    have hlen : gs.length > 0 := by
      have h1 := congrArg List.length hmap
      simp only [List.length_map, hsk] at h1
      rw [h1]
      exact List.length_pos.mpr hne
    simp only [hlen, if_true]
    refine ⟨?_, hiff⟩
    rw [hmap, hsk, List.map_map]
    exact List.map_congr_left (fun r _ => normaliseSkill_skill r)
  · intro hnil
    have hsk : skillsToAnalyze rt (rt.toLowerCase (orDefault resumeText "")) jobRole =
        (sampledSkills rt (rt.toLowerCase (orDefault resumeText "")) jobRole.description).map
          (fun skill => ⟨some skill, "intermediate", "medium"⟩) := by
      unfold skillsToAnalyze
      cases hreq : jobRole.requiredSkills with
      | none => rfl
      | some l =>
        cases l with
        | nil => rfl
        | cons r rs => simp [hreq] at hnil
    rw [hsk, List.map_map] at hmap
    have hmap' : gs.map (fun g => g.skill) =
        sampledSkills rt (rt.toLowerCase (orDefault resumeText "")) jobRole.description := by
      have h1 : gs.map (fun g => some g.skill) = (gs.map (fun g => g.skill)).map some := by
        rw [List.map_map]; rfl
      have h2 : (sampledSkills rt (rt.toLowerCase (orDefault resumeText ""))
          jobRole.description).map
            ((fun sr : SkillSpec => sr.skill) ∘ fun skill => ⟨some skill, "intermediate", "medium"⟩) =
          (sampledSkills rt (rt.toLowerCase (orDefault resumeText ""))
            jobRole.description).map some := rfl
      rw [h1, h2] at hmap
      exact List.map_injective_iff.mpr (Option.some_injective _) hmap
    refine ⟨sampledSkills_length _ _ _, sampledSkills_sublist _ _ _, ?_, ?_⟩
    · intro hne
      have hlen : gs.length > 0 := by
        have h1 := congrArg List.length hmap'
        rw [List.length_map] at h1
        rw [h1]
        exact List.length_pos.mpr hne
      simp only [hlen, if_true]
      exact ⟨hmap', hiff⟩
    · intro hs
      have hlen : gs.length = 0 := by
        have h1 := congrArg List.length hmap'
        rw [List.length_map] at h1
        rw [h1, hs]; rfl
      simp [hlen]

/-- The end-to-end scenario on the fallback path: a process without keys, the
resume "Node.js, Express, MongoDB" and a role requiring "Node.js" and
"Docker". -/
theorem analyzeSkillGaps_fallback_gaps_witness :
    analyzeSkillGapsTry demoRuntime emptyPool =
      (.error (newError
        "Gemini API key is not configured. Please set GEMINI_API_KEY in your .env file."),
        emptyPool) ∧
    ∃ a, analyzeSkillGaps demoRuntime emptyPool (some "Node.js, Express, MongoDB") backendRole =
        (.ok (.fallback a), emptyPool) ∧
      a.gaps.map (fun g => some g.skill) = [some "Node.js", some "Docker"] ∧
      ∀ g ∈ a.gaps, (g.currentLevel = "not_mentioned" ↔
        includes (demoRuntime.toLowerCase (orDefault (some "Node.js, Express, MongoDB") ""))
          (demoRuntime.toLowerCase g.skill) = false) := by
  refine ⟨rfl, ?_⟩
  obtain ⟨hex, hall⟩ := analyzeSkillGaps_fallback_gaps demoRuntime emptyPool emptyPool
    (some "Node.js, Express, MongoDB") backendRole
    (newError "Gemini API key is not configured. Please set GEMINI_API_KEY in your .env file.")
    rfl (by decide)
  obtain ⟨a, ha⟩ := hex (by decide)
  exact ⟨a, ha, ((hall a ha).1 (by decide)).1, ((hall a ha).1 (by decide)).2⟩

/-- A fallback result of `analyzeSkillGaps` is the value of its fallback branch. -/
theorem analyzeSkillGaps_fallback_inv (rt : Runtime) (p p' : KeyPool)
    (resumeText : Option String) (jobRole : JobRole) (a : Analysis)
    (h : analyzeSkillGaps rt p resumeText jobRole = (.ok (.fallback a), p')) :
    fallbackAnalysis rt resumeText jobRole = .ok a := by
  unfold analyzeSkillGaps at h
  split at h
  · simp at h
  · split at h
    · split at h
      · next analysis hfb =>
        simp only [Prod.mk.injEq, Except.ok.injEq, Reply.fallback.injEq] at h
        rw [hfb, h.1]
      · simp at h
    · simp at h

/-- The gaps of a fallback analysis are those of the fallback mapping, or the
placeholder alone. -/
theorem fallbackAnalysis_gaps (rt : Runtime) (resumeText : Option String) (jobRole : JobRole)
    (a : Analysis) (h : fallbackAnalysis rt resumeText jobRole = .ok a) :
    ∀ g ∈ a.gaps, g = placeholderGap ∨
      g.currentLevel = defaultCurrentLevel g.requiredLevel
        (includes (rt.toLowerCase (orDefault resumeText "")) (rt.toLowerCase g.skill)) := by
  unfold fallbackAnalysis at h
  simp only at h
  split at h
  · simp at h
  · next gs hgs =>
    simp only [Except.ok.injEq] at h
    subst h
    intro g hg
    by_cases hlen : gs.length > 0
    · simp only [hlen, if_true] at hg
      exact Or.inr (gapsOf_currentLevel rt _ _ gs hgs g hg)
    · simp only [hlen, if_false, List.mem_singleton] at hg
      exact Or.inl hg

/-- C2, as stated, fails for the required level "beginner": a process without
keys analysing a resume that mentions Docker against a role asking for Docker at
beginner level returns a gap whose current level is "beginner" too, not one
tier below. -/
theorem analyzeSkillGaps_beginner_counterexample :
    (analyzeSkillGaps demoRuntime emptyPool (some "Docker and Kubernetes on AWS") juniorRole).1 =
      .ok (.fallback
        { gaps :=
            [ { skill := "Docker", currentLevel := "beginner", requiredLevel := "beginner",
                priority := "high",
                description :=
                  "Strengthen your proficiency in Docker to reach the beginner level expected for this role." } ]
          summary :=
            "Focus on the 1 highest-priority skills first to become job-ready for Junior DevOps Engineer." }) ∧
    includes (demoRuntime.toLowerCase "Docker and Kubernetes on AWS")
      (demoRuntime.toLowerCase "Docker") = true ∧
    ¬ (levelRank "beginner" = (levelRank "beginner").map (fun r => r + 1)) := by
  refine ⟨rfl, by decide, by decide⟩

/-- C2, amended: in a fallback analysis, every gap whose skill is mentioned in
the resume has a current level exactly one tier below its required level when
the required level is intermediate, advanced or expert; when the required
level is beginner the current level is beginner as well. -/
theorem analyzeSkillGaps_fallback_level (rt : Runtime) (p p' : KeyPool)
    (resumeText : Option String) (jobRole : JobRole) (a : Analysis)
    (h : analyzeSkillGaps rt p resumeText jobRole = (.ok (.fallback a), p')) :
    ∀ g ∈ a.gaps,
      includes (rt.toLowerCase (orDefault resumeText "")) (rt.toLowerCase g.skill) = true →
      (g.requiredLevel ∈ ["intermediate", "advanced", "expert"] →
        levelRank g.requiredLevel = (levelRank g.currentLevel).map (fun r => r + 1)) ∧
      (g.requiredLevel = "beginner" → g.currentLevel = "beginner") := by
  intro g hg hmentioned
  have hfb := analyzeSkillGaps_fallback_inv rt p p' resumeText jobRole a h
  rcases fallbackAnalysis_gaps rt resumeText jobRole a hfb g hg with rfl | hlev
  · exact ⟨fun _ => by decide, fun hb => absurd hb (by decide)⟩
  · rw [hmentioned] at hlev
    refine ⟨fun hmem => ?_, fun hb => ?_⟩
    · simp only [List.mem_cons, List.mem_singleton, List.not_mem_nil, or_false] at hmem
      rcases hmem with hr | hr | hr <;> rw [hlev, hr] <;> decide
    · rw [hlev, hb]; decide

/-- The end-to-end scenario: "Node.js" is mentioned and required at intermediate
level, so its gap stands at beginner level. -/
theorem analyzeSkillGaps_fallback_level_witness :
    ∃ a, analyzeSkillGaps demoRuntime emptyPool (some "Node.js, Express, MongoDB") backendRole =
        (.ok (.fallback a), emptyPool) ∧
      ∀ g ∈ a.gaps,
        includes (demoRuntime.toLowerCase (orDefault (some "Node.js, Express, MongoDB") ""))
          (demoRuntime.toLowerCase g.skill) = true →
        (g.requiredLevel ∈ ["intermediate", "advanced", "expert"] →
          levelRank g.requiredLevel = (levelRank g.currentLevel).map (fun r => r + 1)) ∧
        (g.requiredLevel = "beginner" → g.currentLevel = "beginner") :=
  ⟨_, rfl, analyzeSkillGaps_fallback_level demoRuntime emptyPool emptyPool
    (some "Node.js, Express, MongoDB") backendRole _ rfl⟩

/-! ## Response extraction -/

theorem isPrefixOf_append_right (pat A X : List Char) (h : pat.isPrefixOf A = true) :
    pat.isPrefixOf (A ++ X) = true := by
  induction pat generalizing A with
  | nil => simp [List.isPrefixOf]
  | cons x xs ih =>
    cases A with
    | nil => simp [List.isPrefixOf] at h
    | cons a A' =>
      simp only [List.isPrefixOf, Bool.and_eq_true, List.cons_append] at h ⊢
      exact ⟨h.1, ih A' h.2⟩

/-- A pattern that matches at the start of `A ++ c :: B` without containing `c`
matches inside `A`. -/
theorem isPrefixOf_of_append_sep (c : Char) (B : List Char) (pat A : List Char)
    (hc : c ∉ pat) (h : pat.isPrefixOf (A ++ c :: B) = true) :
    pat.isPrefixOf A = true ∧
      (A ++ c :: B).drop pat.length = A.drop pat.length ++ c :: B := by
  induction pat generalizing A with
  | nil => simp [List.isPrefixOf]
  | cons x xs ih =>
    have hx : x ≠ c := fun hxc => hc (by simp [hxc])
    have hxs : c ∉ xs := fun hmem => hc (List.mem_cons_of_mem _ hmem)
    cases A with
    | nil =>
      simp only [List.nil_append, List.isPrefixOf, Bool.and_eq_true, beq_iff_eq] at h
      exact absurd h.1 hx
    | cons a A' =>
      simp only [List.cons_append, List.isPrefixOf, Bool.and_eq_true] at h ⊢
      obtain ⟨h1, h2⟩ := ih A' hxs h.2
      exact ⟨⟨h.1, h1⟩, by simpa using h2⟩

theorem dropWhile_append_sep (f : Char → Bool) (c : Char) (hc : f c = false)
    (A B : List Char) :
    (A ++ c :: B).dropWhile f = A.dropWhile f ++ c :: B := by
  induction A with
  | nil => simp [List.dropWhile, hc]
  | cons a A' ih =>
    by_cases ha : f a = true
    · simp [List.dropWhile, ha, ih]
    · simp [List.dropWhile, ha]

theorem removeAllAux_cons (pat : List Char) (fuel : Nat) (c : Char) (cs : List Char) :
    removeAllAux pat (fuel + 1) (c :: cs) =
      if pat.isPrefixOf (c :: cs) then
        removeAllAux pat fuel (((c :: cs).drop pat.length).dropWhile isJsSpace)
      else c :: removeAllAux pat fuel cs := rfl

/-- Once the fuel covers the text, more fuel changes nothing. -/
theorem removeAllAux_fuel (pat : List Char) (hpat : pat ≠ []) :
    ∀ (fuel₁ fuel₂ : Nat) (s : List Char), s.length ≤ fuel₁ → s.length ≤ fuel₂ →
      removeAllAux pat fuel₁ s = removeAllAux pat fuel₂ s := by
  intro fuel₁
  induction fuel₁ with
  | zero =>
    intro fuel₂ s h1 _
    have hs : s = [] := List.length_eq_zero.mp (Nat.le_zero.mp h1)
    subst hs
    cases fuel₂ <;> rfl
  | succ n ih =>
    intro fuel₂ s h1 h2
    cases s with
    | nil => cases fuel₂ <;> rfl
    | cons c cs =>
      cases fuel₂ with
      | zero => simp at h2
      | succ m =>
        simp only [List.length_cons, Nat.add_le_add_iff_right] at h1 h2
        simp only [removeAllAux]
        split_ifs with hp
        · have hlen : (((c :: cs).drop pat.length).dropWhile isJsSpace).length ≤ cs.length := by
            have h3 := (List.dropWhile_sublist isJsSpace
              (l := (c :: cs).drop pat.length)).length_le
            have h4 : ((c :: cs).drop pat.length).length ≤ cs.length := by
              have : 0 < pat.length := List.length_pos.mpr hpat
              simp only [List.length_drop, List.length_cons]
              omega
            omega
          exact ih m _ (by omega) (by omega)
        · rw [ih m cs h1 h2]

/-- What the scan keeps is a sublist of the text. -/
theorem removeAllAux_sublist (pat : List Char) :
    ∀ (fuel : Nat) (s : List Char), (removeAllAux pat fuel s).Sublist s := by
  intro fuel
  induction fuel with
  | zero => intro s; exact List.Sublist.refl s
  | succ n ih =>
    intro s
    cases s with
    | nil => exact List.Sublist.refl _
    | cons c cs =>
      simp only [removeAllAux]
      split_ifs with hp
      · exact (ih _).trans ((List.dropWhile_sublist _).trans (List.drop_sublist _ _))
      · exact (ih cs).cons₂ c

/-- The scan does not look across a character that is neither white space nor
part of the pattern: both sides of it are scanned on their own. -/
theorem removeAllAux_sep (pat : List Char) (hpat : pat ≠ []) (c : Char) (hc : c ∉ pat)
    (hsp : isJsSpace c = false) (B : List Char) :
    ∀ (fuel : Nat) (A : List Char), (A ++ c :: B).length ≤ fuel →
      removeAllAux pat fuel (A ++ c :: B) =
        removeAllAux pat fuel A ++ c :: removeAllAux pat fuel B := by
  intro fuel
  induction fuel with
  | zero => intro A h; simp at h
  | succ n ih =>
    intro A h
    have hB : B.length ≤ n := by
      simp only [List.length_append, List.length_cons] at h; omega
    have hBeq : removeAllAux pat (n + 1) B = removeAllAux pat n B :=
      removeAllAux_fuel pat hpat _ _ B (by omega) hB
    cases A with
    | nil =>
      have hnp : pat.isPrefixOf (c :: B) = false := by
        cases pat with
        | nil => exact absurd rfl hpat
        | cons x xs =>
          have hx : x ≠ c := fun hxc => hc (by simp [hxc])
          simp [List.isPrefixOf, hx]
      simp only [List.nil_append, removeAllAux, hnp, hBeq]
      simp
    | cons a A' =>
      simp only [List.cons_append, List.length_cons, List.length_append] at h
      by_cases hp : pat.isPrefixOf (a :: A' ++ c :: B) = true
      · obtain ⟨hpA, hdrop⟩ := isPrefixOf_of_append_sep c B pat (a :: A') hc hp
        have hlen : (((a :: A').drop pat.length).dropWhile isJsSpace).length ≤ A'.length := by
          have h3 := (List.dropWhile_sublist isJsSpace
            (l := (a :: A').drop pat.length)).length_le
          have : 0 < pat.length := List.length_pos.mpr hpat
          have h4 : ((a :: A').drop pat.length).length ≤ A'.length := by
            simp only [List.length_drop, List.length_cons]; omega
          omega
        rw [List.cons_append] at hp hdrop ⊢
        rw [removeAllAux_cons, removeAllAux_cons, if_pos hp, if_pos hpA, hdrop,
          dropWhile_append_sep isJsSpace c hsp,
          ih _ (by simp only [List.length_append, List.length_cons]; omega), hBeq]
      · have hpA : ¬ pat.isPrefixOf (a :: A') = true :=
          fun hq => hp (isPrefixOf_append_right pat (a :: A') (c :: B) hq)
        rw [List.cons_append] at hp ⊢
        rw [removeAllAux_cons, removeAllAux_cons, if_neg hp, if_neg hpA,
          ih A' (by simp only [List.length_append, List.length_cons]; omega), hBeq]
        rfl

theorem removeAll_sep (pat : String) (hpat : pat.data ≠ []) (c : Char) (hc : c ∉ pat.data)
    (hsp : isJsSpace c = false) (A B : List Char) :
    removeAll pat (A ++ c :: B) = removeAll pat A ++ c :: removeAll pat B := by
  unfold removeAll
  rw [removeAllAux_sep pat.data hpat c hc hsp B _ A (Nat.le_refl _)]
  rw [removeAllAux_fuel pat.data hpat (A ++ c :: B).length A.length A
    (by simp only [List.length_append]; omega) (Nat.le_refl _)]
  rw [removeAllAux_fuel pat.data hpat (A ++ c :: B).length B.length B
    (by simp only [List.length_append, List.length_cons]; omega) (Nat.le_refl _)]

theorem stripFences_sublist (s : List Char) : (stripFences s).Sublist s :=
  (removeAllAux_sublist _ _ _).trans (removeAllAux_sublist _ _ _)

/-- Fence stripping treats the two sides of a brace separately. -/
theorem stripFences_sep (c : Char) (hc : c = '\x7b' ∨ c = '\x7d') (A B : List Char) :
    stripFences (A ++ c :: B) = stripFences A ++ c :: stripFences B := by
  unfold stripFences
  rcases hc with rfl | rfl
  · rw [removeAll_sep _ (by decide) _ (by decide) (by decide),
      removeAll_sep _ (by decide) _ (by decide) (by decide)]
  · rw [removeAll_sep _ (by decide) _ (by decide) (by decide),
      removeAll_sep _ (by decide) _ (by decide) (by decide)]

theorem jsonMatch_eq (s : List Char) :
    jsonMatch s =
      if (((s.dropWhile (fun c => c != '\x7b')).reverse.dropWhile
          (fun c => c != '\x7d')).reverse).isEmpty then none
      else some (((s.dropWhile (fun c => c != '\x7b')).reverse.dropWhile
          (fun c => c != '\x7d')).reverse) := rfl

/-- Text in front of the first opening brace does not affect the match. -/
theorem jsonMatch_append_left (W s : List Char) (hW : '\x7b' ∉ W) :
    jsonMatch (W ++ s) = jsonMatch s := by
  rw [jsonMatch_eq, jsonMatch_eq]
  rw [List.dropWhile_append_of_pos]
  intro a ha
  have : a ≠ '\x7b' := fun h => hW (h ▸ ha)
  simpa using this

theorem dropWhile_eq_nil_of_forall (f : Char → Bool) (l : List Char) (h : ∀ a ∈ l, f a = true) :
    l.dropWhile f = [] := by
  have := @List.dropWhile_append_of_pos _ f l [] h
  simpa using this

/-- Text without a closing brace behind the payload does not affect the match. -/
theorem jsonMatch_append_right (s V : List Char) (hV : '\x7d' ∉ V) :
    jsonMatch (s ++ V) = jsonMatch s := by
  have hne : ∀ l : List Char, '\x7d' ∉ l → ∀ a ∈ l, (a != '\x7d') = true := by
    intro l hl a ha
    have : a ≠ '\x7d' := fun h => hl (h ▸ ha)
    simpa using this
  rw [jsonMatch_eq, jsonMatch_eq]
  by_cases ht : s.dropWhile (fun c => c != '\x7b') = []
  · have h1 : (s ++ V).dropWhile (fun c => c != '\x7b') = V.dropWhile (fun c => c != '\x7b') := by
      rw [List.dropWhile_append, ht]; simp
    have hsub : '\x7d' ∉ V.dropWhile (fun c => c != '\x7b') :=
      fun hmem => hV ((List.dropWhile_sublist _).subset hmem)
    have h2 : ((V.dropWhile (fun c => c != '\x7b')).reverse.dropWhile
        (fun c => c != '\x7d')) = [] :=
      dropWhile_eq_nil_of_forall _ _ (hne _ (by simpa using hsub))
    simp only [h1, h2, ht]
    rfl
  · have h1 : (s ++ V).dropWhile (fun c => c != '\x7b') =
        s.dropWhile (fun c => c != '\x7b') ++ V := by
      rw [List.dropWhile_append]
      simp [ht]
    rw [h1, List.reverse_append, List.dropWhile_append_of_pos (hne _ (by simpa using hV))]

theorem jsonMatch_braces (C : List Char) :
    jsonMatch ('\x7b' :: C ++ ['\x7d']) = some ('\x7b' :: C ++ ['\x7d']) := by
  rw [jsonMatch_eq]
  have h1 : ('\x7b' :: C ++ ['\x7d']).dropWhile (fun c => c != '\x7b') =
      '\x7b' :: C ++ ['\x7d'] := by
    simp [List.dropWhile]
  rw [h1]
  have h2 : ('\x7b' :: C ++ ['\x7d']).reverse = '\x7d' :: (C.reverse ++ ['\x7b']) := by simp
  rw [h2]
  have h3 : ('\x7d' :: (C.reverse ++ ['\x7b'])).dropWhile (fun c => c != '\x7d') =
      '\x7d' :: (C.reverse ++ ['\x7b']) := by
    simp [List.dropWhile]
  rw [h3, ← h2, List.reverse_reverse]
  rfl

/-- No payload is matched in a text that splits into a part without opening
brace followed by a part without closing brace, nor in any of its sublists. -/
theorem jsonMatch_none_of_sublist (W V s : List Char) (hW : '\x7b' ∉ W) (hV : '\x7d' ∉ V)
    (hs : s.Sublist (W ++ V)) : jsonMatch s = none := by
  obtain ⟨W', V', rfl, hW', hV'⟩ := List.sublist_append_iff.mp hs
  rw [jsonMatch_append_left _ _ (fun h => hW (hW'.subset h))]
  have := jsonMatch_append_right [] V' (fun h => hV (hV'.subset h))
  rw [List.nil_append] at this
  rw [this]
  rfl

/-- The payload matched in a stripped text that has an opening brace before its
last closing brace. -/
theorem jsonMatch_stripFences_braces (A C D : List Char) (hA : '\x7b' ∉ A) (hD : '\x7d' ∉ D) :
    jsonMatch (stripFences (A ++ '\x7b' :: (C ++ '\x7d' :: D))) =
      some ('\x7b' :: stripFences C ++ ['\x7d']) := by
  rw [stripFences_sep _ (Or.inl rfl), stripFences_sep _ (Or.inr rfl)]
  rw [jsonMatch_append_left _ _ (fun h => hA ((stripFences_sublist A).subset h))]
  have h : '\x7b' :: (stripFences C ++ '\x7d' :: stripFences D) =
      ('\x7b' :: stripFences C ++ ['\x7d']) ++ stripFences D := by simp
  rw [h, jsonMatch_append_right _ _ (fun h => hD ((stripFences_sublist D).subset h))]
  exact jsonMatch_braces _

theorem split_last_closing (B : List Char) :
    (∃ C D, B = C ++ '\x7d' :: D ∧ '\x7d' ∉ D) ∨ '\x7d' ∉ B := by
  induction B with
  | nil => exact Or.inr (by simp)
  | cons b B' ih =>
    rcases ih with ⟨C, D, rfl, hD⟩ | hno
    · exact Or.inl ⟨b :: C, D, rfl, hD⟩
    · by_cases hb : b = '\x7d'
      · exact Or.inl ⟨[], B', by simp [hb], hno⟩
      · refine Or.inr ?_
        intro hmem
        rcases List.mem_cons.mp hmem with h | h
        · exact hb h.symm
        · exact hno h

/-- Every text either has an opening brace before its last closing brace, or
splits into a part without opening brace and a part without closing brace. -/
theorem split_braces (J : List Char) :
    (∃ A C D, J = A ++ '\x7b' :: (C ++ '\x7d' :: D) ∧ '\x7b' ∉ A ∧ '\x7d' ∉ D) ∨
    (∃ W V, J = W ++ V ∧ '\x7b' ∉ W ∧ '\x7d' ∉ V) := by
  have hA : '\x7b' ∉ J.takeWhile (fun c => c != '\x7b') := by
    intro hmem
    have := List.mem_takeWhile_imp hmem
    simp at this
  have hJ := (List.takeWhile_append_dropWhile (fun c => c != '\x7b') J).symm
  cases ht : J.dropWhile (fun c => c != '\x7b') with
  | nil =>
    refine Or.inr ⟨J, [], by simp, ?_, by simp⟩
    rw [ht, List.append_nil] at hJ
    rw [hJ]; exact hA
  | cons x B =>
    have hx : x = '\x7b' := by
      have h0 := List.dropWhile_get_zero_not (fun c => c != '\x7b') J (by rw [ht]; simp)
      simp only [ht, List.get_eq_getElem, List.getElem_cons_zero] at h0
      simpa using h0
    subst hx
    rw [ht] at hJ
    rcases split_last_closing B with ⟨C, D, rfl, hD⟩ | hno
    · exact Or.inl ⟨_, C, D, hJ, hA, hD⟩
    · refine Or.inr ⟨_, _, hJ, hA, ?_⟩
      intro hmem
      rcases List.mem_cons.mp hmem with h | h
      · exact absurd h (by decide)
      · exact hno h

/-- Wrapping a text in prose and fences does not change the payload matched
after fence stripping, as long as the prose in front has no opening brace and
the prose behind has no closing brace. -/
theorem jsonMatch_stripFences_fenced (P J Q : String) (hP : '\x7b' ∉ P.data)
    (hQ : '\x7d' ∉ Q.data) :
    jsonMatch (stripFences (fenced P J Q).data) = jsonMatch (stripFences J.data) := by
  have hdata : (fenced P J Q).data =
      P.data ++ "```json".data ++ J.data ++ "```".data ++ Q.data := by
    simp [fenced, String.data_append]
  have hf1o : '\x7b' ∉ "```json".data := by decide
  have hf2c : '\x7d' ∉ "```".data := by decide
  rcases split_braces J.data with ⟨A, C, D, hJ, hA, hD⟩ | ⟨W, V, hJ, hW, hV⟩
  · have hX : (fenced P J Q).data =
        (P.data ++ "```json".data ++ A) ++ '\x7b' :: (C ++ '\x7d' :: (D ++ "```".data ++ Q.data)) := by
      rw [hdata, hJ]; simp
    rw [hX, hJ, jsonMatch_stripFences_braces _ _ _ (by simp [hP, hA, hf1o])
      (by simp [hD, hQ, hf2c]), jsonMatch_stripFences_braces _ _ _ hA hD]
  · have hX : (fenced P J Q).data =
        (P.data ++ "```json".data ++ W) ++ (V ++ "```".data ++ Q.data) := by
      rw [hdata, hJ]; simp
    rw [jsonMatch_none_of_sublist (P.data ++ "```json".data ++ W) (V ++ "```".data ++ Q.data) _
        (by simp [hP, hW, hf1o]) (by simp [hV, hQ, hf2c])
        (by rw [← hX]; exact stripFences_sublist _),
      jsonMatch_none_of_sublist W V _ hW hV (by rw [← hJ]; exact stripFences_sublist _)]

/-- C3, as stated, fails: with the prose prefix "Answer \x7bv1\x7d: " the
greedy match starts at the brace of the prose, and the extraction of the fenced
reply raises a parse error although the payload alone extracts to the empty
object. -/
theorem extractAnalysis_fenced_counterexample :
    demoRuntime.jsonParse "\x7b\x7d" = .ok (.obj []) ∧
    extractAnalysis demoRuntime "\x7b\x7d" = .ok (.obj []) ∧
    extractAnalysis demoRuntime (fenced "Answer \x7bv1\x7d: " "\x7b\x7d" "") =
      .error (newError "Failed to parse JSON response: Unexpected token") := by
  refine ⟨rfl, rfl, rfl⟩

/-- C3, amended: for every text J and all surrounding prose P without an opening
brace and Q without a closing brace, the response extraction of
`analyzeSkillGaps` applied to P + fence-with-json-tag + J + fence + Q yields
what it yields on J alone: the same object, or the same failure. -/
theorem extractAnalysis_fenced (rt : Runtime) (P J Q : String) (hP : '\x7b' ∉ P.data)
    (hQ : '\x7d' ∉ Q.data) :
    extractAnalysis rt (fenced P J Q) = extractAnalysis rt J := by
  unfold extractAnalysis
  rw [jsonMatch_stripFences_fenced P J Q hP hQ]

/-- A fenced empty object between two lines of prose. -/
theorem extractAnalysis_fenced_witness :
    '\x7b' ∉ "Here is the analysis:\n".data ∧ '\x7d' ∉ "\nGood luck!".data ∧
    extractAnalysis demoRuntime (fenced "Here is the analysis:\n" "\x7b\x7d" "\nGood luck!") =
      extractAnalysis demoRuntime "\x7b\x7d" ∧
    extractAnalysis demoRuntime "\x7b\x7d" = .ok (.obj []) :=
  ⟨by decide, by decide,
    extractAnalysis_fenced demoRuntime "Here is the analysis:\n" "\x7b\x7d" "\nGood luck!"
      (by decide) (by decide), rfl⟩

theorem jsonMatch_split (A C D : List Char) (hA : '\x7b' ∉ A) (hD : '\x7d' ∉ D) :
    jsonMatch (A ++ '\x7b' :: (C ++ '\x7d' :: D)) = some ('\x7b' :: C ++ ['\x7d']) := by
  rw [jsonMatch_append_left _ _ hA]
  have h : '\x7b' :: (C ++ '\x7d' :: D) = ('\x7b' :: C ++ ['\x7d']) ++ D := by simp
  rw [h, jsonMatch_append_right _ _ hD]
  exact jsonMatch_braces _

theorem brace_mem_of_append_eq (W V A C D : List Char)
    (h : W ++ V = A ++ '\x7b' :: (C ++ '\x7d' :: D)) : '\x7b' ∈ W ∨ '\x7d' ∈ V := by
  rcases List.append_eq_append_iff.mp h with ⟨a', hA, hV⟩ | ⟨c', hW, hc⟩
  · right
    rw [hV]
    simp
  · cases c' with
    | nil =>
      right
      simp only [List.nil_append] at hc
      rw [← hc]
      simp
    | cons x xs =>
      left
      simp only [List.cons_append, List.cons.injEq] at hc
      rw [hW, ← hc.1]
      simp

/-- The match fails exactly on the texts that hold no run from an opening brace
to a later closing brace. -/
theorem jsonMatch_eq_none_iff (s : List Char) :
    jsonMatch s = none ↔ ¬ ∃ A C D, s = A ++ '\x7b' :: (C ++ '\x7d' :: D) := by
  constructor
  · rintro hnone ⟨A, C, D, hs⟩
    rcases split_braces s with ⟨A', C', D', hs', hA', hD'⟩ | ⟨W, V, hs', hW, hV⟩
    · rw [hs', jsonMatch_split _ _ _ hA' hD'] at hnone
      simp at hnone
    · rcases brace_mem_of_append_eq W V A C D (hs' ▸ hs) with h | h
      · exact hW h
      · exact hV h
  · intro hno
    rcases split_braces s with ⟨A', C', D', hs', _, _⟩ | ⟨W, V, hs', hW, hV⟩
    · exact absurd ⟨A', C', D', hs'⟩ hno
    · exact jsonMatch_none_of_sublist W V s hW hV (hs' ▸ List.Sublist.refl _)

/-- The match, when there is one, runs from the first opening brace through the
last closing brace. -/
theorem jsonMatch_eq_some_iff (s u : List Char) :
    jsonMatch s = some u ↔
      ∃ A C D, s = A ++ '\x7b' :: (C ++ '\x7d' :: D) ∧ '\x7b' ∉ A ∧ '\x7d' ∉ D ∧
        u = '\x7b' :: C ++ ['\x7d'] := by
  constructor
  · intro hsome
    rcases split_braces s with ⟨A, C, D, hs, hA, hD⟩ | ⟨W, V, hs, hW, hV⟩
    · refine ⟨A, C, D, hs, hA, hD, ?_⟩
      rw [hs, jsonMatch_split _ _ _ hA hD] at hsome
      exact (Option.some.inj hsome).symm
    · rw [jsonMatch_none_of_sublist W V s hW hV (hs ▸ List.Sublist.refl _)] at hsome
      simp at hsome
  · rintro ⟨A, C, D, hs, hA, hD, rfl⟩
    rw [hs]
    exact jsonMatch_split _ _ _ hA hD

/-! ## Error handling of the tasks -/

theorem includesChars_append_right (hay sfx needle : List Char)
    (h : includesChars hay needle = true) : includesChars (hay ++ sfx) needle = true := by
  induction hay with
  | nil =>
    have hn : needle = [] := by
      cases needle with
      | nil => rfl
      | cons x xs => simp [includesChars] at h
    subst hn
    cases sfx <;> simp [includesChars, List.isPrefixOf]
  | cons c cs ih =>
    simp only [includesChars, Bool.or_eq_true, List.cons_append] at h ⊢
    rcases h with h | h
    · exact Or.inl (by simpa using isPrefixOf_append_right needle (c :: cs) sfx h)
    · exact Or.inr (ih h)

theorem includes_append_right (hay sfx needle : String) (h : includes hay needle = true) :
    includes (hay ++ sfx) needle = true := by
  unfold includes at h ⊢
  rw [String.data_append]
  exact includesChars_append_right _ _ _ h

/-- The `catch` block of `analyzeSkillGaps` never answers an extraction failure
with the fallback: both messages are excluded by the guard, whatever the
classification of the error. -/
theorem analysisFallbackGuard_extraction (rt : Runtime) :
    analysisFallbackGuard rt (newError "Invalid response format - no JSON found") = false ∧
    ∀ parseError, analysisFallbackGuard rt
      (newError ("Failed to parse JSON response: " ++ messageText parseError)) = false := by
  constructor
  · have h : messageIncludes (newError "Invalid response format - no JSON found") "JSON" = true := by
      decide
    simp [analysisFallbackGuard, h]
  · intro parseError
    have h : messageIncludes
        (newError ("Failed to parse JSON response: " ++ messageText parseError)) "parse" = true :=
      includes_append_right "Failed to parse JSON response: " _ "parse" (by decide)
    simp [analysisFallbackGuard, h]

/-- C4: once a model is bound and the service has answered with `text`, if the
text after fence stripping holds no run from an opening brace to a later
closing brace, `analyzeSkillGaps` raises 'Invalid response format - no JSON
found'; if the run from its first opening brace through its last closing brace
fails to parse, `analyzeSkillGaps` raises 'Failed to parse JSON response: '
followed by the parse error's message. In neither case does it return the
fallback analysis, whatever the parse error's message is. -/
theorem analyzeSkillGaps_malformed_raises (rt : Runtime) (p p1 : KeyPool)
    (resumeText : Option String) (jobRole : JobRole) (model : ModelHandle) (text : String)
    (hkey : hasApiKey p = true)
    (hmodel : getModelWithRetryDefault rt p = (.ok model, p1))
    (htext : rt.generateContent model.key model.model = .ok text) :
    ((¬ ∃ A C D, stripFences text.data = A ++ '\x7b' :: (C ++ '\x7d' :: D)) →
      analyzeSkillGaps rt p resumeText jobRole =
        (.error (newError "Invalid response format - no JSON found"),
          p1.logged [Event.generate model.key model.model])) ∧
    (∀ A C D parseError, stripFences text.data = A ++ '\x7b' :: (C ++ '\x7d' :: D) →
      '\x7b' ∉ A → '\x7d' ∉ D →
      rt.jsonParse (String.mk ('\x7b' :: C ++ ['\x7d'])) = .error parseError →
      analyzeSkillGaps rt p resumeText jobRole =
        (.error (newError ("Failed to parse JSON response: " ++ messageText parseError)),
          p1.logged [Event.generate model.key model.model])) := by
  have hg := analysisFallbackGuard_extraction rt
  constructor
  · intro hno
    have hnone := (jsonMatch_eq_none_iff _).mpr hno
    simp [analyzeSkillGaps, analyzeSkillGapsTry, requestJson, generateText, extractAnalysis,
      hkey, hmodel, htext, hnone, hg.1]
  · intro A C D parseError hs hA hD hparse
    have hsome := (jsonMatch_eq_some_iff _ _).mpr ⟨A, C, D, hs, hA, hD, rfl⟩
    have hparse' : rt.jsonParse (String.mk ('\x7b' :: (C ++ ['\x7d']))) = .error parseError :=
      hparse
    simp [analyzeSkillGaps, analyzeSkillGapsTry, requestJson, generateText, extractAnalysis,
      hkey, hmodel, htext, hsome, hparse', hg.2 parseError]

/-- A pool of one key and a service that answers with prose: gap analysis
raises. -/
theorem analyzeSkillGaps_malformed_raises_witness :
    (¬ ∃ A C D, stripFences "I am unable to help with that request.".data =
      A ++ '\x7b' :: (C ++ '\x7d' :: D)) ∧
    analyzeSkillGaps proseRuntime oneKeyPool (some "Node.js, Express, MongoDB") backendRole =
      (.error (newError "Invalid response format - no JSON found"),
        (oneKeyPool.logged [Event.bind 0 "gemini-2.0-flash"]).logged
          [Event.generate 0 "gemini-2.0-flash"]) :=
  have hno : ¬ ∃ A C D, stripFences "I am unable to help with that request.".data =
      A ++ '\x7b' :: (C ++ '\x7d' :: D) :=
    (jsonMatch_eq_none_iff _).mp (by decide)
  ⟨hno,
    (analyzeSkillGaps_malformed_raises proseRuntime oneKeyPool
      (oneKeyPool.logged [Event.bind 0 "gemini-2.0-flash"]) (some "Node.js, Express, MongoDB")
      backendRole ⟨0, "gemini-2.0-flash"⟩ "I am unable to help with that request."
      rfl rfl rfl).1 hno⟩

/-- The error 'Invalid response format' is not classified as recoverable. -/
theorem isRecoverableError_invalidFormat (rt : Runtime) (hrt : LowersAscii rt) :
    isRecoverableError rt (newError "Invalid response format") = false := by
  have hl := hrt "Invalid response format" (by decide)
  simp only [isRecoverableError, isKeyError, newError, Option.map, hl]
  decide

/-- The error `fetchSupportedModels` raises for an empty pool is not classified
as recoverable. -/
theorem isRecoverableError_failedToInitialize (rt : Runtime) (hrt : LowersAscii rt) :
    isRecoverableError rt
      (newError "Failed to initialize Gemini AI. Please check your API key.") = false := by
  have hl := hrt "Failed to initialize Gemini AI. Please check your API key." (by decide)
  simp only [isRecoverableError, isKeyError, newError, Option.map, hl]
  decide

/-- The error `analyzeSkillGaps` raises for an empty pool passes the guard of
its `catch` block. -/
theorem analysisFallbackGuard_keyError (rt : Runtime) (hrt : LowersAscii rt) :
    analysisFallbackGuard rt (newError
      "Gemini API key is not configured. Please set GEMINI_API_KEY in your .env file.") = true := by
  have hl := hrt "Gemini API key is not configured. Please set GEMINI_API_KEY in your .env file."
    (by decide)
  simp only [analysisFallbackGuard, isRecoverableError, isKeyError, newError, messageIncludes,
    Option.map_some', hl]
  decide

/-- C5, as stated, fails: with one key and a service that answers with prose
holding no JSON object, `generateRoadmap` raises 'Invalid response format'
instead of returning its fallback value. -/
theorem generateRoadmap_malformed_counterexample :
    generateRoadmap proseRuntime oneKeyPool (some [placeholderGap]) =
      (.error (newError "Invalid response format"),
        { apiKeys := ["key-1"], currentKeyIndex := 0,
          trace := [Event.bind 0 "gemini-2.0-flash", Event.generate 0 "gemini-2.0-flash"] }) := by
  rfl

/-- C5, amended: for `generateRoadmap`, `getLearningResources`,
`getYouTubePlaylists` and `generateQuiz`, a model response in which no JSON
object is matched makes the task raise 'Invalid response format', and a
candidate payload that fails to parse makes the task raise the parse error;
the fallback value is returned for a parse error only if its message is
classified as recoverable. -/
theorem tasks_malformed_response (rt : Runtime) (hrt : LowersAscii rt) (p p1 : KeyPool)
    (model : ModelHandle) (text : String) (skillGaps : Option (List Gap))
    (skill level topic : String)
    (hmodel : getModelWithRetryDefault rt p = (.ok model, p1))
    (htext : rt.generateContent model.key model.model = .ok text) :
    (jsonMatch text.data = none →
      (generateRoadmap rt p skillGaps).1 = .error (newError "Invalid response format") ∧
      (getLearningResources rt p skill level).1 = .error (newError "Invalid response format")) ∧
    (jsonMatch (stripFences text.data) = none →
      (getYouTubePlaylists rt p skill level).1 = .error (newError "Invalid response format") ∧
      (generateQuiz rt p topic).1 = .error (newError "Invalid response format")) ∧
    (∀ jsonText parseError, jsonMatch text.data = some jsonText →
      rt.jsonParse (String.mk jsonText) = .error parseError →
      (generateRoadmap rt p skillGaps).1 =
        (if isRecoverableError rt parseError then .ok (.fallback (fallbackRoadmap skillGaps))
         else .error parseError) ∧
      (getLearningResources rt p skill level).1 =
        (if isRecoverableError rt parseError then .ok (.fallback (fallbackResources skill level))
         else .error parseError)) ∧
    (∀ jsonText parseError, jsonMatch (stripFences text.data) = some jsonText →
      rt.jsonParse (String.mk jsonText) = .error parseError →
      (getYouTubePlaylists rt p skill level).1 =
        (if isRecoverableError rt parseError then
          .ok (.fallback (fallbackPlaylists rt skill level))
         else .error parseError) ∧
      (generateQuiz rt p topic).1 =
        (if isRecoverableError rt parseError then .ok (.fallback (fallbackQuiz topic))
         else .error parseError)) := by
  have hinv := isRecoverableError_invalidFormat rt hrt
  refine ⟨fun hnone => ?_, fun hnone => ?_, fun jsonText parseError hsome hparse => ?_,
    fun jsonText parseError hsome hparse => ?_⟩
  · simp [generateRoadmap, getLearningResources, orFallback, requestJson, generateText,
      extractPlain, hmodel, htext, hnone, hinv]
  · simp [getYouTubePlaylists, generateQuiz, orFallback, requestJson, generateText,
      extractFenced, hmodel, htext, hnone, hinv]
  · cases hrec : isRecoverableError rt parseError <;>
      simp [generateRoadmap, getLearningResources, orFallback, requestJson, generateText,
        extractPlain, hmodel, htext, hsome, hparse, hrec]
  · cases hrec : isRecoverableError rt parseError <;>
      simp [getYouTubePlaylists, generateQuiz, orFallback, requestJson, generateText,
        extractFenced, hmodel, htext, hsome, hparse, hrec]

/-- One key and a service that answers with prose: the four tasks raise. -/
theorem tasks_malformed_response_witness :
    jsonMatch "I am unable to help with that request.".data = none ∧
    (generateRoadmap proseRuntime oneKeyPool (some [placeholderGap])).1 =
      .error (newError "Invalid response format") ∧
    (getLearningResources proseRuntime oneKeyPool "Docker" "intermediate").1 =
      .error (newError "Invalid response format") :=
  ⟨by decide,
    (tasks_malformed_response proseRuntime (fun _ _ => rfl) oneKeyPool
      (oneKeyPool.logged [Event.bind 0 "gemini-2.0-flash"]) ⟨0, "gemini-2.0-flash"⟩
      "I am unable to help with that request." (some [placeholderGap]) "Docker" "intermediate"
      "Docker" rfl rfl).1 (by decide)⟩

/-- C6: the code at the failing input. With an empty credential pool each of
`generateRoadmap`, `getLearningResources`, `getYouTubePlaylists`, `generateQuiz`
and `chatWithAssistant` raises the error of `fetchSupportedModels`, 'Failed to
initialize Gemini AI. Please check your API key.', which `isRecoverableError`
does not recognise; none returns its fallback value. -/
theorem tasks_emptyPool_raise (rt : Runtime) (hrt : LowersAscii rt) (p : KeyPool)
    (hp : p.apiKeys = []) (skillGaps : Option (List Gap)) (skill level topic : String)
    (context : ChatContext) :
    generateRoadmap rt p skillGaps =
      (.error (newError "Failed to initialize Gemini AI. Please check your API key."), p) ∧
    getLearningResources rt p skill level =
      (.error (newError "Failed to initialize Gemini AI. Please check your API key."), p) ∧
    getYouTubePlaylists rt p skill level =
      (.error (newError "Failed to initialize Gemini AI. Please check your API key."), p) ∧
    generateQuiz rt p topic =
      (.error (newError "Failed to initialize Gemini AI. Please check your API key."), p) ∧
    chatWithAssistant rt p context =
      (.error (newError "Failed to initialize Gemini AI. Please check your API key."), p) := by
  have hrec := isRecoverableError_failedToInitialize rt hrt
  have hget : getModelWithRetryDefault rt p =
      (.error (newError "Failed to initialize Gemini AI. Please check your API key."), p) := by
    simp [getModelWithRetryDefault, getModelWithRetry, fetchSupportedModels, getGenAI, hp]
  refine ⟨?_, ?_, ?_, ?_, ?_⟩ <;>
    simp [generateRoadmap, getLearningResources, getYouTubePlaylists, generateQuiz,
      chatWithAssistant, orFallback, requestJson, hget, hrec]

/-- A process started without keys asked for a roadmap. -/
theorem tasks_emptyPool_raise_witness :
    emptyPool.apiKeys = [] ∧
    generateRoadmap demoRuntime emptyPool (some [placeholderGap]) =
      (.error (newError "Failed to initialize Gemini AI. Please check your API key."),
        emptyPool) :=
  ⟨rfl, (tasks_emptyPool_raise demoRuntime (fun _ _ => rfl) emptyPool rfl
    (some [placeholderGap]) "Docker" "intermediate" "Docker" ⟨none, 0⟩).1⟩

/-- C7, as stated, fails: a process without keys analysing the resume of the
end-to-end scenario raises nothing and returns the fallback analysis. -/
theorem analyzeSkillGaps_emptyPool_counterexample :
    analyzeSkillGaps demoRuntime emptyPool (some "Node.js, Express, MongoDB") backendRole =
      (.ok (.fallback
        { gaps :=
            [ { skill := "Node.js", currentLevel := "beginner", requiredLevel := "intermediate",
                priority := "medium",
                description :=
                  "Strengthen your proficiency in Node.js to reach the intermediate level expected for this role." },
              { skill := "Docker", currentLevel := "not_mentioned",
                requiredLevel := "intermediate", priority := "medium",
                description :=
                  "Your resume does not mention Docker. Start learning the fundamentals and highlight relevant experience." } ]
          summary :=
            "Keep strengthening the listed skills to align fully with the Backend Engineer role requirements." }),
        emptyPool) := by
  rfl

/-- C7, amended: when the credential pool is empty, `analyzeSkillGaps` sends no
request and does not raise the 'API key is not configured' error it throws
internally: that error passes the guard of the `catch` block, and the call
answers with the outcome of the fallback branch, which is a fallback analysis
whenever every required-skill entry carries a skill name. The route's mapping
to the configuration message applies to errors that are raised with 'API key'
or 'not configured' in their message. -/
theorem analyzeSkillGaps_emptyPool_fallback (rt : Runtime) (hrt : LowersAscii rt) (p : KeyPool)
    (hp : p.apiKeys = []) (resumeText : Option String) (jobRole : JobRole) :
    analyzeSkillGaps rt p resumeText jobRole =
      (match fallbackAnalysis rt resumeText jobRole with
       | .ok analysis => (.ok (.fallback analysis), p)
       | .error e => (.error e, p)) ∧
    ((∀ r ∈ jobRole.requiredSkills.getD [], (SkillReq.name r).isSome = true) →
      ∃ a, analyzeSkillGaps rt p resumeText jobRole = (.ok (.fallback a), p)) ∧
    (∀ message, includes message "API key" = true ∨ includes message "not configured" = true →
      analysisErrorMessage message =
        "Gemini API key is not configured. Please restart the server after setting GEMINI_API_KEY in the .env file.") := by
  have htry : analyzeSkillGapsTry rt p = (.error (newError
      "Gemini API key is not configured. Please set GEMINI_API_KEY in your .env file."), p) := by
    simp [analyzeSkillGapsTry, hasApiKey, hp]
  have hrun : analyzeSkillGaps rt p resumeText jobRole =
      (match fallbackAnalysis rt resumeText jobRole with
       | .ok analysis => (.ok (.fallback analysis), p)
       | .error e => (.error e, p)) := by
    simp only [analyzeSkillGaps, htry, analysisFallbackGuard_keyError rt hrt, if_true]
  refine ⟨hrun, ?_, ?_⟩
  · intro hnames
    obtain ⟨gs, _, hfb, _⟩ := fallbackAnalysis_ok rt resumeText jobRole hnames
    exact ⟨{ gaps := if gs.length > 0 then gs else [placeholderGap]
             summary := fallbackSummary gs jobRole.title }, by rw [hrun, hfb]⟩
  · intro message h
    unfold analysisErrorMessage
    rcases h with h | h <;> simp [h]

/-- A process without keys and the end-to-end scenario. -/
theorem analyzeSkillGaps_emptyPool_fallback_witness :
    emptyPool.apiKeys = [] ∧
    ∃ a, analyzeSkillGaps demoRuntime emptyPool (some "Node.js, Express, MongoDB") backendRole =
        (.ok (.fallback a), emptyPool) :=
  ⟨rfl, (analyzeSkillGaps_emptyPool_fallback demoRuntime (fun _ _ => rfl) emptyPool rfl
    (some "Node.js, Express, MongoDB") backendRole).2.1 (by decide)⟩

/-- C8, as stated, fails: with two keys and a service that refuses generation
for lack of quota, `generateRoadmap` returns the fallback roadmap after a single
generation attempt on the first key; the key is not rotated and the second key
is never tried, although min(maxRetries, credentialCount) = 2. -/
theorem generateRoadmap_quota_counterexample :
    isRecoverableError quotaRuntime
      (newError "[429 Too Many Requests] Quota exceeded for this key") = true ∧
    generateRoadmap quotaRuntime twoKeyPool (some [placeholderGap]) =
      (.ok (.fallback (fallbackRoadmap (some [placeholderGap]))),
        { apiKeys := ["key-1", "key-2"], currentKeyIndex := 0,
          trace := [Event.bind 0 "gemini-2.0-flash", Event.generate 0 "gemini-2.0-flash"] }) ∧
    min twoKeyPool.apiKeys.length twoKeyPool.apiKeys.length = 2 := by
  refine ⟨by decide, rfl, rfl⟩

/-- A pool from which a model was selected holds a key. -/
theorem hasApiKey_of_model (rt : Runtime) (p p1 : KeyPool) (model : ModelHandle)
    (hmodel : getModelWithRetryDefault rt p = (.ok model, p1)) : hasApiKey p = true := by
  by_contra hno
  have hlen : p.apiKeys.length = 0 := by
    simp only [hasApiKey, decide_eq_true_eq, not_lt, Nat.le_zero] at hno
    exact hno
  simp [getModelWithRetryDefault, getModelWithRetry, fetchSupportedModels, getGenAI, hlen]
    at hmodel

/-- C8, amended: when `generateContent` fails with a recoverable error, no task
rotates the credential or retries, whatever the number of credentials: each
ends at once, with the key pool as model selection left it and that single
generation request logged. `generateRoadmap`, `getLearningResources`,
`getYouTubePlaylists`, `generateQuiz` and `chatWithAssistant` return their
fallback value. `analyzeSkillGaps` re-raises the error when its message
contains 'parse' or 'JSON' and otherwise answers with the outcome of its
fallback branch. `chatWithAssistantEnhanced` raises 'completedSkills is not
defined'. -/
theorem tasks_generation_failure_fallback (rt : Runtime) (p p1 : KeyPool) (model : ModelHandle)
    (error : JsError) (skillGaps : Option (List Gap)) (skill level topic : String)
    (context : ChatContext) (resumeText : Option String) (jobRole : JobRole)
    (userProgress : UserProgress)
    (hmodel : getModelWithRetryDefault rt p = (.ok model, p1))
    (hgen : rt.generateContent model.key model.model = .error error)
    (hrec : isRecoverableError rt error = true) :
    generateRoadmap rt p skillGaps =
      (.ok (.fallback (fallbackRoadmap skillGaps)),
        { p1 with trace := p1.trace ++ [Event.generate model.key model.model] }) ∧
    getLearningResources rt p skill level =
      (.ok (.fallback (fallbackResources skill level)),
        { p1 with trace := p1.trace ++ [Event.generate model.key model.model] }) ∧
    getYouTubePlaylists rt p skill level =
      (.ok (.fallback (fallbackPlaylists rt skill level)),
        { p1 with trace := p1.trace ++ [Event.generate model.key model.model] }) ∧
    generateQuiz rt p topic =
      (.ok (.fallback (fallbackQuiz topic)),
        { p1 with trace := p1.trace ++ [Event.generate model.key model.model] }) ∧
    chatWithAssistant rt p context =
      (.ok (.canned (fallbackChat context)),
        { p1 with trace := p1.trace ++ [Event.generate model.key model.model] }) ∧
    ((messageIncludes error "parse" = true ∨ messageIncludes error "JSON" = true) →
      analyzeSkillGaps rt p resumeText jobRole =
        (.error error,
          { p1 with trace := p1.trace ++ [Event.generate model.key model.model] })) ∧
    (messageIncludes error "parse" = false → messageIncludes error "JSON" = false →
      analyzeSkillGaps rt p resumeText jobRole =
        (match fallbackAnalysis rt resumeText jobRole with
         | .ok analysis => .ok (.fallback analysis)
         | .error e => .error e,
          { p1 with trace := p1.trace ++ [Event.generate model.key model.model] })) ∧
    chatWithAssistantEnhanced rt p context userProgress =
      (.error (newError "completedSkills is not defined"),
        { p1 with trace := p1.trace ++ [Event.generate model.key model.model] }) := by
  have hkey := hasApiKey_of_model rt p p1 model hmodel
  refine ⟨?_, ?_, ?_, ?_, ?_, ?_, ?_, ?_⟩
  · simp [generateRoadmap, orFallback, requestJson, generateText, KeyPool.logged, hmodel, hgen,
      hrec]
  · simp [getLearningResources, orFallback, requestJson, generateText, KeyPool.logged, hmodel,
      hgen, hrec]
  · simp [getYouTubePlaylists, orFallback, requestJson, generateText, KeyPool.logged, hmodel,
      hgen, hrec]
  · simp [generateQuiz, orFallback, requestJson, generateText, KeyPool.logged, hmodel, hgen,
      hrec]
  · simp [chatWithAssistant, generateText, KeyPool.logged, hmodel, hgen, hrec]
  · intro hword
    have hguard : analysisFallbackGuard rt error = false := by
      unfold analysisFallbackGuard
      rcases hword with h | h <;> simp [h]
    simp [analyzeSkillGaps, analyzeSkillGapsTry, requestJson, generateText, KeyPool.logged, hkey,
      hmodel, hgen, hguard]
  · intro hparse hjson
    have hguard : analysisFallbackGuard rt error = true := by
      simp [analysisFallbackGuard, hrec, hparse, hjson]
    simp only [analyzeSkillGaps, analyzeSkillGapsTry, requestJson, generateText, KeyPool.logged,
      hkey, hmodel, hgen, hguard, Bool.not_true, Bool.false_eq_true, if_false, if_true]
    cases fallbackAnalysis rt resumeText jobRole <;> rfl
  · simp [chatWithAssistantEnhanced, enhancedFallback, generateText, KeyPool.logged, hmodel,
      hgen, hrec]

/-- Two keys and a service out of quota: the roadmap falls back with the first
key still current, gap analysis answers with its fallback analysis, and the
enhanced chat raises. -/
theorem tasks_generation_failure_fallback_witness :
    isRecoverableError quotaRuntime
      (newError "[429 Too Many Requests] Quota exceeded for this key") = true ∧
    generateRoadmap quotaRuntime twoKeyPool (some [placeholderGap]) =
      (.ok (.fallback (fallbackRoadmap (some [placeholderGap]))),
        { twoKeyPool.logged [Event.bind 0 "gemini-2.0-flash"] with
          trace := (twoKeyPool.logged [Event.bind 0 "gemini-2.0-flash"]).trace ++
            [Event.generate 0 "gemini-2.0-flash"] }) ∧
    chatWithAssistantEnhanced quotaRuntime twoKeyPool ⟨none, 0⟩ ⟨none, none⟩ =
      (.error (newError "completedSkills is not defined"),
        { twoKeyPool.logged [Event.bind 0 "gemini-2.0-flash"] with
          trace := (twoKeyPool.logged [Event.bind 0 "gemini-2.0-flash"]).trace ++
            [Event.generate 0 "gemini-2.0-flash"] }) :=
  ⟨by decide,
    (tasks_generation_failure_fallback quotaRuntime twoKeyPool
      (twoKeyPool.logged [Event.bind 0 "gemini-2.0-flash"]) ⟨0, "gemini-2.0-flash"⟩
      (newError "[429 Too Many Requests] Quota exceeded for this key") (some [placeholderGap])
      "Docker" "intermediate" "Docker" ⟨none, 0⟩ (some "Node.js, Express, MongoDB") backendRole
      ⟨none, none⟩ rfl rfl (by decide)).1,
    (tasks_generation_failure_fallback quotaRuntime twoKeyPool
      (twoKeyPool.logged [Event.bind 0 "gemini-2.0-flash"]) ⟨0, "gemini-2.0-flash"⟩
      (newError "[429 Too Many Requests] Quota exceeded for this key") (some [placeholderGap])
      "Docker" "intermediate" "Docker" ⟨none, 0⟩ (some "Node.js, Express, MongoDB") backendRole
      ⟨none, none⟩ rfl rfl (by decide)).2.2.2.2.2.2.2⟩

/-! ## Quiz submission -/

theorem answersCorrectly_congr (qs qs' : List QuizQuestion) (a : Answer)
    (h : qs'.map (fun q => q.correctAnswer) = qs.map (fun q => q.correctAnswer)) :
    answersCorrectly qs' a = answersCorrectly qs a := by
  have hi := congrArg (fun l => l[a.questionIndex.toNat]?) h
  simp only [List.getElem?_map] at hi
  unfold answersCorrectly
  cases h1 : qs'[a.questionIndex.toNat]? <;> cases h2 : qs[a.questionIndex.toNat]? <;>
    simp_all

theorem correctAnswers_congr (qs qs' : List QuizQuestion) (answers : List Answer)
    (h : qs'.map (fun q => q.correctAnswer) = qs.map (fun q => q.correctAnswer)) :
    correctAnswers qs' answers = correctAnswers qs answers := by
  unfold correctAnswers
  congr 1
  exact List.filter_congr (fun a _ => answersCorrectly_congr qs qs' a h)

/-- Recording an answer leaves the correct answers of the questions as they
are and counts the answer if it is correct. -/
theorem recordAnswer_spec (qs : List QuizQuestion) (n : Nat) (a : Answer) :
    (recordAnswer (qs, n) a).1.map (fun q => q.correctAnswer) =
        qs.map (fun q => q.correctAnswer) ∧
      (recordAnswer (qs, n) a).2 = n + (if answersCorrectly qs a then 1 else 0) := by
  unfold recordAnswer answersCorrectly
  by_cases hneg : a.questionIndex < 0
  · have : ¬ (0 ≤ a.questionIndex) := by omega
    simp [hneg, this]
  · have hpos : 0 ≤ a.questionIndex := by omega
    simp only [hneg, if_false, hpos, decide_True, Bool.true_and]
    cases hq : qs[a.questionIndex.toNat]? with
    | none => simp
    | some q =>
      simp only
      constructor
      · apply List.ext_getElem?
        intro j
        simp only [List.getElem?_map, List.getElem?_set]
        by_cases hj : a.questionIndex.toNat = j
        · subst hj
          have hlt : a.questionIndex.toNat < qs.length := by
            rcases List.getElem?_eq_some_iff.mp hq with ⟨hlt, _⟩
            exact hlt
          simp [hq, hlt]
        · simp [hj]
      · split_ifs <;> rfl

/-- The scoring loop keeps the correct answers of the questions and counts the
submitted answers that are correct. -/
theorem foldl_recordAnswer_spec (answers : List Answer) :
    ∀ (qs : List QuizQuestion) (n : Nat),
      (answers.foldl recordAnswer (qs, n)).1.map (fun q => q.correctAnswer) =
          qs.map (fun q => q.correctAnswer) ∧
        (answers.foldl recordAnswer (qs, n)).2 = n + correctAnswers qs answers := by
  induction answers with
  | nil => intro qs n; simp [correctAnswers]
  | cons a rest ih =>
    intro qs n
    obtain ⟨h1, h2⟩ := recordAnswer_spec qs n a
    obtain ⟨h3, h4⟩ := ih (recordAnswer (qs, n) a).1 (recordAnswer (qs, n) a).2
    simp only [List.foldl_cons]
    refine ⟨h3.trans h1, ?_⟩
    rw [h4, h2, correctAnswers_congr qs _ rest h1]
    unfold correctAnswers
    simp only [List.filter_cons]
    split_ifs <;> simp
    omega

theorem roundHalfEven_le (q : ℚ) (k : ℤ) (h : q < k + 1 / 2) : roundHalfEven q ≤ k := by
  have hfl : ⌊q⌋ ≤ q := Int.floor_le q
  unfold roundHalfEven
  have hfk : ⌊q⌋ ≤ k := by
    have : (⌊q⌋ : ℚ) < k + 1 := by linarith
    have : (⌊q⌋ : ℚ) < ((k + 1 : ℤ) : ℚ) := by push_cast; linarith
    have := Int.cast_lt.mp this
    omega
  have hstep : 1 / 2 ≤ q - ⌊q⌋ → ⌊q⌋ + 1 ≤ k := by
    intro hge
    have : (⌊q⌋ : ℚ) < k := by linarith
    have := Int.cast_lt.mp this
    omega
  split_ifs with h1 h2 h3
  · exact hfk
  · exact hstep (le_of_lt h2)
  · exact hfk
  · exact hstep (not_lt.mp h1)

theorem le_roundHalfEven (q : ℚ) (k : ℤ) (h : (k : ℚ) + 1 / 2 < q) : k + 1 ≤ roundHalfEven q := by
  have hlt : q < ⌊q⌋ + 1 := Int.lt_floor_add_one q
  have hfk : k ≤ ⌊q⌋ := by
    have : (k : ℚ) < ((⌊q⌋ + 1 : ℤ) : ℚ) := by push_cast; linarith
    have := Int.cast_lt.mp this
    omega
  unfold roundHalfEven
  by_cases hk : k = ⌊q⌋
  · have hfrac : 1 / 2 < q - ⌊q⌋ := by rw [← hk]; linarith
    have h1 : ¬ (q - ⌊q⌋ < 1 / 2) := not_lt.mpr (le_of_lt hfrac)
    simp only [h1, if_false, hfrac, if_true]
    omega
  · have hk' : k + 1 ≤ ⌊q⌋ := by omega
    split_ifs <;> omega

/-- For every count below `2^32` (the limit of an array length) the double
product `totalQuestions * 0.8` has the ceiling of `4 * totalQuestions / 5`. -/
theorem ceilTimesPoint8_eq_passThreshold (n : Nat) (hn : n < 2 ^ 32) :
    ceilTimesPoint8 n = passThreshold n := by
  unfold ceilTimesPoint8 roundToDouble
  rcases Nat.eq_zero_or_pos n with rfl | hpos
  · simp [roundHalfEven, passThreshold]
  have hm1 : 1 ≤ passThreshold n := by unfold passThreshold; omega
  have hm5 : 4 * n ≤ 5 * passThreshold n ∧ 5 * passThreshold n ≤ 4 * n + 4 := by
    unfold passThreshold; omega
  generalize hm : passThreshold n = m at hm1 hm5
  have hnq : (1 : ℚ) ≤ n := by exact_mod_cast hpos
  have hnq' : (n : ℚ) < 2 ^ 32 := by exact_mod_cast hn
  have h5a : (4 : ℚ) * n ≤ 5 * m := by exact_mod_cast hm5.1
  have h5b : (5 : ℚ) * m ≤ 4 * n + 4 := by exact_mod_cast hm5.2
  have hx : (n : ℚ) * doublePoint8 = (4 * n + n / 2 ^ 52) / 5 := by
    unfold doublePoint8; ring
  have hxpos : (0 : ℚ) < n * doublePoint8 := by
    rw [hx]; positivity
  have hxlt : (n : ℚ) * doublePoint8 < 2 ^ 32 := by
    rw [hx]
    have : (n : ℚ) / 2 ^ 52 ≤ n := div_le_self (by linarith) (by norm_num)
    linarith
  -- the binade of the product
  have he1 : ((2 : ℕ) : ℚ) ^ Int.log 2 ((n : ℚ) * doublePoint8) ≤ n * doublePoint8 :=
    Int.zpow_log_le_self (by norm_num) hxpos
  have he2 : (n : ℚ) * doublePoint8 <
      ((2 : ℕ) : ℚ) ^ (Int.log 2 ((n : ℚ) * doublePoint8) + 1) :=
    Int.lt_zpow_succ_log_self (by norm_num) _
  generalize Int.log 2 ((n : ℚ) * doublePoint8) = e at he1 he2 ⊢
  simp only [Nat.cast_ofNat] at he1 he2
  have he : e ≤ 31 := by
    have h : (2 : ℚ) ^ e < 2 ^ (32 : ℤ) := by
      have : (2 : ℚ) ^ (32 : ℤ) = 2 ^ 32 := by norm_num
      rw [this]; linarith
    have := (zpow_lt_zpow_iff_right₀ (by norm_num : (1 : ℚ) < 2)).mp h
    omega
  -- the unit in the last place, one over a power of two
  obtain ⟨j, hj⟩ : ∃ j : ℕ, (52 - e : ℤ) = j := ⟨(52 - e).toNat, by omega⟩
  have hj21 : 21 ≤ j := by omega
  have hu : (2 : ℚ) ^ (e - 52) = 1 / 2 ^ j := by
    have : e - 52 = -(j : ℤ) := by omega
    rw [this, zpow_neg, zpow_natCast, one_div]
  have hupos : (0 : ℚ) < 2 ^ j := by positivity
  have hu21 : (1 : ℚ) / 2 ^ j ≤ 1 / 2 ^ 21 := by
    apply one_div_le_one_div_of_le (by positivity)
    exact pow_le_pow_right₀ (by norm_num) hj21
  have hsucc : (2 : ℚ) ^ (e + 1) = 2 ^ 53 / 2 ^ j := by
    have : e + 1 = (53 : ℤ) - j := by omega
    rw [this, zpow_sub₀ (by norm_num), zpow_natCast]
    norm_num
  -- the product lies within half a unit of the interval (m - 1, m]
  have hlow : (m : ℚ) - 1 + 1 / 2 ^ j / 2 < n * doublePoint8 := by
    rw [hx]
    have h1 : (0 : ℚ) ≤ n / 2 ^ 52 := by positivity
    have h2 : (1 : ℚ) / 2 ^ 21 / 2 < 1 / 5 := by norm_num
    linarith
  have hupp : (n : ℚ) * doublePoint8 < m + 1 / 2 ^ j / 2 := by
    rcases Nat.lt_or_ge (4 * n) (5 * m) with hlt | hge
    · have h1 : (4 : ℚ) * n + 1 ≤ 5 * m := by exact_mod_cast hlt
      have h2 : (n : ℚ) / 2 ^ 52 < 1 := by
        rw [div_lt_one (by positivity)]
        have : (2 : ℚ) ^ 32 ≤ 2 ^ 52 := by norm_num
        linarith
      have h3 : (0 : ℚ) < 1 / 2 ^ j / 2 := by positivity
      rw [hx]; linarith
    · have heq : (4 : ℚ) * n = 5 * m := by
        have : 4 * n = 5 * m := by omega
        exact_mod_cast this
      have hmx : (m : ℚ) ≤ n * doublePoint8 := by
        rw [hx]
        have h1 : (0 : ℚ) ≤ n / 2 ^ 52 := by positivity
        linarith
      have hm53 : (m : ℚ) < 2 ^ 53 / 2 ^ j := by
        rw [← hsucc]; linarith
      have hxm : (n : ℚ) * doublePoint8 = m + m / 2 ^ 54 := by
        rw [hx]
        have : (n : ℚ) = 5 * m / 4 := by linarith
        rw [this]; ring
      rw [hxm]
      have : (m : ℚ) / 2 ^ 54 < 1 / 2 ^ j / 2 := by
        have h1 : (m : ℚ) / 2 ^ 54 < 2 ^ 53 / 2 ^ j / 2 ^ 54 :=
          div_lt_div_of_pos_right hm53 (by positivity)
        have h2 : (2 : ℚ) ^ 53 / 2 ^ j / 2 ^ 54 = 1 / 2 ^ j / 2 := by
          field_simp; ring
        linarith
      linarith
  -- rounding
  have hq : (n : ℚ) * doublePoint8 / 2 ^ (e - 52) = n * doublePoint8 * 2 ^ j := by
    rw [hu]; field_simp
  have hr1 : roundHalfEven ((n : ℚ) * doublePoint8 / 2 ^ (e - 52)) ≤ (m : ℤ) * 2 ^ j := by
    apply roundHalfEven_le
    rw [hq]
    push_cast
    have := mul_lt_mul_of_pos_right hupp hupos
    have h2 : ((m : ℚ) + 1 / 2 ^ j / 2) * 2 ^ j = m * 2 ^ j + 1 / 2 := by
      field_simp
      ring
    linarith
  have hr2 : ((m : ℤ) - 1) * 2 ^ j + 1 ≤
      roundHalfEven ((n : ℚ) * doublePoint8 / 2 ^ (e - 52)) := by
    apply le_roundHalfEven
    rw [hq]
    push_cast
    have := mul_lt_mul_of_pos_right hlow hupos
    have h2 : ((m : ℚ) - 1 + 1 / 2 ^ j / 2) * 2 ^ j = (m - 1) * 2 ^ j + 1 / 2 := by
      field_simp
      ring
    linarith
  have hm0 : m ≠ 0 := by omega
  rw [Nat.ceil_eq_iff hm0]
  generalize roundHalfEven ((n : ℚ) * doublePoint8 / 2 ^ (e - 52)) = r at hr1 hr2 ⊢
  rw [hu]
  have hr1q : (r : ℚ) ≤ m * 2 ^ j := by exact_mod_cast hr1
  have hr2q : ((m : ℚ) - 1) * 2 ^ j + 1 ≤ r := by exact_mod_cast hr2
  have hcast : ((m - 1 : ℕ) : ℚ) = (m : ℚ) - 1 := by
    rw [Nat.cast_sub hm1]; simp
  rw [hcast]
  constructor
  · rw [mul_one_div, lt_div_iff₀ hupos]
    linarith
  · rw [mul_one_div, div_le_iff₀ hupos]
    exact hr1q

theorem ceil_four_fifths (n : Nat) : ⌈(4 * (n : ℚ)) / 5⌉₊ = passThreshold n := by
  unfold passThreshold
  apply le_antisymm
  · apply Nat.ceil_le.mpr
    rw [div_le_iff₀ (by norm_num)]
    have h : 4 * n ≤ (4 * n + 4) / 5 * 5 := by omega
    exact_mod_cast h
  · have h := Nat.le_ceil ((4 * (n : ℚ)) / 5)
    rw [div_le_iff₀ (by norm_num)] at h
    have h' : 4 * n ≤ ⌈(4 * (n : ℚ)) / 5⌉₊ * 5 := by exact_mod_cast h
    omega

/-- What an accepted submission went through. -/
theorem submitQuiz_accepted_inv (rt : Runtime) (now : Nat) (user user' : User)
    (stepIndex : Option Int) (answers : Option (List Answer)) (result : SubmitResult)
    (h : submitQuiz rt now user stepIndex answers = (.accepted result, user')) :
    ∃ (i : Nat) (steps : List RoadmapStep) (step : RoadmapStep) (quiz : Quiz)
      (submitted : List Answer),
      stepIndex = some (i : Int) ∧ answers = some submitted ∧ user.roadmap = some steps ∧
      steps[i]? = some step ∧ step.quiz = some quiz ∧ quiz.questions.length ≠ 0 ∧
      submitted.length = quiz.questions.length ∧
      validateAnswers quiz.questions.length submitted = none ∧
      result = (scoreQuiz rt now quiz submitted).2 ∧
      user' = { user with
        roadmap := some (steps.set i
          { step with quiz := some (scoreQuiz rt now quiz submitted).1 }) } := by
  unfold submitQuiz at h
  split at h
  · simp at h
  · next submitted =>
    split at h
    · simp at h
    · next steps hsteps =>
      split at h
      · simp at h
      · next index =>
        split at h
        · simp at h
        · next hrange =>
          split at h
          · simp at h
          · next step hstep =>
            split at h
            · simp at h
            · next quiz hquiz =>
              split at h
              · simp at h
              · next hlen0 =>
                split at h
                · simp at h
                · next hlen =>
                  split at h
                  · simp at h
                  · next hvalid =>
                    simp only [Prod.mk.injEq, SubmitResponse.accepted.injEq] at h
                    have hnn : 0 ≤ index := by
                      simp only [Bool.or_eq_true, decide_eq_true_eq, not_or, not_lt] at hrange
                      exact hrange.1
                    refine ⟨index.toNat, steps, step, quiz, submitted, ?_, rfl, hsteps, hstep,
                      hquiz, hlen0, ?_, hvalid, h.1.symm, h.2.symm⟩
                    · rw [Int.toNat_of_nonneg hnn]
                    · simpa using hlen

/-- C9: an accepted submission to a quiz of n questions (n ≥ 1) stores
`passed = true` exactly when the number of correct answers reported reaches
ceil(4n/5), which for every array length n is the value of
`Math.ceil(n * 0.8)` in double arithmetic; that number of correct answers is
the number of submitted answers that give the correct answer of the question
they name. For n = 5 the quiz is passed with 4 or 5 correct answers and not
with 3 or fewer. -/
theorem submitQuiz_passed_iff (rt : Runtime) (now : Nat) (user user' : User)
    (stepIndex : Option Int) (answers : Option (List Answer)) (result : SubmitResult)
    (h : submitQuiz rt now user stepIndex answers = (.accepted result, user')) :
    ∃ (i : Nat) (quiz quiz' : Quiz) (submitted : List Answer),
      stepIndex = some (i : Int) ∧ answers = some submitted ∧
      quizAt user i = some quiz ∧ quizAt user' i = some quiz' ∧
      1 ≤ quiz.questions.length ∧
      result.totalQuestions = quiz.questions.length ∧
      result.correctCount = correctAnswers quiz.questions submitted ∧
      quiz'.passed = result.passed ∧
      (result.passed = true ↔ ⌈(4 * (quiz.questions.length : ℚ)) / 5⌉₊ ≤ result.correctCount) ∧
      (quiz.questions.length < 2 ^ 32 →
        (result.passed = true ↔ ceilTimesPoint8 quiz.questions.length ≤ result.correctCount)) ∧
      (quiz.questions.length = 5 → (result.passed = true ↔ 4 ≤ result.correctCount)) := by
  obtain ⟨i, steps, step, quiz, submitted, hidx, hans, hsteps, hstep, hquiz, hlen0, _, _, hres,
    huser⟩ := submitQuiz_accepted_inv rt now user user' stepIndex answers result h
  obtain ⟨hmap, hcount⟩ := foldl_recordAnswer_spec submitted quiz.questions 0
  have hlen : (submitted.foldl recordAnswer (quiz.questions, 0)).1.length =
      quiz.questions.length := by
    have := congrArg List.length hmap
    simpa using this
  have hi : i < steps.length := by
    rcases List.getElem?_eq_some_iff.mp hstep with ⟨hlt, _⟩
    exact hlt
  have hpass : result.passed = true ↔ passThreshold quiz.questions.length ≤ result.correctCount := by
    subst hres
    simp [scoreQuiz, hlen]
  refine ⟨i, quiz, (scoreQuiz rt now quiz submitted).1, submitted, hidx, hans, ?_, ?_, ?_, ?_, ?_,
    ?_, ?_, ?_, ?_⟩
  · simp [quizAt, hsteps, hstep, hquiz]
  · subst huser
    simp [quizAt, hi]
  · omega
  · subst hres
    simp [scoreQuiz, hlen]
  · subst hres
    simp [scoreQuiz, hcount]
  · subst hres
    simp [scoreQuiz]
  · rw [ceil_four_fifths]
    exact hpass
  · intro h32
    rw [ceilTimesPoint8_eq_passThreshold _ h32]
    exact hpass
  · intro h5
    rw [hpass, h5]
    rfl

/-- Four correct answers out of five pass the quiz. -/
theorem submitQuiz_passed_iff_witness :
    ∃ result user',
      submitQuiz demoRuntime 100 (userWithQuiz fiveQuestions) (some 0) (some fourOfFive) =
        (.accepted result, user') ∧
      result.correctCount = 4 ∧ result.passed = true ∧
      ∃ (i : Nat) (quiz quiz' : Quiz) (submitted : List Answer),
        some (0 : Int) = some (i : Int) ∧ some fourOfFive = some submitted ∧
        quizAt (userWithQuiz fiveQuestions) i = some quiz ∧ quizAt user' i = some quiz' ∧
        1 ≤ quiz.questions.length ∧
        result.totalQuestions = quiz.questions.length ∧
        result.correctCount = correctAnswers quiz.questions submitted ∧
        quiz'.passed = result.passed ∧
        (result.passed = true ↔
          ⌈(4 * (quiz.questions.length : ℚ)) / 5⌉₊ ≤ result.correctCount) ∧
        (quiz.questions.length < 2 ^ 32 →
          (result.passed = true ↔
            ceilTimesPoint8 quiz.questions.length ≤ result.correctCount)) ∧
        (quiz.questions.length = 5 → (result.passed = true ↔ 4 ≤ result.correctCount)) :=
  ⟨_, _, rfl, rfl, rfl,
    submitQuiz_passed_iff demoRuntime 100 (userWithQuiz fiveQuestions) _ (some 0)
      (some fourOfFive) _ rfl⟩

/-- C10: the code at the failing input. A submission that answers question 0
twice and question 1 not at all is accepted: it has as many entries as the quiz
has questions. Two correct answers are reported and the quiz is passed, while
question 1 keeps `userAnswer = null` and only one question has
`isCorrect = true`. -/
theorem submitQuiz_duplicate_answers :
    (1 : Int) ∉ [(⟨0, "A"⟩ : Answer), ⟨0, "A"⟩].map (fun a => a.questionIndex) ∧
    (submitQuiz demoRuntime 100 (userWithQuiz twoQuestions) (some 0)
        (some [⟨0, "A"⟩, ⟨0, "A"⟩])).1 =
      .accepted
        { passed := true, correctCount := 2, totalQuestions := 2, score := 100,
          questions :=
            [ { question := "What is an image?", userAnswer := some "A",
                correctAnswer := some "A", isCorrect := some true,
                explanation := "see the documentation" },
              { question := "What is a container?", userAnswer := none,
                correctAnswer := some "B", isCorrect := none,
                explanation := "see the documentation" } ] } ∧
    (quizAt (submitQuiz demoRuntime 100 (userWithQuiz twoQuestions) (some 0)
        (some [⟨0, "A"⟩, ⟨0, "A"⟩])).2 0).map
      (fun quiz => (quiz.passed, quiz.questions.map (fun q => (q.userAnswer, q.isCorrect)))) =
      some (true, [(some "A", some true), (none, none)]) := by
  refine ⟨by decide, by decide, by decide⟩

/-! ## Percentages in double arithmetic -/

theorem log_two_eq (x : ℚ) (e : ℤ) (h1 : (2 : ℚ) ^ e ≤ x) (h2 : x < (2 : ℚ) ^ (e + 1)) :
    Int.log 2 x = e := by
  have hx : 0 < x := lt_of_lt_of_le (by positivity) h1
  have a1 : ((2 : ℕ) : ℚ) ^ Int.log 2 x ≤ x := Int.zpow_log_le_self (by norm_num) hx
  have a2 : x < ((2 : ℕ) : ℚ) ^ (Int.log 2 x + 1) := Int.lt_zpow_succ_log_self (by norm_num) x
  simp only [Nat.cast_ofNat] at a1 a2
  have b1 := (zpow_lt_zpow_iff_right₀ (by norm_num : (1 : ℚ) < 2)).mp (lt_of_le_of_lt a1 h2)
  have b2 := (zpow_lt_zpow_iff_right₀ (by norm_num : (1 : ℚ) < 2)).mp (lt_of_le_of_lt h1 a2)
  omega

theorem roundHalfEven_eq (q : ℚ) (z : ℤ) (h1 : (z : ℚ) - 1 / 2 < q) (h2 : q < z + 1 / 2) :
    roundHalfEven q = z := by
  have a := roundHalfEven_le q z h2
  have b := le_roundHalfEven q (z - 1) (by push_cast; linarith)
  omega

/-- The double nearest to a rational of a known binade. -/
theorem roundToDouble_eq (x : ℚ) (e z : ℤ) (h1 : (2 : ℚ) ^ e ≤ x) (h2 : x < (2 : ℚ) ^ (e + 1))
    (h3 : (z : ℚ) - 1 / 2 < x / 2 ^ (e - 52)) (h4 : x / 2 ^ (e - 52) < z + 1 / 2) :
    roundToDouble x = z * 2 ^ (e - 52) := by
  unfold roundToDouble
  rw [log_two_eq x e h1 h2, roundHalfEven_eq _ z h3 h4]

/-- In double arithmetic 23 of 40 is 57 percent: the product
`(23 / 40) * 100` is the double just below 57.5. In exact arithmetic it is
57.5, which rounds to 58. -/
theorem percentDouble_23_40 : percentDouble 23 40 = 57 ∧ roundHalfUp 23 40 = 58 := by
  constructor
  · unfold percentDouble
    have e1 : roundToDouble ((23 : ℕ) / (40 : ℕ) : ℚ) =
        (5179139571476070 : ℤ) * 2 ^ ((-1 : ℤ) - 52) := by
      apply roundToDouble_eq <;> norm_num
    rw [e1]
    have e2 : roundToDouble (((5179139571476070 : ℤ) : ℚ) * 2 ^ ((-1 : ℤ) - 52) * 100) =
        (8092405580431359 : ℤ) * 2 ^ ((5 : ℤ) - 52) := by
      apply roundToDouble_eq <;> norm_num
    rw [e2]
    have e3 : ⌊((8092405580431359 : ℤ) : ℚ) * 2 ^ ((5 : ℤ) - 52) + 1 / 2⌋ = 57 := by
      rw [Int.floor_eq_iff]
      constructor <;> norm_num
    rw [e3]
    rfl
  · unfold roundHalfUp
    have e3 : ⌊(100 * ((23 : ℕ) : ℚ)) / (40 : ℕ) + 1 / 2⌋ = 58 := by
      rw [Int.floor_eq_iff]
      constructor <;> norm_num
    rw [e3]
    rfl

theorem roundToDouble_zero : roundToDouble 0 = 0 := by
  unfold roundToDouble
  rw [zero_div, roundHalfEven_eq 0 0 (by norm_num) (by norm_num)]
  simp

theorem roundToDouble_nonneg (x : ℚ) (hx : 0 ≤ x) : 0 ≤ roundToDouble x := by
  unfold roundToDouble
  have hu : (0 : ℚ) < 2 ^ (Int.log 2 x - 52) := by positivity
  have hq : (0 : ℚ) ≤ x / 2 ^ (Int.log 2 x - 52) := div_nonneg hx hu.le
  have h := le_roundHalfEven (x / 2 ^ (Int.log 2 x - 52)) (-1) (by push_cast; linarith)
  have h' : (0 : ℚ) ≤ roundHalfEven (x / 2 ^ (Int.log 2 x - 52)) := by
    have : (0 : ℤ) ≤ roundHalfEven (x / 2 ^ (Int.log 2 x - 52)) := by omega
    exact_mod_cast this
  exact mul_nonneg h' hu.le

/-- Rounding to a double does not cross an integer below `2^53`. -/
theorem roundToDouble_le_nat (x : ℚ) (N : ℕ) (hx : 0 ≤ x) (hN : x ≤ N) (h53 : N < 2 ^ 53) :
    roundToDouble x ≤ N := by
  rcases eq_or_lt_of_le hx with h0 | hpos
  · rw [← h0, roundToDouble_zero]; positivity
  unfold roundToDouble
  have a1 : ((2 : ℕ) : ℚ) ^ Int.log 2 x ≤ x := Int.zpow_log_le_self (by norm_num) hpos
  generalize Int.log 2 x = e at a1 ⊢
  simp only [Nat.cast_ofNat] at a1
  have he : e < 53 := by
    have h : (2 : ℚ) ^ e < 2 ^ (53 : ℤ) := by
      have h1 : (N : ℚ) < 2 ^ 53 := by exact_mod_cast h53
      have h2 : (2 : ℚ) ^ (53 : ℤ) = 2 ^ 53 := by norm_num
      rw [h2]; linarith
    exact (zpow_lt_zpow_iff_right₀ (by norm_num : (1 : ℚ) < 2)).mp h
  obtain ⟨j, hj⟩ : ∃ j : ℕ, (52 - e : ℤ) = j := ⟨(52 - e).toNat, by omega⟩
  have hu : (2 : ℚ) ^ (e - 52) = 1 / 2 ^ j := by
    have : e - 52 = -(j : ℤ) := by omega
    rw [this, zpow_neg, zpow_natCast, one_div]
  have hupos : (0 : ℚ) < 2 ^ j := by positivity
  rw [hu]
  have hq : x / (1 / 2 ^ j) = x * 2 ^ j := by field_simp
  rw [hq]
  have hr : roundHalfEven (x * 2 ^ j) ≤ (N : ℤ) * 2 ^ j := by
    apply roundHalfEven_le
    push_cast
    have := mul_le_mul_of_nonneg_right hN hupos.le
    linarith
  have hrq : (roundHalfEven (x * 2 ^ j) : ℚ) ≤ N * 2 ^ j := by exact_mod_cast hr
  rw [mul_one_div, div_le_iff₀ hupos]
  exact hrq

/-- A percentage of a part in double arithmetic lies between 0 and 100. -/
theorem percentDouble_le (a b : Nat) (hab : a ≤ b) (hb : 0 < b) : percentDouble a b ≤ 100 := by
  unfold percentDouble
  have hbq : (0 : ℚ) < b := by exact_mod_cast hb
  have hq0 : (0 : ℚ) ≤ (a : ℚ) / b := by positivity
  have hq1 : (a : ℚ) / b ≤ ((1 : ℕ) : ℚ) := by
    rw [Nat.cast_one, div_le_one hbq]; exact_mod_cast hab
  have h1 := roundToDouble_le_nat _ 1 hq0 hq1 (by norm_num)
  have h0 := roundToDouble_nonneg _ hq0
  have h2 : roundToDouble (roundToDouble ((a : ℚ) / b) * 100) ≤ ((100 : ℕ) : ℚ) := by
    apply roundToDouble_le_nat _ 100 (by positivity) _ (by norm_num)
    push_cast at h1 ⊢
    linarith
  have h3 : ⌊roundToDouble (roundToDouble ((a : ℚ) / b) * 100) + 1 / 2⌋ ≤ 100 := by
    have : ⌊roundToDouble (roundToDouble ((a : ℚ) / b) * 100) + 1 / 2⌋ < 101 := by
      rw [Int.floor_lt]
      push_cast at h2 ⊢
      linarith
    omega
  omega

/-! ## Step status updates and progress -/

/-- C11: for every step of the roadmap whose quiz has at least one question and
is not passed, the update to 'completed' is answered with status 400 and
`requiresQuiz = true`, and the user document, with the step's status and
`completedAt` and the progress record, is left as it was. -/
theorem updateStep_requires_quiz (rt : Runtime) (now : Nat) (user : User)
    (steps : List RoadmapStep) (i : Nat) (step : RoadmapStep) (quiz : Quiz)
    (hsteps : user.roadmap = some steps) (hstep : steps[i]? = some step)
    (hquiz : step.quiz = some quiz) (hq : 1 ≤ quiz.questions.length)
    (hnp : quiz.passed ≠ true) :
    updateStep rt now user (some (i : Int)) "completed" =
      (.rejected 400 "Please complete and pass the quiz before marking this step as completed"
        true, user) := by
  have hi : i < steps.length := by
    rcases List.getElem?_eq_some_iff.mp hstep with ⟨hlt, _⟩
    exact hlt
  have hpend : quizPending step = true := by
    simp only [quizPending, hquiz, Bool.and_eq_true, decide_eq_true_eq, Bool.not_eq_true']
    exact ⟨by omega, by simpa using hnp⟩
  have hv : "completed" ∈ validStatuses := by decide
  have h1 : ¬ ((i : Int) < 0) := by omega
  have h2 : ¬ (steps.length ≤ i) := by omega
  simp [updateStep, hv, hsteps, hstep, hpend, h1, h2]

/-- A step in progress with an unpassed quiz of two questions. -/
theorem updateStep_requires_quiz_witness :
    updateStep demoRuntime 100 (userWithQuiz twoQuestions) (some ((0 : Nat) : Int)) "completed" =
      (.rejected 400 "Please complete and pass the quiz before marking this step as completed"
        true, userWithQuiz twoQuestions) :=
  updateStep_requires_quiz demoRuntime 100 (userWithQuiz twoQuestions) _ 0 _
    { questions := twoQuestions, generatedAt := some 1, passed := false, passedAt := none }
    rfl rfl rfl (by decide) (by decide)

/-- What an accepted status update stores. -/
theorem updateStep_updated (rt : Runtime) (now : Nat) (user : User)
    (steps : List RoadmapStep) (i : Nat) (step : RoadmapStep) (status : String)
    (hv : validStatuses.contains status = true)
    (hsteps : user.roadmap = some steps) (hstep : steps[i]? = some step)
    (hq : (status = "completed" ∧ quizPending step = true) → False) :
    updateStep rt now user (some (i : Int)) status =
      (.updated
        { user.progress with
          skillsCompleted := completedCount (steps.set i
            { step with
              completedAt := if status = "completed" then some now else step.completedAt
              status := status })
          overallCompletion := rt.roundPercent
            (completedCount (steps.set i
              { step with
                completedAt := if status = "completed" then some now else step.completedAt
                status := status }))
            steps.length
          lastUpdated := some now },
        { user with
          roadmap := some (steps.set i
            { step with
              completedAt := if status = "completed" then some now else step.completedAt
              status := status })
          progress :=
            { user.progress with
              skillsCompleted := completedCount (steps.set i
                { step with
                  completedAt := if status = "completed" then some now else step.completedAt
                  status := status })
              overallCompletion := rt.roundPercent
                (completedCount (steps.set i
                  { step with
                    completedAt := if status = "completed" then some now else step.completedAt
                    status := status }))
                steps.length
              lastUpdated := some now } }) := by
  have hi : i < steps.length := by
    rcases List.getElem?_eq_some_iff.mp hstep with ⟨hlt, _⟩
    exact hlt
  have hv' : status ∈ validStatuses := by simpa using hv
  have h1 : ¬ ((i : Int) < 0) := by omega
  have h2 : ¬ (steps.length ≤ i) := by omega
  have hq' : ¬ (status = "completed" ∧ quizPending step = true) := hq
  simp [updateStep, hv', hsteps, hstep, h1, h2, hq']

/-- C12: the code at the failing input. On a roadmap of 40 steps with 22
completed, marking step 22 as completed stores `skillsCompleted = 23` and,
computing `Math.round((23 / 40) * 100)` in double arithmetic,
`overallCompletion = 57`, while round(100 * 23 / 40) with a half going up is
58. -/
theorem updateStep_percent_23_of_40 :
    (updateStep ieeeRuntime 100 (fortySteps 22) (some 22) "completed").2.progress.skillsCompleted
      = 23 ∧
    (updateStep ieeeRuntime 100 (fortySteps 22) (some 22) "completed").2.progress.overallCompletion
      = 57 ∧
    roundHalfUp 23 40 = 58 := by
  have h := updateStep_updated ieeeRuntime 100 (fortySteps 22)
    (List.replicate 22 (plainStep "completed") ++ List.replicate 18 (plainStep "in_progress"))
    22 (plainStep "in_progress") "completed" (by decide) rfl (by decide) (by decide)
  have hc : completedCount
      ((List.replicate 22 (plainStep "completed") ++
        List.replicate 18 (plainStep "in_progress")).set 22
          { plainStep "in_progress" with
            completedAt := if "completed" = "completed" then some 100
              else (plainStep "in_progress").completedAt
            status := "completed" }) = 23 := by decide
  have hl : (List.replicate 22 (plainStep "completed") ++
      List.replicate 18 (plainStep "in_progress")).length = 40 := by decide
  have h' : updateStep ieeeRuntime 100 (fortySteps 22) (some 22) "completed" = _ := h
  rw [h']
  simp only [hc, hl]
  exact ⟨rfl, percentDouble_23_40.1, percentDouble_23_40.2⟩

/-- C13: the code at the failing input. With 40 gaps of high priority and 23 of
the 40 steps completed, `GET /progress` reports
`Math.round((23 / 40) * 100)` computed in double arithmetic,
`jobAccessibility = 57`, and stores it, while round(100 * 23 / 40) is 58. -/
theorem getProgress_percent_23_of_40 :
    ((fortySteps 23).skillGapAnalysis.gaps.filter isCritical).length = 40 ∧
    completedCriticalFrom (fortySteps 23).skillGapAnalysis.gaps
      (List.replicate 23 (plainStep "completed") ++ List.replicate 17 (plainStep "in_progress"))
      0 = 23 ∧
    (getProgress ieeeRuntime 100 (fortySteps 23)).1.jobAccessibility = 57 ∧
    (getProgress ieeeRuntime 100 (fortySteps 23)).2.progress.jobAccessibility = 57 ∧
    roundHalfUp 23 40 = 58 := by
  have hm : ((fortySteps 23).skillGapAnalysis.gaps.filter isCritical).length = 40 := by decide
  have hc : completedCriticalFrom (fortySteps 23).skillGapAnalysis.gaps
      (List.replicate 23 (plainStep "completed") ++ List.replicate 17 (plainStep "in_progress"))
      0 = 23 := by decide
  have hj : jobAccessibility ieeeRuntime (fortySteps 23) = 57 := by
    have hr : (fortySteps 23).roadmap = some (List.replicate 23 (plainStep "completed") ++
        List.replicate 17 (plainStep "in_progress")) := rfl
    have hl : (List.replicate 23 (plainStep "completed") ++
        List.replicate 17 (plainStep "in_progress")).length > 0 := by decide
    simp only [jobAccessibility, hr, hl, if_true, hm, hc]
    exact percentDouble_23_40.1
  refine ⟨hm, hc, ?_, ?_, percentDouble_23_40.2⟩
  · simp only [getProgress, hj]
  · have h0 : (fortySteps 23).progress.jobAccessibility = 0 := rfl
    simp only [getProgress, hj, h0]
    rfl

/-- The completed steps counted as critical or high, from a position on, are no
more than the critical or high gaps from that position on. -/
theorem completedCriticalFrom_le (gaps : List Gap) (steps : List RoadmapStep) :
    ∀ idx, completedCriticalFrom gaps steps idx ≤ ((gaps.drop idx).filter isCritical).length := by
  induction steps with
  | nil => intro idx; simp [completedCriticalFrom]
  | cons step rest ih =>
    intro idx
    have hrec := ih (idx + 1)
    simp only [completedCriticalFrom]
    cases hg : gaps[idx]? with
    | none =>
      simp only [Bool.and_false, Bool.false_eq_true, if_false, Nat.zero_add]
      have hlen : gaps.length ≤ idx := by
        by_contra hlt
        have := List.getElem?_eq_getElem (l := gaps) (by omega : idx < gaps.length)
        rw [this] at hg
        simp at hg
      have h1 : gaps.drop (idx + 1) = [] := List.drop_eq_nil_of_le (by omega)
      rw [h1] at hrec
      simp only [List.filter_nil, List.length_nil, Nat.le_zero] at hrec
      omega
    | some gap =>
      have hlt : idx < gaps.length := by
        rcases List.getElem?_eq_some_iff.mp hg with ⟨hlt, _⟩
        exact hlt
      have hget : gaps[idx] = gap := by
        rcases List.getElem?_eq_some_iff.mp hg with ⟨_, h⟩
        exact h
      have hdrop : gaps.drop idx = gap :: gaps.drop (idx + 1) := by
        rw [← hget]
        exact List.drop_eq_getElem_cons hlt
      rw [hdrop, List.filter_cons]
      by_cases hc : isCritical gap = true
      · simp only [hc, if_true, List.length_cons, Bool.and_true]
        split_ifs <;> omega
      · simp only [hc, Bool.and_false, Bool.false_eq_true, if_false, Nat.zero_add]
        exact hrec

/-- The value computed by `GET /progress` lies between 0 and 100 when the stored
`overallCompletion` does. -/
theorem jobAccessibility_le (rt : Runtime) (hrt : DoublePercent rt) (user : User)
    (h : user.progress.overallCompletion ≤ 100) : jobAccessibility rt user ≤ 100 := by
  unfold jobAccessibility
  cases hr : user.roadmap with
  | none => simp
  | some steps =>
    simp only
    split_ifs with h1 h2
    · rw [hrt _ _ h2]
      apply percentDouble_le _ _ _ h2
      have := completedCriticalFrom_le user.skillGapAnalysis.gaps steps 0
      simpa using this
    · exact h
    · omega

/-- The progress record after a status update: untouched, or recomputed from a
roadmap that has at least one step. -/
theorem updateStep_progress (rt : Runtime) (now : Nat) (user : User) (stepIndex : Option Int)
    (status : String) :
    (updateStep rt now user stepIndex status).2 = user ∨
    ∃ steps' : List RoadmapStep, 0 < steps'.length ∧
      (updateStep rt now user stepIndex status).2.roadmap = some steps' ∧
      (updateStep rt now user stepIndex status).2.progress =
        { user.progress with
          skillsCompleted := completedCount steps'
          overallCompletion := rt.roundPercent (completedCount steps') steps'.length
          lastUpdated := some now } := by
  unfold updateStep
  by_cases hv : (!validStatuses.contains status) = true
  · left; simp only [hv, if_true]
  simp only [hv, Bool.false_eq_true, if_false]
  cases hr : user.roadmap with
  | none => left; rfl
  | some steps =>
    cases stepIndex with
    | none => left; rfl
    | some index =>
      simp only
      by_cases hidx : (decide (index < 0) || decide (index ≥ (steps.length : Int))) = true
      · left; simp only [hidx, if_true]
      simp only [hidx, Bool.false_eq_true, if_false]
      cases hstep : steps[index.toNat]? with
      | none => left; rfl
      | some step =>
        simp only
        by_cases hq : (decide (status = "completed") && quizPending step) = true
        · left; simp only [hq, if_true]
        simp only [hq, Bool.false_eq_true, if_false]
        right
        refine ⟨_, ?_, rfl, rfl⟩
        rcases List.getElem?_eq_some_iff.mp hstep with ⟨hlt, _⟩
        simp only [List.length_set]
        omega

/-- The progress record after an analysis request: untouched, or reset. -/
theorem postAnalysis_progress (rt : Runtime) (store : Store) (pool : KeyPool) (now : Nat)
    (user : User) (request : AnalysisRequest) :
    (postAnalysis rt store pool now user request).2.1 = user ∨
    ((postAnalysis rt store pool now user request).2.1.progress.overallCompletion = 0 ∧
      (postAnalysis rt store pool now user request).2.1.progress.skillsCompleted = 0 ∧
      (postAnalysis rt store pool now user request).2.1.progress.jobAccessibility = 0) := by
  unfold postAnalysis
  repeat' split
  all_goals first
    | exact Or.inl rfl
    | exact Or.inr ⟨rfl, rfl, rfl⟩

theorem postRoadmap_progress (rt : Runtime) (store : Store) (pool : KeyPool) (now : Nat)
    (user : User) : (postRoadmap rt store pool now user).2.1.progress = user.progress := by
  unfold postRoadmap
  repeat' split
  all_goals rfl

theorem postQuiz_progress (rt : Runtime) (store : Store) (pool : KeyPool) (now : Nat)
    (user : User) (stepIndex : Option Int) :
    (postQuiz rt store pool now user stepIndex).2.1.progress = user.progress := by
  unfold postQuiz
  repeat' split
  all_goals rfl

theorem submitQuiz_progress (rt : Runtime) (now : Nat) (user : User) (stepIndex : Option Int)
    (answers : Option (List Answer)) :
    (submitQuiz rt now user stepIndex answers).2.progress = user.progress := by
  unfold submitQuiz
  repeat' split
  all_goals rfl

/-- C14: in double arithmetic, a user document whose `overallCompletion` and
`jobAccessibility` are natural numbers up to 100 (as both are, at 0, on a new
user) has them in that range again after an analysis, after a step status
update and after `GET /progress`, which also reports a value in that range;
roadmap generation, quiz generation and quiz submission leave the progress
record as it is. For step and gap lists of any lengths the number of completed
steps counted as critical or high is at most the number of critical or high
gaps. -/
theorem progress_in_range (rt : Runtime) (hrt : DoublePercent rt) (store : Store)
    (pool : KeyPool) (now : Nat) (user : User) (stepIndex : Option Int) (status : String)
    (request : AnalysisRequest) (answers : Option (List Answer))
    (h : user.progress.overallCompletion ≤ 100 ∧ user.progress.jobAccessibility ≤ 100) :
    ((postAnalysis rt store pool now user request).2.1.progress.overallCompletion ≤ 100 ∧
      (postAnalysis rt store pool now user request).2.1.progress.jobAccessibility ≤ 100) ∧
    ((updateStep rt now user stepIndex status).2.progress.overallCompletion ≤ 100 ∧
      (updateStep rt now user stepIndex status).2.progress.jobAccessibility ≤ 100) ∧
    ((getProgress rt now user).2.progress.overallCompletion ≤ 100 ∧
      (getProgress rt now user).2.progress.jobAccessibility ≤ 100 ∧
      (getProgress rt now user).1.jobAccessibility ≤ 100) ∧
    (postRoadmap rt store pool now user).2.1.progress = user.progress ∧
    (postQuiz rt store pool now user stepIndex).2.1.progress = user.progress ∧
    (submitQuiz rt now user stepIndex answers).2.progress = user.progress ∧
    (∀ (gaps : List Gap) (steps : List RoadmapStep),
      completedCriticalFrom gaps steps 0 ≤ (gaps.filter isCritical).length) := by
  refine ⟨?_, ?_, ?_, postRoadmap_progress _ _ _ _ _, postQuiz_progress _ _ _ _ _ _,
    submitQuiz_progress _ _ _ _ _, ?_⟩
  · rcases postAnalysis_progress rt store pool now user request with he | ⟨h1, _, h3⟩
    · rw [he]; exact h
    · rw [h1, h3]; exact ⟨by omega, by omega⟩
  · rcases updateStep_progress rt now user stepIndex status with he | ⟨steps', hlen, _, hp⟩
    · rw [he]; exact h
    · rw [hp]
      refine ⟨?_, h.2⟩
      simp only
      rw [hrt _ _ hlen]
      exact percentDouble_le _ _ (List.length_filter_le _ _) hlen
  · have hj := jobAccessibility_le rt hrt user h.1
    unfold getProgress
    simp only
    split_ifs
    · exact ⟨h.1, hj, hj⟩
    · exact ⟨h.1, h.2, hj⟩
  · intro gaps steps
    have := completedCriticalFrom_le gaps steps 0
    simpa using this

/-- A user with 23 of 40 steps completed, in double arithmetic. -/
theorem progress_in_range_witness :
    ((fortySteps 23).progress.overallCompletion ≤ 100 ∧
      (fortySteps 23).progress.jobAccessibility ≤ 100) ∧
    (getProgress ieeeRuntime 100 (fortySteps 23)).1.jobAccessibility ≤ 100 :=
  ⟨⟨by decide, by decide⟩,
    (progress_in_range ieeeRuntime (fun _ _ _ => rfl) emptyStore emptyPool 100 (fortySteps 23)
      (some 0) "completed" ⟨none, none⟩ none ⟨by decide, by decide⟩).2.2.1.2.2⟩

/-! ## Key pool -/

theorem rotateApiKey_apiKeys (p : KeyPool) : (rotateApiKey p).apiKeys = p.apiKeys := by
  unfold rotateApiKey
  split_ifs <;> rfl

theorem rotateApiKey_index (p : KeyPool) :
    (rotateApiKey p).currentKeyIndex =
      if p.apiKeys.length > 1 then (p.currentKeyIndex + 1) % p.apiKeys.length
      else p.currentKeyIndex := by
  unfold rotateApiKey
  split_ifs <;> rfl

theorem rotateTimes_apiKeys (k : Nat) : ∀ p : KeyPool, (rotateTimes k p).apiKeys = p.apiKeys := by
  induction k with
  | zero => intro p; rfl
  | succ k ih => intro p; simp only [rotateTimes, ih, rotateApiKey_apiKeys]

/-- The index after `k` rotations of a pool whose index is in range. -/
theorem rotateTimes_index (k : Nat) :
    ∀ p : KeyPool, p.currentKeyIndex < p.apiKeys.length →
      (rotateTimes k p).currentKeyIndex =
        if p.apiKeys.length > 1 then (p.currentKeyIndex + k) % p.apiKeys.length
        else p.currentKeyIndex := by
  induction k with
  | zero =>
    intro p hi
    simp only [rotateTimes, Nat.add_zero, Nat.mod_eq_of_lt hi, ite_self]
  | succ k ih =>
    intro p hi
    have hi' : (rotateApiKey p).currentKeyIndex < (rotateApiKey p).apiKeys.length := by
      rw [rotateApiKey_apiKeys, rotateApiKey_index]
      split_ifs with h
      · exact Nat.mod_lt _ (by omega)
      · exact hi
    simp only [rotateTimes, ih _ hi', rotateApiKey_apiKeys, rotateApiKey_index]
    split_ifs with h
    · rw [Nat.add_mod, Nat.mod_mod, ← Nat.add_mod]
      congr 1
      omega
    · rfl

/-- C15: for every pool of n ≥ 1 keys and every current index i < n, calling
`rotateApiKey` n times leaves the index equal to i; a single call sets it to
(i + 1) mod n when n ≥ 2 and changes nothing when n ≤ 1. -/
theorem rotateApiKey_cycle (p : KeyPool) (hn : 1 ≤ p.apiKeys.length)
    (hi : p.currentKeyIndex < p.apiKeys.length) :
    (rotateTimes p.apiKeys.length p).currentKeyIndex = p.currentKeyIndex ∧
    (rotateTimes p.apiKeys.length p).apiKeys = p.apiKeys ∧
    (2 ≤ p.apiKeys.length →
      (rotateApiKey p).currentKeyIndex = (p.currentKeyIndex + 1) % p.apiKeys.length) ∧
    (p.apiKeys.length ≤ 1 → rotateApiKey p = p) := by
  refine ⟨?_, rotateTimes_apiKeys _ _, ?_, ?_⟩
  · rw [rotateTimes_index _ _ hi]
    split_ifs
    · rw [Nat.add_mod_right, Nat.mod_eq_of_lt hi]
    · rfl
  · intro h2
    rw [rotateApiKey_index, if_pos (by omega)]
  · intro h1
    unfold rotateApiKey
    rw [if_neg (by omega)]

/-- Three keys, the second one current. -/
theorem rotateApiKey_cycle_witness :
    (rotateTimes 3 threeKeyPool).currentKeyIndex = 1 ∧
    (rotateApiKey threeKeyPool).currentKeyIndex = 2 :=
  have h := rotateApiKey_cycle threeKeyPool (by decide) (by decide)
  ⟨h.1, h.2.2.1 (by decide)⟩

/-! ## Model selection with retry -/

theorem rotationCount_append (a b : List Event) :
    rotationCount (a ++ b) = rotationCount a + rotationCount b := by
  simp [rotationCount]

theorem bindCount_append (a b : List Event) :
    bindCount (a ++ b) = bindCount a + bindCount b := by
  simp [bindCount]

/-- One pass over the models makes at most one bind request per model and no
rotation. -/
theorem tryModels_events (rt : Runtime) (k : Nat) (models : List String) :
    ∀ lastError, rotationCount (tryModels rt k models lastError).2 = 0 ∧
      bindCount (tryModels rt k models lastError).2 ≤ models.length := by
  induction models with
  | nil => intro lastError; exact ⟨rfl, Nat.le_refl _⟩
  | cons m ms ih =>
    intro lastError
    simp only [tryModels]
    cases hb : rt.getGenerativeModel k m with
    | ok u => exact ⟨rfl, by simp [bindCount]⟩
    | error e =>
      obtain ⟨h1, h2⟩ := ih (some e)
      constructor
      · simpa [rotationCount] using h1
      · simp only [bindCount, List.filter_cons, List.length_cons] at h2 ⊢
        simpa using h2

theorem rotateApiKey_trace (p : KeyPool) :
    ∃ evs, (rotateApiKey p).trace = p.trace ++ evs ∧ rotationCount evs ≤ 1 ∧
      bindCount evs = 0 := by
  unfold rotateApiKey
  split_ifs
  · exact ⟨[Event.rotated ((p.currentKeyIndex + 1) % p.apiKeys.length)], rfl, by simp [rotationCount], rfl⟩
  · exact ⟨[], by simp, by decide, rfl⟩

/-- The retry loop keeps the keys and adds, to the log, at most one rotation
and one pass over the models for each round that the guard allows. -/
theorem retryLoop_events (rt : Runtime) (validModels : List String) (maxRetries : Nat) :
    ∀ (fuel attempt : Nat) (p : KeyPool) (lastError : Option JsError),
      (retryLoop rt validModels maxRetries fuel attempt p lastError).2.apiKeys = p.apiKeys ∧
      ∃ evs, (retryLoop rt validModels maxRetries fuel attempt p lastError).2.trace =
          p.trace ++ evs ∧
        rotationCount evs ≤ min fuel (min maxRetries p.apiKeys.length - attempt) ∧
        bindCount evs ≤
          min fuel (min maxRetries p.apiKeys.length - attempt) * validModels.length := by
  intro fuel
  induction fuel with
  | zero =>
    intro attempt p lastError
    exact ⟨rfl, [], by simp [retryLoop], by simp [rotationCount], by simp [bindCount]⟩
  | succ fuel ih =>
    intro attempt p lastError
    simp only [retryLoop]
    by_cases hg : (decide (attempt < maxRetries) && decide (attempt < p.apiKeys.length)) = true
    · have hg' : attempt < maxRetries ∧ attempt < p.apiKeys.length := by simpa using hg
      have hpos : 1 ≤ min maxRetries p.apiKeys.length - attempt := by omega
      obtain ⟨ht1, ht2⟩ := tryModels_events rt p.currentKeyIndex validModels lastError
      simp only [hg, if_true]
      cases hres : tryModels rt p.currentKeyIndex validModels lastError with
      | mk outcome evs =>
        rw [hres] at ht1 ht2
        simp only at ht1 ht2
        cases outcome with
        | ok m =>
          refine ⟨rfl, evs, rfl, by omega, ?_⟩
          have : 1 ≤ min (fuel + 1) (min maxRetries p.apiKeys.length - attempt) := by omega
          calc bindCount evs ≤ validModels.length := ht2
            _ = 1 * validModels.length := by omega
            _ ≤ _ := Nat.mul_le_mul_right _ this
        | error lastError' =>
          simp only
          obtain ⟨hk, evs2, htr2, hr2, hb2⟩ :=
            ih (attempt + 1) (rotateApiKey (p.logged evs)) lastError'
          obtain ⟨evs1, htr1, hr1, hb1⟩ := rotateApiKey_trace (p.logged evs)
          have hkeys : (rotateApiKey (p.logged evs)).apiKeys = p.apiKeys := by
            rw [rotateApiKey_apiKeys]; rfl
          rw [hkeys] at hr2 hb2
          refine ⟨hk.trans hkeys, evs ++ evs1 ++ evs2, ?_, ?_, ?_⟩
          · rw [htr2, htr1]
            simp [KeyPool.logged, List.append_assoc]
          · rw [rotationCount_append, rotationCount_append]
            omega
          · rw [bindCount_append, bindCount_append, hb1]
            have hsplit : min (fuel + 1) (min maxRetries p.apiKeys.length - attempt) =
                min fuel (min maxRetries p.apiKeys.length - (attempt + 1)) + 1 := by omega
            rw [hsplit, Nat.add_mul]
            omega
    · rw [if_neg hg]
      exact ⟨rfl, [], by simp, by simp [rotationCount], by simp [bindCount]⟩

/-- When no model binds, one pass over the models ends without a model. -/
theorem tryModels_all_fail (rt : Runtime) (k : Nat)
    (hfail : ∀ key model, ∃ e, rt.getGenerativeModel key model = .error e)
    (models : List String) :
    ∀ lastError, ∃ lastError', (tryModels rt k models lastError).1 = .error lastError' := by
  induction models with
  | nil => intro lastError; exact ⟨lastError, rfl⟩
  | cons m ms ih =>
    intro lastError
    obtain ⟨e, he⟩ := hfail k m
    simp only [tryModels, he]
    exact ih (some e)

/-- When no model binds, the retry loop rotates once per round that the guard
allows. -/
theorem retryLoop_all_fail_index (rt : Runtime) (validModels : List String) (maxRetries : Nat)
    (hfail : ∀ key model, ∃ e, rt.getGenerativeModel key model = .error e) :
    ∀ (fuel attempt : Nat) (p : KeyPool) (lastError : Option JsError),
      p.currentKeyIndex < p.apiKeys.length →
      (retryLoop rt validModels maxRetries fuel attempt p lastError).2.currentKeyIndex =
        if p.apiKeys.length > 1 then
          (p.currentKeyIndex + min fuel (min maxRetries p.apiKeys.length - attempt)) %
            p.apiKeys.length
        else p.currentKeyIndex := by
  intro fuel
  induction fuel with
  | zero =>
    intro attempt p lastError hi
    simp only [retryLoop, Nat.zero_min, Nat.add_zero, Nat.mod_eq_of_lt hi, ite_self]
  | succ fuel ih =>
    intro attempt p lastError hi
    simp only [retryLoop]
    by_cases hg : (decide (attempt < maxRetries) && decide (attempt < p.apiKeys.length)) = true
    · have hg' : attempt < maxRetries ∧ attempt < p.apiKeys.length := by simpa using hg
      simp only [hg, if_true]
      obtain ⟨lastError', hle⟩ := tryModels_all_fail rt p.currentKeyIndex hfail validModels lastError
      cases hres : tryModels rt p.currentKeyIndex validModels lastError with
      | mk outcome evs =>
        rw [hres] at hle
        simp only at hle
        subst hle
        simp only
        have hkeys : (rotateApiKey (p.logged evs)).apiKeys = p.apiKeys := by
          rw [rotateApiKey_apiKeys]; rfl
        have hidx : (rotateApiKey (p.logged evs)).currentKeyIndex =
            if p.apiKeys.length > 1 then (p.currentKeyIndex + 1) % p.apiKeys.length
            else p.currentKeyIndex := by
          rw [rotateApiKey_index]; rfl
        have hi' : (rotateApiKey (p.logged evs)).currentKeyIndex <
            (rotateApiKey (p.logged evs)).apiKeys.length := by
          rw [hkeys, hidx]
          split_ifs with h
          · exact Nat.mod_lt _ (by omega)
          · exact hi
        rw [ih (attempt + 1) _ lastError' hi', hkeys, hidx]
        have hsplit : min (fuel + 1) (min maxRetries p.apiKeys.length - attempt) =
            min fuel (min maxRetries p.apiKeys.length - (attempt + 1)) + 1 := by omega
        rw [hsplit]
        split_ifs with h
        · rw [Nat.add_mod, Nat.mod_mod, ← Nat.add_mod]
          congr 1
          omega
        · rfl
    · rw [if_neg hg]
      have hz : min (fuel + 1) (min maxRetries p.apiKeys.length - attempt) = 0 := by
        have : ¬ (attempt < maxRetries ∧ attempt < p.apiKeys.length) := by simpa using hg
        omega
      rw [hz, Nat.add_zero, Nat.mod_eq_of_lt hi, ite_self]

/-- C26: for every credential pool and every `maxRetries`, a call of
`getModelWithRetry` returns a model or raises, keeps the keys, and adds to the
log at most min(maxRetries, credentialCount) key rotations and at most that
many passes over the candidate models. With the default `maxRetries`, an index
in range and every model failing to bind, the current key index ends equal to
the value it started with. -/
theorem getModelWithRetry_bounded (rt : Runtime) (p : KeyPool) (maxRetries : Nat) :
    ((∃ model, (getModelWithRetry rt p maxRetries).1 = .ok model) ∨
      (∃ e, (getModelWithRetry rt p maxRetries).1 = .error e)) ∧
    (getModelWithRetry rt p maxRetries).2.apiKeys = p.apiKeys ∧
    (∃ evs, (getModelWithRetry rt p maxRetries).2.trace = p.trace ++ evs ∧
      rotationCount evs ≤ min maxRetries p.apiKeys.length ∧
      ∀ supportedModels, fetchSupportedModels rt p = .ok supportedModels →
        bindCount evs ≤
          min maxRetries p.apiKeys.length * (validModelsOf supportedModels).length) ∧
    ((∀ key model, ∃ e, rt.getGenerativeModel key model = .error e) →
      (p.apiKeys ≠ [] → p.currentKeyIndex < p.apiKeys.length) →
      (getModelWithRetryDefault rt p).2.currentKeyIndex = p.currentKeyIndex) := by
  refine ⟨?_, ?_, ?_, ?_⟩
  · cases h : (getModelWithRetry rt p maxRetries).1 with
    | ok model => exact Or.inl ⟨model, rfl⟩
    | error e => exact Or.inr ⟨e, rfl⟩
  · unfold getModelWithRetry
    cases hf : fetchSupportedModels rt p with
    | error e => rfl
    | ok supportedModels => exact (retryLoop_events rt _ maxRetries maxRetries 0 p none).1
  · unfold getModelWithRetry
    cases hf : fetchSupportedModels rt p with
    | error e => exact ⟨[], by simp, by simp [rotationCount], fun _ h => by simp at h⟩
    | ok supportedModels =>
      obtain ⟨_, evs, htr, hr, hb⟩ := retryLoop_events rt
        (supportedModels.filter (fun model => model != "gemini-2.0-flash-exp"))
        maxRetries maxRetries 0 p none
      refine ⟨evs, htr, by omega, ?_⟩
      intro s hs
      simp only [Except.ok.injEq] at hs
      subst hs
      have : min maxRetries (min maxRetries p.apiKeys.length - 0) =
          min maxRetries p.apiKeys.length := by omega
      rw [this] at hb
      exact hb
  · intro hfail hidx
    unfold getModelWithRetryDefault getModelWithRetry
    cases hf : fetchSupportedModels rt p with
    | error e => rfl
    | ok supportedModels =>
      have hne : p.apiKeys ≠ [] := by
        intro hnil
        simp [fetchSupportedModels, getGenAI, hnil] at hf
      have hi := hidx hne
      simp only
      rw [retryLoop_all_fail_index rt _ _ hfail _ _ _ _ hi]
      have : min p.apiKeys.length (min p.apiKeys.length p.apiKeys.length - 0) =
          p.apiKeys.length := by omega
      rw [this]
      split_ifs
      · rw [Nat.add_mod_right, Nat.mod_eq_of_lt hi]
      · rfl

/-- Three keys, the second one current, and no model binds: three rounds, back
at the second key. -/
theorem getModelWithRetry_bounded_witness :
    (getModelWithRetryDefault unboundRuntime threeKeyPool).2.currentKeyIndex = 1 ∧
    rotationCount (getModelWithRetryDefault unboundRuntime threeKeyPool).2.trace = 3 :=
  ⟨(getModelWithRetry_bounded unboundRuntime threeKeyPool 3).2.2.2
      (fun _ _ => ⟨_, rfl⟩) (fun _ => by decide), by decide⟩

/-! ## Error classification -/

/-- The phrases that make an error recoverable. -/
theorem includes_empty_phrases :
    includes "" "api key is not configured" = false ∧ includes "" "quota" = false ∧
    includes "" "rate limit" = false ∧ includes "" "429" = false ∧
    includes "" "resource exhausted" = false ∧ includes "" "unavailable" = false := by
  decide

/-- C27, as stated, fails: the failure raised when no credential is configured,
'Failed to initialize Gemini AI. Please check your API key.', is not classified
as recoverable, nor are a resource-exhausted failure reported as
'RESOURCE_EXHAUSTED', a failure reported as 'rate-limited' and a failure
reported as 'Service is overloaded'; none of their messages contains one of
the six phrases. -/
theorem isRecoverableError_unrecognised_counterexample :
    isRecoverableError demoRuntime
      (newError "Failed to initialize Gemini AI. Please check your API key.") = false ∧
    isRecoverableError demoRuntime (newError "RESOURCE_EXHAUSTED") = false ∧
    isRecoverableError demoRuntime (newError "The request was rate-limited") = false ∧
    isRecoverableError demoRuntime (newError "Service is overloaded") = false := by
  decide

/-- C27, amended: `isRecoverableError` answers true exactly for an error that
has a message whose lower-cased form contains one of 'api key is not
configured', 'quota', 'rate limit', '429', 'resource exhausted' or
'unavailable'; an error without a message is not recoverable. Where lower-casing
maps the letters A-Z to a-z, the messages 'Gemini API key is not configured.
Please set GEMINI_API_KEY in your .env file.', 'Quota exceeded', 'Rate limit
reached', '[429 Too Many Requests]', 'Resource exhausted' and '[503 Service
Unavailable]' are recoverable, and the messages 'Failed to initialize Gemini
AI. Please check your API key.' (raised when no credential is configured),
'RESOURCE_EXHAUSTED' and 'The request was rate-limited' are not. -/
theorem isRecoverableError_iff (rt : Runtime) (hrt : rt.toLowerCase "" = "")
    (error : JsError) :
    (isRecoverableError rt error = true ↔
      ∃ m, error.message = some m ∧
        (includes (rt.toLowerCase m) "api key is not configured" = true ∨
         includes (rt.toLowerCase m) "quota" = true ∨
         includes (rt.toLowerCase m) "rate limit" = true ∨
         includes (rt.toLowerCase m) "429" = true ∨
         includes (rt.toLowerCase m) "resource exhausted" = true ∨
         includes (rt.toLowerCase m) "unavailable" = true)) ∧
    (error.message = none → isRecoverableError rt error = false) ∧
    (LowersAscii rt →
      (isRecoverableError rt (newError
        "Gemini API key is not configured. Please set GEMINI_API_KEY in your .env file.") = true ∧
       isRecoverableError rt (newError "Quota exceeded") = true ∧
       isRecoverableError rt (newError "Rate limit reached") = true ∧
       isRecoverableError rt (newError "[429 Too Many Requests]") = true ∧
       isRecoverableError rt (newError "Resource exhausted") = true ∧
       isRecoverableError rt (newError "[503 Service Unavailable]") = true) ∧
      (isRecoverableError rt
        (newError "Failed to initialize Gemini AI. Please check your API key.") = false ∧
       isRecoverableError rt (newError "RESOURCE_EXHAUSTED") = false ∧
       isRecoverableError rt (newError "The request was rate-limited") = false)) := by
  obtain ⟨e0, e1, e2, e3, e4, e5⟩ := includes_empty_phrases
  refine ⟨?_, ?_, ?_⟩
  · cases error with
    | mk message =>
      cases message with
      | none =>
        simp [isRecoverableError, isKeyError, orDefault, e1, e2, e3, e4, e5]
      | some m =>
        by_cases hm : m = ""
        · subst hm
          simp [isRecoverableError, isKeyError, orDefault, hrt, e0, e1, e2, e3, e4, e5]
        · by_cases hl : rt.toLowerCase m = ""
          · simp [isRecoverableError, isKeyError, orDefault, hm, hl, e0, e1, e2, e3, e4, e5]
          · simp [isRecoverableError, isKeyError, orDefault, hm, hl]
            tauto
  · intro hnone
    cases error with
    | mk message =>
      simp only at hnone
      subst hnone
      simp [isRecoverableError, isKeyError, orDefault, e1, e2, e3, e4, e5]
  · intro hascii
    have hlow : ∀ s : String, s.data.all (fun c => c.toNat < 128) = true →
        isRecoverableError rt (newError s) = isRecoverableError demoRuntime (newError s) := by
      intro s hs
      have h1 : rt.toLowerCase s = asciiLower s := hascii s hs
      have h2 : demoRuntime.toLowerCase s = asciiLower s := rfl
      simp only [isRecoverableError, isKeyError, newError, Option.map_some', h1, h2]
    refine ⟨⟨?_, ?_, ?_, ?_, ?_, ?_⟩, ⟨?_, ?_, ?_⟩⟩ <;>
      (rw [hlow _ (by decide)]; decide)

/-- A rate-limit failure of the service is recoverable; the failure raised
without a credential is not. -/
theorem isRecoverableError_iff_witness :
    isRecoverableError demoRuntime (newError "[429 Too Many Requests] Quota exceeded") = true ∧
    isRecoverableError demoRuntime
      (newError "Failed to initialize Gemini AI. Please check your API key.") = false :=
  ⟨((isRecoverableError_iff demoRuntime rfl
      (newError "[429 Too Many Requests] Quota exceeded")).1).2
    ⟨"[429 Too Many Requests] Quota exceeded", rfl, Or.inr (Or.inl (by decide))⟩,
   ((isRecoverableError_iff demoRuntime rfl (newError "")).2.2 (fun _ _ => rfl)).2.1⟩

/-! ## Reachable states of the key pool -/

/-- In a reachable state the index is in range, and it is 0 in an empty pool. -/
theorem poolReachable_inv (p : KeyPool) (h : PoolReachable p) :
    (p.apiKeys ≠ [] → p.currentKeyIndex < p.apiKeys.length) ∧
    (p.apiKeys = [] → p.currentKeyIndex = 0) := by
  induction h with
  | loaded env =>
    refine ⟨fun hne => ?_, fun _ => rfl⟩
    exact List.length_pos.mpr hne
  | rotated p _ ih =>
    rw [rotateApiKey_apiKeys, rotateApiKey_index]
    refine ⟨fun hne => ?_, fun hnil => ?_⟩
    · split_ifs with hlen
      · exact Nat.mod_lt _ (by omega)
      · exact ih.1 hne
    · have : ¬ p.apiKeys.length > 1 := by simp [hnil]
      rw [if_neg this]
      exact ih.2 hnil
  | current env p _ ih =>
    unfold getCurrentApiKey
    by_cases hlen : p.apiKeys.length = 0
    · have hnil : p.apiKeys = [] := List.length_eq_zero.mp hlen
      have hz := ih.2 hnil
      simp only [hlen, if_true]
      split_ifs with h0
      · exact ⟨fun hne => absurd (List.length_eq_zero.mp h0) hne, fun _ => hz⟩
      · refine ⟨fun _ => ?_, fun _ => hz⟩
        show p.currentKeyIndex < (initializeApiKeys env).length
        rw [hz]
        exact Nat.pos_of_ne_zero h0
    · simp only [hlen, if_false]
      exact ih
  | logged p evs _ ih => exact ih

/-- C28: in every state of the key pool reached from the initial load by
rotations (and by reloads of an empty pool), the current index is in range of
a non-empty pool; `getGenAI` answers null exactly for an empty pool and
otherwise the client of a member; `getCurrentApiKey` answers null exactly when
the pool is empty after the reload and otherwise a member of the pool. -/
theorem pool_index_in_range (p : KeyPool) (h : PoolReachable p) (env : KeyEnv) :
    (p.apiKeys ≠ [] → p.currentKeyIndex < p.apiKeys.length) ∧
    (getGenAI p = none ↔ p.apiKeys = []) ∧
    (∀ k, getGenAI p = some k → ∃ key, p.apiKeys[k]? = some key ∧ key ∈ p.apiKeys) ∧
    ((getCurrentApiKey env p).1 = none ↔ (getCurrentApiKey env p).2.apiKeys = []) ∧
    (∀ key, (getCurrentApiKey env p).1 = some key → key ∈ (getCurrentApiKey env p).2.apiKeys) ∧
    (p.apiKeys ≠ [] → (getCurrentApiKey env p).2 = p ∧
      (getCurrentApiKey env p).1 = p.apiKeys[p.currentKeyIndex]?) := by
  have hinv := poolReachable_inv p h
  have hinv' := poolReachable_inv _ (PoolReachable.current env p h)
  refine ⟨hinv.1, ?_, ?_, ?_, ?_, ?_⟩
  · unfold getGenAI
    split_ifs with hlen
    · simp [List.length_eq_zero.mp hlen]
    · simp only [false_iff]
      intro hnil
      exact hlen (by simp [hnil])
  · intro k hk
    unfold getGenAI at hk
    split_ifs at hk with hlen
    simp only [Option.some.injEq] at hk
    subst hk
    have hne : p.apiKeys ≠ [] := fun hnil => hlen (by simp [hnil])
    have hlt := hinv.1 hne
    exact ⟨p.apiKeys[p.currentKeyIndex], List.getElem?_eq_getElem hlt,
      List.getElem_mem hlt⟩
  · generalize hq : getCurrentApiKey env p = q at hinv'
    have hq1 : q.1 = if q.2.apiKeys.length = 0 then none else q.2.apiKeys[q.2.currentKeyIndex]? := by
      rw [← hq]; unfold getCurrentApiKey; simp only; split_ifs <;> rfl
    rw [hq1]
    split_ifs with hlen
    · simp [List.length_eq_zero.mp hlen]
    · have hne : q.2.apiKeys ≠ [] := fun hnil => hlen (by simp [hnil])
      have hlt := hinv'.1 hne
      simp [List.getElem?_eq_getElem hlt, hne]
  · intro key hkey
    generalize hq : getCurrentApiKey env p = q at hinv' hkey
    have hq1 : q.1 = if q.2.apiKeys.length = 0 then none else q.2.apiKeys[q.2.currentKeyIndex]? := by
      rw [← hq]; unfold getCurrentApiKey; simp only; split_ifs <;> rfl
    rw [hq1] at hkey
    split_ifs at hkey with hlen
    exact List.getElem?_mem hkey
  · intro hne
    have hlen : ¬ p.apiKeys.length = 0 := fun h0 => hne (List.length_eq_zero.mp h0)
    unfold getCurrentApiKey
    rw [if_neg hlen]
    simp only [hlen, if_false]
    trivial

/-- A pool loaded from two numbered variables, rotated three times. -/
theorem pool_index_in_range_witness :
    (getCurrentApiKey ⟨none, [some "key-1", some " key-2 "], none⟩
      (rotateTimes 3 (loadedPool ⟨none, [some "key-1", some " key-2 "], none⟩))).1 =
      some "key-2" ∧
    "key-2" ∈ (rotateTimes 3 (loadedPool ⟨none, [some "key-1", some " key-2 "], none⟩)).apiKeys :=
  ⟨by decide,
   ((pool_index_in_range _
      (PoolReachable.rotated _ (PoolReachable.rotated _ (PoolReachable.rotated _
        (PoolReachable.loaded ⟨none, [some "key-1", some " key-2 "], none⟩))))
      ⟨none, [some "key-1", some " key-2 "], none⟩).2.2.2.2.1) "key-2" (by decide)⟩

/-! ## Key loading -/

theorem uniqueAfter_eq (l : List String) :
    ∀ seen : List String,
      uniqueAfter seen l = (firstOccurrences l).filter (fun k => !seen.contains k) := by
  induction l with
  | nil => intro seen; rfl
  | cons key rest ih =>
    intro seen
    simp only [uniqueAfter, firstOccurrences]
    by_cases hk : seen.contains key = true
    · have hk' : key ∈ seen := by simpa using hk
      rw [if_pos hk, ih seen, List.filter_cons_of_neg (by simp [hk']), List.filter_filter]
      apply List.filter_congr
      intro k _
      by_cases hkk : k = key
      · subst hkk; simp [hk']
      · simp [hkk]
    · rw [if_neg hk, ih (key :: seen), List.filter_cons_of_pos (by simpa using hk),
        List.filter_filter]
      congr 1
      apply List.filter_congr
      intro k _
      by_cases hkk : k = key
      · subst hkk; simp
      · simp [hkk, List.contains_cons]

theorem initializeApiKeys_eq (env : KeyEnv) :
    initializeApiKeys env = firstOccurrences (loadedKeys env) := by
  unfold initializeApiKeys
  rw [uniqueAfter_eq]
  simp

theorem firstOccurrences_subset (l : List String) : ∀ k ∈ firstOccurrences l, k ∈ l := by
  induction l with
  | nil => intro k hk; exact hk
  | cons key rest ih =>
    intro k hk
    simp only [firstOccurrences, List.mem_cons, List.mem_filter] at hk
    rcases hk with h | ⟨h, _⟩
    · exact h ▸ List.mem_cons_self _ _
    · exact List.mem_cons_of_mem _ (ih k h)

theorem firstOccurrences_nodup (l : List String) : (firstOccurrences l).Nodup := by
  induction l with
  | nil => exact List.nodup_nil
  | cons key rest ih =>
    simp only [firstOccurrences, List.nodup_cons, List.mem_filter]
    exact ⟨fun h => by simpa using h.2, ih.filter _⟩

/-- The trimmed character list starts with no white space. -/
theorem trimChars_head (l : List Char) :
    (((l.dropWhile isJsSpace).reverse.dropWhile isJsSpace).reverse).dropWhile isJsSpace =
      ((l.dropWhile isJsSpace).reverse.dropWhile isJsSpace).reverse := by
  generalize ha : l.dropWhile isJsSpace = a
  have hida : a.dropWhile isJsSpace = a := by rw [← ha, List.dropWhile_idempotent]
  generalize hb : a.reverse.dropWhile isJsSpace = b
  have hsuf : b <:+ a.reverse := by rw [← hb]; exact List.dropWhile_suffix _
  obtain ⟨t, ht⟩ := hsuf
  have hpre : a = b.reverse ++ t.reverse := by
    have := congrArg List.reverse ht
    simpa using this.symm
  cases hbr : b.reverse with
  | nil => rfl
  | cons x m =>
    rw [hbr] at hpre
    rw [hpre] at hida
    simp only [List.cons_append] at hida
    by_cases hx : isJsSpace x = true
    · exfalso
      rw [List.dropWhile_cons_of_pos hx] at hida
      have hlen := congrArg List.length hida
      have hle := (List.dropWhile_suffix isJsSpace (l := m ++ t.reverse)).length_le
      simp only [List.length_cons] at hlen
      omega
    · rw [List.dropWhile_cons_of_neg hx]

/-- Trimming the white space off both ends of a character list, twice, is
trimming once. -/
theorem trimChars_idem (l : List Char) :
    ((((l.dropWhile isJsSpace).reverse.dropWhile isJsSpace).reverse.dropWhile
      isJsSpace).reverse.dropWhile isJsSpace).reverse =
    ((l.dropWhile isJsSpace).reverse.dropWhile isJsSpace).reverse := by
  rw [trimChars_head l, List.reverse_reverse, List.dropWhile_idempotent]

theorem trim_trim (s : String) : trim (trim s) = trim s := by
  unfold trim
  simp only [trimChars_idem]

theorem dropWhile_eq_self_head (l : List Char) (h : l.dropWhile isJsSpace = l) :
    ∀ c, l.head? = some c → isJsSpace c = false := by
  intro c hc
  cases l with
  | nil => simp at hc
  | cons x m =>
    simp only [List.head?_cons, Option.some.injEq] at hc
    subst hc
    by_contra hx
    have hx' : isJsSpace x = true := by simpa using hx
    rw [List.dropWhile_cons_of_pos hx'] at h
    have hlen := congrArg List.length h
    have hle := (List.dropWhile_suffix isJsSpace (l := m)).length_le
    simp only [List.length_cons] at hlen
    omega

/-- A trimmed string neither starts nor ends with white space. -/
theorem trim_noOuterSpace (s : String) : noOuterSpace (trim s) := by
  constructor
  · exact dropWhile_eq_self_head _ (trimChars_head s.data)
  · intro c hc
    have hrev : (trim s).data.reverse.dropWhile isJsSpace = (trim s).data.reverse := by
      have hdata : (trim s).data =
          ((s.data.dropWhile isJsSpace).reverse.dropWhile isJsSpace).reverse := rfl
      rw [hdata, List.reverse_reverse, List.dropWhile_idempotent]
    apply dropWhile_eq_self_head _ hrev
    rw [List.head?_reverse]
    exact hc

theorem trim_eq_trimmedValue (s : String) : trim s = trimmedValue s := rfl

theorem splitComma_ne_nil (l : List Char) : splitComma l ≠ [] := by
  cases l with
  | nil => simp [splitComma]
  | cons c cs =>
    simp only [splitComma]
    split_ifs
    · simp
    · split <;> simp

/-- The split of the code is the library's split at commas. -/
theorem splitComma_eq_splitOn (l : List Char) : splitComma l = l.splitOn ',' := by
  induction l with
  | nil => rfl
  | cons c cs ih =>
    unfold List.splitOn at ih ⊢
    rw [List.splitOnP_cons, ← ih]
    simp only [splitComma, beq_iff_eq]
    split_ifs
    · rfl
    · cases h : splitComma cs with
      | nil => exact absurd h (splitComma_ne_nil cs)
      | cons item items => rfl

theorem listedKeys_eq (s : String) :
    listedKeys s = ((commaItems s).map trimmedValue).filter (fun k => k != "") := by
  unfold listedKeys commaItems
  rw [splitComma_eq_splitOn, List.map_map]
  rfl

theorem trim_empty : trim "" = "" := by decide

theorem listedKeys_empty : listedKeys "" = [] := by decide

theorem numberedKeys_eq (l : List (Option String)) :
    numberedKeys l =
      (l.takeWhile (fun value =>
        match value with
        | none => false
        | some key => trimmedValue key != "")).filterMap
          (fun value => value.map trimmedValue) := by
  induction l with
  | nil => rfl
  | cons value rest ih =>
    cases value with
    | none => rfl
    | some key =>
      simp only [numberedKeys, List.takeWhile_cons, ← trim_eq_trimmedValue]
      split_ifs with h
      · simp only [List.filterMap_cons, Option.map_some', ih, ← trim_eq_trimmedValue]
      · rfl

theorem loadedKeys_eq (env : KeyEnv) : loadedKeys env = specifiedKeys env := by
  unfold loadedKeys specifiedKeys
  rw [numberedKeys_eq]
  congr 1
  · congr 1
    cases env.single with
    | none => rfl
    | some key =>
      by_cases hk : key = ""
      · subst hk; rfl
      · simp [hk, ← trim_eq_trimmedValue]
  · cases env.list with
    | none => rfl
    | some keys =>
      by_cases hk : keys = ""
      · subst hk; rfl
      · simp only [hk, bne_iff_ne, ne_eq, not_false_eq_true, if_true, listedKeys_eq]

theorem numberedKeys_trimmed (l : List (Option String)) :
    ∀ k ∈ numberedKeys l, k ≠ "" ∧ trim k = k := by
  induction l with
  | nil => intro k hk; simp [numberedKeys] at hk
  | cons value rest ih =>
    intro k hk
    cases value with
    | none => simp [numberedKeys] at hk
    | some key =>
      simp only [numberedKeys] at hk
      split_ifs at hk with h
      · rcases List.mem_cons.mp hk with h1 | h1
        · subst h1
          exact ⟨by simpa using h, trim_trim key⟩
        · exact ih k h1
      · simp at hk

theorem loadedKeys_trimmed (env : KeyEnv) : ∀ k ∈ loadedKeys env, k ≠ "" ∧ trim k = k := by
  intro k hk
  unfold loadedKeys at hk
  rcases List.mem_append.mp hk with hk1 | hk3
  · rcases List.mem_append.mp hk1 with hk1 | hk2
    · cases hs : env.single with
      | none => rw [hs] at hk1; simp at hk1
      | some key =>
        rw [hs] at hk1
        simp only at hk1
        split_ifs at hk1 with h
        · simp only [List.mem_singleton] at hk1
          subst hk1
          simp only [Bool.and_eq_true, bne_iff_ne, ne_eq] at h
          exact ⟨h.2, trim_trim key⟩
        · simp at hk1
    · exact numberedKeys_trimmed _ k hk2
  · cases hs : env.list with
    | none => rw [hs] at hk3; simp at hk3
    | some keys =>
      rw [hs] at hk3
      simp only at hk3
      split_ifs at hk3 with h
      · simp only [listedKeys, List.mem_filter, List.mem_map, bne_iff_ne, ne_eq] at hk3
        obtain ⟨⟨item, _, hitem⟩, hne⟩ := hk3
        subst hitem
        exact ⟨hne, trim_trim _⟩
      · simp at hk3

/-- C16: the key list that `initializeApiKeys` leaves has no duplicates, no
empty entry and no entry that starts or ends with white space (every entry is
its own trimmed value), and it is the first-occurrence de-duplication of the
trimmed single value (if non-empty), then the trimmed numbered values before
the first missing or blank one, then the trimmed non-empty items between the
commas of the comma-separated list. -/
theorem initializeApiKeys_unique (env : KeyEnv) :
    (initializeApiKeys env).Nodup ∧
    (∀ k ∈ initializeApiKeys env, k ≠ "" ∧ trim k = k ∧ trimmedValue k = k ∧ noOuterSpace k) ∧
    initializeApiKeys env = firstOccurrences (specifiedKeys env) := by
  rw [initializeApiKeys_eq]
  refine ⟨firstOccurrences_nodup _, ?_, by rw [loadedKeys_eq]⟩
  intro k hk
  obtain ⟨hne, htrim⟩ := loadedKeys_trimmed env k (firstOccurrences_subset _ k hk)
  refine ⟨hne, htrim, htrim, ?_⟩
  rw [← htrim]
  exact trim_noOuterSpace k

/-- An environment that uses the three shapes, with repeated and blank values:
the list in the words of the specification has six entries, and four keys are
loaded; a list of two items loads two keys. -/
theorem initializeApiKeys_unique_witness :
    specifiedKeys demoEnv = ["key-a", "key-b", "key-a", "key-c", "key-b", "key-d"] ∧
    firstOccurrences (specifiedKeys demoEnv) = ["key-a", "key-b", "key-c", "key-d"] ∧
    initializeApiKeys demoEnv = ["key-a", "key-b", "key-c", "key-d"] ∧
    initializeApiKeys ⟨none, [], some "a,b"⟩ = ["a", "b"] ∧
    initializeApiKeys ⟨none, [], some "a,b"⟩ = firstOccurrences (specifiedKeys ⟨none, [], some "a,b"⟩) :=
  ⟨by decide, by decide, by decide, by decide,
    (initializeApiKeys_unique ⟨none, [], some "a,b"⟩).2.2⟩

/-! ## Fallback roadmap -/

theorem fallbackSteps_length (gaps : List Gap) :
    ∀ index, (fallbackSteps gaps index).length = gaps.length := by
  induction gaps with
  | nil => intro index; rfl
  | cons gap rest ih => intro index; simp [fallbackSteps, ih]

theorem fallbackSteps_getElem? (gaps : List Gap) :
    ∀ index i, (fallbackSteps gaps index)[i]? =
      gaps[i]?.map (fun gap => fallbackStep gap (index + i)) := by
  induction gaps with
  | nil => intro index i; simp [fallbackSteps]
  | cons gap rest ih =>
    intro index i
    cases i with
    | zero => simp [fallbackSteps]
    | succ i =>
      simp only [fallbackSteps, List.getElem?_cons_succ, ih]
      congr 1
      funext gap
      congr 1
      omega

/-- A fallback result of a task with the fallback value `fallback` is that
value. -/
theorem orFallback_fallback_inv {α : Type} (rt : Runtime) (r : Except JsError Json × KeyPool)
    (fallback value : α) (p' : KeyPool)
    (h : orFallback rt r fallback = (.ok (.fallback value), p')) : value = fallback := by
  unfold orFallback at h
  split at h
  · simp only [Prod.mk.injEq, Except.ok.injEq, reduceCtorEq, false_and] at h
  · split_ifs at h
    · simp only [Prod.mk.injEq, Except.ok.injEq, Reply.fallback.injEq] at h
      exact h.1.symm
    · simp only [Prod.mk.injEq, reduceCtorEq, false_and] at h

/-- C17: the fallback roadmap has one step per gap, in the order of the gaps;
step i has the skill of gap i, order i+1 and three resource strings, and its
estimated time is '3-4 weeks' exactly when the gap's priority is critical or
high and '1-2 weeks' exactly when it is not; a null gap list gives no steps;
and a roadmap that `generateRoadmap` returns on its fallback path has as many
steps as there are gaps. -/
theorem fallbackRoadmap_steps (skillGaps : Option (List Gap)) :
    (fallbackRoadmap skillGaps).steps.length = (skillGaps.getD []).length ∧
    (∀ i gap, (skillGaps.getD [])[i]? = some gap →
      ∃ step, (fallbackRoadmap skillGaps).steps[i]? = some step ∧
        step.skill = gap.skill ∧ step.order = i + 1 ∧ step.resources.length = 3 ∧
        (step.estimatedTime = "3-4 weeks" ↔
          (gap.priority = "critical" ∨ gap.priority = "high")) ∧
        (step.estimatedTime = "1-2 weeks" ↔
          ¬ (gap.priority = "critical" ∨ gap.priority = "high"))) ∧
    (skillGaps = none → (fallbackRoadmap skillGaps).steps = []) ∧
    (∀ (rt : Runtime) (p p' : KeyPool) (roadmap : RoadmapDraft),
      generateRoadmap rt p skillGaps = (.ok (.fallback roadmap), p') →
        roadmap.steps.length = (skillGaps.getD []).length) := by
  have hlen : (fallbackRoadmap skillGaps).steps.length = (skillGaps.getD []).length :=
    fallbackSteps_length _ 0
  refine ⟨hlen, ?_, ?_, ?_⟩
  · intro i gap hgap
    refine ⟨fallbackStep gap i, ?_, rfl, rfl, rfl, ?_, ?_⟩
    · show (fallbackSteps (skillGaps.getD []) 0)[i]? = _
      rw [fallbackSteps_getElem?, hgap]
      simp
    · by_cases h : gap.priority = "critical" ∨ gap.priority = "high"
      · simp only [fallbackStep, h, iff_true]
        rcases h with h | h <;> simp [h]
      · have h1 : ¬ gap.priority = "critical" := fun hc => h (Or.inl hc)
        have h2 : ¬ gap.priority = "high" := fun hc => h (Or.inr hc)
        simp only [fallbackStep, h, iff_false]
        simp [h1, h2]
    · by_cases h : gap.priority = "critical" ∨ gap.priority = "high"
      · simp only [fallbackStep, h, not_true_eq_false, iff_false]
        rcases h with h | h <;> simp [h]
      · have h1 : ¬ gap.priority = "critical" := fun hc => h (Or.inl hc)
        have h2 : ¬ gap.priority = "high" := fun hc => h (Or.inr hc)
        simp only [fallbackStep, h, not_false_eq_true, iff_true]
        simp [h1, h2]
  · intro hnone
    subst hnone
    rfl
  · intro rt p p' roadmap h
    have := orFallback_fallback_inv rt _ _ _ _ h
    rw [this]
    exact hlen

/-- The fallback roadmap of two gaps, one of high and one of medium priority. -/
theorem fallbackRoadmap_demo :
    (fallbackRoadmap (some
      [ { skill := "Docker", currentLevel := "not_mentioned", requiredLevel := "intermediate",
          priority := "high", description := "" },
        { skill := "Git", currentLevel := "beginner", requiredLevel := "intermediate",
          priority := "medium", description := "" } ])).steps.map
      (fun step => (step.skill, step.order, step.estimatedTime)) =
    [("Docker", 1, "3-4 weeks"), ("Git", 2, "1-2 weeks")] := by
  decide

/-! ## Validation of `POST /analysis` -/

/-- C18, as stated, fails: with a stored resume, a request that names a job
role id under which nothing is stored is answered with status 404, not 400; and
a request that carries the id of a stored role together with a custom role
without description is rejected with status 400. -/
theorem postAnalysis_unknown_role_counterexample :
    (postAnalysis demoRuntime demoStore oneKeyPool 7 resumeUser
      ⟨some "role-unknown", none⟩).1.status = 404 ∧
    (postAnalysis demoRuntime demoStore oneKeyPool 7 resumeUser
      ⟨some "role-backend", some ⟨some "Data Engineer", none, none⟩⟩).1.status = 400 := by
  exact ⟨rfl, rfl⟩

/-- C18, amended: `POST /analysis` answers 400, without invoking the analysis
and without modifying the profile, when the stored resume text is missing, when
a custom role is given that lacks title or description (whatever `jobRoleId`
holds), or when no custom role is given and `jobRoleId` is missing. With a
resume, no custom role and an id under which no role is stored it answers 404,
again without analysis or modification. A request with a resume and either a
custom role with title and description or, without custom role, the id of a
stored role is not answered with 400. -/
theorem postAnalysis_validation (rt : Runtime) (store : Store) (pool : KeyPool) (now : Nat)
    (user : User) (request : AnalysisRequest) :
    (truthy user.resumeText = false →
      postAnalysis rt store pool now user request =
        (.rejected 400 "Please upload your resume first", user, pool)) ∧
    (truthy user.resumeText = true →
      ∀ custom, request.customJobRole = some custom →
        (truthy custom.title = false ∨ truthy custom.description = false) →
        postAnalysis rt store pool now user request =
          (.rejected 400 "Custom job role must include title and description", user, pool)) ∧
    (truthy user.resumeText = true → request.customJobRole = none →
      truthy request.jobRoleId = false →
      postAnalysis rt store pool now user request =
        (.rejected 400 "Please select a job role or provide custom job role", user, pool)) ∧
    (truthy user.resumeText = true → request.customJobRole = none →
      truthy request.jobRoleId = true →
      store.findJobRole (request.jobRoleId.getD "") = .ok none →
      postAnalysis rt store pool now user request =
        (.rejected 404 "Job role not found", user, pool)) ∧
    (truthy user.resumeText = true →
      ((∃ custom, request.customJobRole = some custom ∧ truthy custom.title = true ∧
          truthy custom.description = true) ∨
        (request.customJobRole = none ∧ truthy request.jobRoleId = true ∧
          ∃ jobRole, store.findJobRole (request.jobRoleId.getD "") = .ok (some jobRole))) →
      (postAnalysis rt store pool now user request).1.status ≠ 400) := by
  refine ⟨?_, ?_, ?_, ?_, ?_⟩
  · intro hr
    simp [postAnalysis, hr]
  · intro hr custom hc hbad
    have hsel : selectRole store request =
        .error (.rejected 400 "Custom job role must include title and description") := by
      unfold selectRole
      rw [hc]
      rcases hbad with h | h <;> simp [h]
    simp [postAnalysis, hr, hsel]
  · intro hr hc hid
    have hsel : selectRole store request =
        .error (.rejected 400 "Please select a job role or provide custom job role") := by
      unfold selectRole
      rw [hc]
      simp [hid]
    simp [postAnalysis, hr, hsel]
  · intro hr hc hid hfind
    have hsel : selectRole store request = .error (.rejected 404 "Job role not found") := by
      unfold selectRole
      rw [hc]
      simp [hid, hfind]
    simp [postAnalysis, hr, hsel]
  · intro hr hvalid
    have hsel : ∃ jobRole, selectRole store request = .ok jobRole := by
      rcases hvalid with ⟨custom, hc, ht, hd⟩ | ⟨hc, hid, jobRole, hfind⟩
      · refine ⟨{ title := custom.title.getD "", description := custom.description,
                  requiredSkills := some (custom.requiredSkills.getD []) }, ?_⟩
        unfold selectRole
        rw [hc]
        simp only [ht, hd, Bool.not_true, Bool.or_self, Bool.false_eq_true, if_false]
      · refine ⟨jobRole, ?_⟩
        unfold selectRole
        rw [hc]
        simp [hid, hfind]
    obtain ⟨jobRole, hsel⟩ := hsel
    unfold postAnalysis
    simp only [hr, Bool.not_true, Bool.false_eq_true, if_false, hsel]
    have hfail : ∀ error, (analysisFailure error).status ≠ 400 := by
      intro error
      unfold analysisFailure
      cases error.message <;> simp [AnalysisResponse.status]
    repeat' split
    all_goals first
      | exact hfail _
      | simp [AnalysisResponse.status]

/-- A request for the stored backend role, with a resume, is analysed. -/
theorem postAnalysis_validation_witness :
    (postAnalysis quotaRuntime demoStore oneKeyPool 1 resumeUser
      ⟨some "role-backend", none⟩).1.status ≠ 400 ∧
    (postAnalysis quotaRuntime demoStore oneKeyPool 1 resumeUser
      ⟨some "role-backend", none⟩).1.status = 200 :=
  ⟨(postAnalysis_validation quotaRuntime demoStore oneKeyPool 1 resumeUser
      ⟨some "role-backend", none⟩).2.2.2.2 rfl
      (Or.inr ⟨rfl, rfl, backendRole, rfl⟩), rfl⟩

/-! ## Roadmap, gaps and progress across the routes -/

/-- A second analysis replaces the gaps and resets the progress record, and
keeps the roadmap. -/
theorem postAnalysis_roadmap (rt : Runtime) (store : Store) (pool : KeyPool) (now : Nat)
    (user : User) (request : AnalysisRequest) :
    (postAnalysis rt store pool now user request).2.1.roadmap = user.roadmap := by
  unfold postAnalysis
  repeat' split
  all_goals rfl

/-- C19, against the code: after an analysis against the backend role, roadmap
generation and completion of the first step (Node.js), steps and gaps are
aligned; a second analysis, against the junior role, leaves the two-step
roadmap in place next to a single gap (Docker, high priority). Steps and gaps
are then no longer aligned, and `GET /progress` counts the completed Node.js
step for the Docker gap: it reports a job accessibility of 100 while the Docker
step is not started. -/
theorem reanalysis_breaks_alignment :
    aligned startedUser = true ∧
    aligned reanalysedUser = false ∧
    (reanalysedUser.roadmap.getD []).map (fun step => step.skill) = ["Node.js", "Docker"] ∧
    stepStatuses reanalysedUser = ["completed", "not_started"] ∧
    reanalysedUser.skillGapAnalysis.gaps.map (fun gap => (gap.skill, gap.priority)) =
      [("Docker", "high")] ∧
    (getProgress quotaRuntime 5 reanalysedUser).1.jobAccessibility = 100 := by
  refine ⟨by decide, by decide, by decide, by decide, by decide, by decide⟩

/-- A roadmap that `POST /roadmap` saves has no completed step, and the
progress record is the one there was. -/
theorem postRoadmap_done_inv (rt : Runtime) (store : Store) (pool : KeyPool) (now : Nat)
    (user : User) (steps : List RoadmapStep)
    (h : (postRoadmap rt store pool now user).1 = .done steps) :
    (postRoadmap rt store pool now user).2.1.roadmap = some steps ∧
    (∀ step ∈ steps, step.status = "not_started") := by
  unfold postRoadmap at h ⊢
  split at h
  · simp at h
  · split at h
    · simp at h
    · split at h
      · simp at h
      · split at h
        · simp at h
        · next drafts hdrafts =>
          simp only [RoadmapResponse.done.injEq] at h
          subst h
          refine ⟨?_, ?_⟩
          · simp [*]
          · intro step hstep
            obtain ⟨draft, _, hd⟩ := List.mem_map.mp hstep
            rw [← hd]
            rfl

theorem completedCount_eq_zero (steps : List RoadmapStep)
    (h : ∀ step ∈ steps, step.status = "not_started") : completedCount steps = 0 := by
  unfold completedCount
  rw [List.length_eq_zero, List.filter_eq_nil_iff]
  intro step hstep
  rw [h step hstep]
  decide

/-- C20, against the code: whenever `POST /roadmap` saves a roadmap, every step
of it is 'not_started', so none is completed, while the progress record is left
as it was: after a regeneration `skillsCompleted` and `overallCompletion` still
hold the values computed for the replaced roadmap. -/
theorem postRoadmap_stale_progress (rt : Runtime) (store : Store) (pool : KeyPool) (now : Nat)
    (user : User) (steps : List RoadmapStep)
    (h : (postRoadmap rt store pool now user).1 = .done steps) :
    (postRoadmap rt store pool now user).2.1.roadmap = some steps ∧
    (∀ step ∈ steps, step.status = "not_started") ∧
    completedCount steps = 0 ∧
    (postRoadmap rt store pool now user).2.1.progress = user.progress := by
  obtain ⟨h1, h2⟩ := postRoadmap_done_inv rt store pool now user steps h
  exact ⟨h1, h2, completedCount_eq_zero steps h2, postRoadmap_progress rt store pool now user⟩

/-- The started user, one of two steps completed and progress at 50 percent,
generates the roadmap again: both steps are 'not_started' and progress still
says one skill completed, 50 percent. A second analysis instead resets
progress to zero and keeps the completed step. -/
theorem postRoadmap_stale_progress_witness :
    (startedUser.progress.skillsCompleted = 1 ∧ startedUser.progress.overallCompletion = 50 ∧
      stepStatuses startedUser = ["completed", "not_started"]) ∧
    (replannedUser.progress.skillsCompleted = 1 ∧
      replannedUser.progress.overallCompletion = 50 ∧
      stepStatuses replannedUser = ["not_started", "not_started"]) ∧
    completedCount (replannedUser.roadmap.getD []) = 0 ∧
    (reanalysedUser.progress.skillsCompleted = 0 ∧
      completedCount (reanalysedUser.roadmap.getD []) = 1) :=
  ⟨by decide, by decide,
   (postRoadmap_stale_progress quotaRuntime demoStore oneKeyPool 4 startedUser
      (replannedUser.roadmap.getD []) (by decide)).2.2.1,
   by decide⟩

/-! ## Enhanced chat -/

/-- C21, against the code: `chatWithAssistantEnhanced` never returns the
templated string. On a recoverable failure, of model selection or of
generation, it raises "completedSkills is not defined": the name is declared
inside the `try` block and read in the `catch` block. -/
theorem chatWithAssistantEnhanced_fallback_raises (rt : Runtime) (p : KeyPool)
    (context : ChatContext) (userProgress : UserProgress) :
    (∀ text, (chatWithAssistantEnhanced rt p context userProgress).1 ≠ .ok (.canned text)) ∧
    (∀ error p1, getModelWithRetryDefault rt p = (.error error, p1) →
      isRecoverableError rt error = true →
      chatWithAssistantEnhanced rt p context userProgress =
        (.error (newError "completedSkills is not defined"), p1)) ∧
    (∀ model p1 error p2, getModelWithRetryDefault rt p = (.ok model, p1) →
      generateText rt model p1 = (.error error, p2) →
      isRecoverableError rt error = true →
      chatWithAssistantEnhanced rt p context userProgress =
        (.error (newError "completedSkills is not defined"), p2)) := by
  refine ⟨?_, ?_, ?_⟩
  · intro text
    unfold chatWithAssistantEnhanced enhancedFallback
    repeat' split
    all_goals first
      | (simp; done)
      | (rename_i heq; cases heq)
  · intro error p1 hmodel hrec
    simp [chatWithAssistantEnhanced, enhancedFallback, hmodel, hrec]
  · intro model p1 error p2 hmodel hgen hrec
    simp [chatWithAssistantEnhanced, enhancedFallback, hmodel, hgen, hrec]

/-- With a key and a service out of quota, the enhanced chat raises; the string
its `catch` block would build for the completed skill Node.js is the one the
specification describes. -/
theorem chatWithAssistantEnhanced_fallback_raises_witness :
    chatWithAssistantEnhanced quotaRuntime oneKeyPool demoContext demoProgress =
      (.error (newError "completedSkills is not defined"),
        { apiKeys := ["key-1"], currentKeyIndex := 0,
          trace := [Event.bind 0 "gemini-2.0-flash", Event.generate 0 "gemini-2.0-flash"] }) ∧
    enhancedFallbackText demoContext ["Node.js"] =
      "You're working on Backend Engineer. You've completed: Node.js. Great progress! Consider building a project combining these skills. Focus on your highest priority skill gaps. Would you like project recommendations or learning resources?" :=
  ⟨(chatWithAssistantEnhanced_fallback_raises quotaRuntime oneKeyPool demoContext
      demoProgress).2.2 _ _ _ _ rfl rfl (by decide), rfl⟩

/-! ## Quiz generation route -/

theorem quizPending_eq_false_iff (step : RoadmapStep) :
    quizPending step = false ↔
      ∀ quiz, step.quiz = some quiz → quiz.questions = [] ∨ quiz.passed = true := by
  unfold quizPending
  cases hq : step.quiz with
  | none => simp
  | some quiz =>
    cases hp : quiz.passed <;> simp [hp, List.length_pos]

/-- C22, as stated, fails: for a step whose quiz was answered and not passed,
`POST /roadmap/step/0/quiz` returns the stored questions and stores nothing:
the user document, with the recorded answer "B" to the first question, and the
key pool are left as they were. -/
theorem postQuiz_unpassed_counterexample :
    (quizAt failedUser 0).map (fun quiz => quiz.passed) = some false ∧
    postQuiz quotaRuntime demoStore oneKeyPool 9 failedUser (some 0) =
      (.questions (twoQuestions.map viewOf), failedUser, oneKeyPool) ∧
    (quizAt failedUser 0).map (fun quiz => quiz.questions.map (fun q => q.userAnswer)) =
      some [some "B", some "A"] := by
  refine ⟨by decide, by decide, by decide⟩

/-- C22, amended: for a step of the roadmap, `POST /roadmap/step/:i/quiz`
returns the stored questions and changes nothing when the step has a quiz with
questions that is not passed. When the step has no quiz, a quiz without
questions or a passed quiz, it asks for a new quiz: the questions obtained are
stored, every one with `userAnswer` and `isCorrect` null, as a quiz with
`passed = false` and `passedAt = null`, and returned; when generation fails the
answer is status 500 and the user document is unchanged. -/
theorem postQuiz_generates (rt : Runtime) (store : Store) (pool : KeyPool) (now : Nat)
    (user : User) (steps : List RoadmapStep) (i : Nat) (step : RoadmapStep)
    (hsteps : user.roadmap = some steps) (hstep : steps[i]? = some step) :
    (quizPending step = true →
      postQuiz rt store pool now user (some (i : Int)) =
        (.questions (((step.quiz.map (fun quiz => quiz.questions)).getD []).map viewOf),
          user, pool)) ∧
    (quizPending step = false ↔
      ∀ quiz, step.quiz = some quiz → quiz.questions = [] ∨ quiz.passed = true) ∧
    (quizPending step = false →
      ∀ reply pool' drafts, generateQuiz rt pool step.skill = (.ok reply, pool') →
        repliedQuestions store reply = some drafts →
        postQuiz rt store pool now user (some (i : Int)) =
          (.questions ((drafts.map newQuestion).map viewOf),
            { user with
              roadmap := some (steps.set i
                { step with
                  quiz := some { questions := drafts.map newQuestion, generatedAt := some now,
                                 passed := false, passedAt := none } }) },
            pool') ∧
        ∀ q ∈ drafts.map newQuestion, q.userAnswer = none ∧ q.isCorrect = none) ∧
    (quizPending step = false →
      ∀ error pool', generateQuiz rt pool step.skill = (.error error, pool') →
        postQuiz rt store pool now user (some (i : Int)) =
          (.rejected 500 "Error generating quiz", user, pool')) := by
  have hlt : i < steps.length := by
    rcases Nat.lt_or_ge i steps.length with h | h
    · exact h
    · rw [List.getElem?_eq_none h] at hstep
      cases hstep
  have hrange : ((i : Int) < 0 || decide ((i : Int) ≥ (steps.length : Int))) = false := by
    simp only [Bool.or_eq_false_iff, decide_eq_false_iff_not, not_lt, ge_iff_le, not_le]
    omega
  refine ⟨?_, quizPending_eq_false_iff step, ?_, ?_⟩
  · intro hp
    simp [postQuiz, hsteps, hrange, hstep, hp, hlt]
  · intro hp reply pool' drafts hgen hrep
    refine ⟨?_, ?_⟩
    · simp [postQuiz, hsteps, hrange, hstep, hp, hgen, hrep, hlt]
    · intro q hq
      obtain ⟨d, _, hd⟩ := List.mem_map.mp hq
      rw [← hd]
      exact ⟨rfl, rfl⟩
  · intro hp error pool' hgen
    simp [postQuiz, hsteps, hrange, hstep, hp, hgen, hlt]

/-- A step without quiz gets the fallback question when the service is out of
quota; the answered, unpassed quiz of the failed user is returned as it is. -/
theorem postQuiz_generates_witness :
    (quizAt (postQuiz quotaRuntime demoStore oneKeyPool 9 userWithoutQuiz (some 0)).2.1 0).map
        (fun quiz => (quiz.passed, quiz.passedAt, quiz.generatedAt,
          quiz.questions.map (fun q => (q.userAnswer, q.isCorrect)))) =
      some (false, none, some 9, [(none, none)]) ∧
    postQuiz quotaRuntime demoStore oneKeyPool 9 (userWithQuiz twoQuestions) (some ((0 : Nat) : Int)) =
      (.questions (twoQuestions.map viewOf), userWithQuiz twoQuestions, oneKeyPool) :=
  ⟨rfl,
   (postQuiz_generates quotaRuntime demoStore oneKeyPool 9 (userWithQuiz twoQuestions) _ 0 _
      rfl rfl).1 (by decide)⟩

/-- C23, as stated, fails: two users whose one-question quizzes differ only in
the correct answer get different responses, each showing the correct answer of
the stored question; so does a freshly generated quiz. -/
theorem postQuiz_reveals_counterexample :
    (postQuiz demoRuntime demoStore oneKeyPool 9 (userWithQuiz [freshQuestion "q" "A"])
        (some 0)).1 ≠
      (postQuiz demoRuntime demoStore oneKeyPool 9 (userWithQuiz [freshQuestion "q" "B"])
        (some 0)).1 ∧
    (postQuiz demoRuntime demoStore oneKeyPool 9 (userWithQuiz [freshQuestion "q" "B"])
        (some 0)).1 = .questions [viewOf (freshQuestion "q" "B")] ∧
    (viewOf (freshQuestion "q" "B")).correctAnswer = some "B" ∧
    (postQuiz quotaRuntime demoStore oneKeyPool 9 userWithoutQuiz (some 0)).1 =
      .questions ((fallbackQuiz "Docker").map (fun q => viewOf (newQuestion q))) ∧
    (fallbackQuiz "Docker").map (fun q => (viewOf (newQuestion q)).correctAnswer) =
      [some "D"] := by
  refine ⟨by decide, by decide, by decide, by decide, by decide⟩

/-- C23, amended: every response of `POST /roadmap/step/:i/quiz` that shows
questions shows, for each question stored on the step after the call and in
their order, its question, options, correct answer and explanation, for an
existing unpassed quiz and for a freshly generated one; it does not depend on
the recorded `userAnswer` and `isCorrect`. -/
theorem postQuiz_response (rt : Runtime) (store : Store) (pool : KeyPool) (now : Nat)
    (user : User) (stepIndex : Option Int) (shown : List QuestionView)
    (h : (postQuiz rt store pool now user stepIndex).1 = .questions shown) :
    (∃ (i : Nat) (quiz : Quiz), stepIndex = some (i : Int) ∧
      quizAt (postQuiz rt store pool now user stepIndex).2.1 i = some quiz ∧
      quiz.passed = false ∧
      shown = quiz.questions.map viewOf ∧
      shown.map (fun view => view.correctAnswer) =
        quiz.questions.map (fun q => q.correctAnswer)) ∧
    (∀ (q : QuizQuestion) (userAnswer : Option String) (isCorrect : Option Bool),
      viewOf { q with userAnswer := userAnswer, isCorrect := isCorrect } = viewOf q) := by
  refine ⟨?_, fun _ _ _ => rfl⟩
  unfold postQuiz at h ⊢
  split at h
  · simp at h
  · next steps hsteps =>
    split at h
    · simp at h
    · next index =>
      split at h
      · simp at h
      · next hrange =>
        have hr : 0 ≤ index ∧ index < (steps.length : Int) := by
          simp only [Bool.or_eq_true, decide_eq_true_eq, not_or, not_lt, ge_iff_le,
            not_le] at hrange
          exact hrange
        have hlt : index.toNat < steps.length := by omega
        split at h
        · simp at h
        · next step hstep =>
          split at h
          · next hp =>
            simp only [QuizResponse.questions.injEq] at h
            have hq : ∃ quiz, step.quiz = some quiz ∧ quiz.passed = false := by
              unfold quizPending at hp
              cases hsq : step.quiz with
              | none => rw [hsq] at hp; simp at hp
              | some quiz =>
                rw [hsq] at hp
                simp only [Bool.and_eq_true, Bool.not_eq_true'] at hp
                exact ⟨quiz, rfl, hp.2⟩
            obtain ⟨quiz, hsq, hpass⟩ := hq
            refine ⟨index.toNat, quiz, by rw [Int.toNat_of_nonneg hr.1], ?_, hpass, ?_, ?_⟩
            · simp [quizAt, hsteps, hrange, hstep, hp, hsq]
            · rw [← h, hsq]; rfl
            · rw [← h, hsq]; simp [viewOf]
          · next hp =>
            split at h
            · simp at h
            · next reply pool' hgen =>
              split at h
              · simp at h
              · next drafts hrep =>
                simp only [QuizResponse.questions.injEq] at h
                refine ⟨index.toNat,
                  { questions := drafts.map newQuestion, generatedAt := some now,
                    passed := false, passedAt := none },
                  by rw [Int.toNat_of_nonneg hr.1], ?_, rfl, h.symm, ?_⟩
                · simp [quizAt, hsteps, hrange, hstep, hp, hgen, hrep, hlt]
                · rw [← h]; simp [viewOf]

/-- The stored quiz of one question with correct answer "B" is shown with that
answer. -/
theorem postQuiz_response_witness :
    ∃ (i : Nat) (quiz : Quiz), (some (0 : Int)) = some (i : Int) ∧
      quizAt (postQuiz demoRuntime demoStore oneKeyPool 9
        (userWithQuiz [freshQuestion "q" "B"]) (some 0)).2.1 i = some quiz ∧
      quiz.passed = false ∧
      [viewOf (freshQuestion "q" "B")] = quiz.questions.map viewOf ∧
      [viewOf (freshQuestion "q" "B")].map (fun view => view.correctAnswer) =
        quiz.questions.map (fun q => q.correctAnswer) :=
  (postQuiz_response demoRuntime demoStore oneKeyPool 9 (userWithQuiz [freshQuestion "q" "B"])
    (some 0) [viewOf (freshQuestion "q" "B")] (by decide)).1

/-! ## Shape of the analysis result -/

theorem defaultCurrentLevel_mem (level : String) (mentioned : Bool) :
    defaultCurrentLevel level mentioned ∈ currentLevels := by
  unfold defaultCurrentLevel
  split_ifs <;> decide

theorem orDefault_mem (x : Option String) (dflt : String) (allowed : List String)
    (hd : dflt ∈ allowed) (hx : truthy x = true → x.getD "" ∈ allowed) :
    orDefault x dflt ∈ allowed := by
  cases x with
  | none => exact hd
  | some s =>
    by_cases hs : s = ""
    · subst hs; exact hd
    · have := hx (by simp [truthy, hs])
      simpa [orDefault, hs] using this

/-- Every gap of the fallback mapping has the required level and the priority
of the entry it comes from. -/
theorem gapsOf_levels (rt : Runtime) (lower : String) (specs : List SkillSpec)
    (gs : List Gap) (h : gapsOf rt lower specs = .ok gs) :
    ∀ g ∈ gs, ∃ sr ∈ specs, g.requiredLevel = orDefault (some sr.level) "intermediate" ∧
      g.priority = orDefault (some sr.importance) "medium" := by
  induction specs generalizing gs with
  | nil =>
    simp only [gapsOf, Except.ok.injEq] at h
    subst h; simp
  | cons sr rest ih =>
    simp only [gapsOf] at h
    cases hgap : gapOf rt lower sr with
    | error e => rw [hgap] at h; simp at h
    | ok gap =>
      rw [hgap] at h
      cases hrest : gapsOf rt lower rest with
      | error e => rw [hrest] at h; simp at h
      | ok gaps =>
        rw [hrest] at h
        simp only [Except.ok.injEq] at h
        subst h
        intro g hg
        rcases List.mem_cons.mp hg with hg | hg
        · subst hg
          refine ⟨sr, List.mem_cons_self _ _, ?_⟩
          unfold gapOf at hgap
          cases hname : sr.skill with
          | none => rw [hname] at hgap; simp at hgap
          | some name =>
            rw [hname] at hgap
            simp only [Except.ok.injEq] at hgap
            subst hgap
            exact ⟨rfl, rfl⟩
        · obtain ⟨sr', hsr', hl⟩ := ih gaps hrest g hg
          exact ⟨sr', List.mem_cons_of_mem _ hsr', hl⟩

/-- The entries analysed for a role with enumerated levels have an enumerated
level and importance. -/
theorem skillsToAnalyze_levels (rt : Runtime) (lower : String) (jobRole : JobRole)
    (henum : enumeratedRole jobRole = true) :
    ∀ sr ∈ skillsToAnalyze rt lower jobRole,
      orDefault (some sr.level) "intermediate" ∈ requiredLevels ∧
      orDefault (some sr.importance) "medium" ∈ priorities := by
  intro sr hsr
  unfold skillsToAnalyze at hsr
  split at hsr
  · next r rs heq =>
    obtain ⟨x, hx, rfl⟩ := List.mem_map.mp hsr
    unfold enumeratedRole at henum
    rw [heq] at henum
    have hx' := List.all_eq_true.mp henum x (by simpa using hx)
    cases x with
    | str s =>
      exact ⟨by show orDefault (some "intermediate") "intermediate" ∈ requiredLevels; decide,
        by show orDefault (some "medium") "medium" ∈ priorities; decide⟩
    | obj skill level importance =>
      simp only [Bool.and_eq_true, Bool.or_eq_true, Bool.not_eq_true',
        List.contains_eq_any_beq, List.any_eq_true, beq_iff_eq] at hx'
      have hl : orDefault level "intermediate" ∈ requiredLevels :=
        orDefault_mem level _ _ (by decide) (fun ht => by
          rcases hx'.1 with h | ⟨y, hy, hy'⟩
          · rw [h] at ht; cases ht
          · rw [hy']; exact hy)
      have hi : orDefault importance "medium" ∈ priorities :=
        orDefault_mem importance _ _ (by decide) (fun ht => by
          rcases hx'.2 with h | ⟨y, hy, hy'⟩
          · rw [h] at ht; cases ht
          · rw [hy']; exact hy)
      exact ⟨orDefault_mem (some _) _ _ (by decide) (fun _ => hl),
        orDefault_mem (some _) _ _ (by decide) (fun _ => hi)⟩
  · obtain ⟨x, _, rfl⟩ := List.mem_map.mp hsr
    exact ⟨by show orDefault (some "intermediate") "intermediate" ∈ requiredLevels; decide,
      by show orDefault (some "medium") "medium" ∈ priorities; decide⟩

/-- C24, as stated, fails. On the AI path the reply "\x7b\x7d" makes
`analyzeSkillGaps` return the empty object, without gaps and summary. On the
fallback path a role that asks for Docker at level 'guru' with importance
'urgent' gives a gap with that required level and that priority. -/
theorem analyzeSkillGaps_unvalidated_counterexample :
    (analyzeSkillGaps demoRuntime oneKeyPool (some "Node.js, Express, MongoDB")
      backendRole).1 = .ok (.parsed (.obj [])) ∧
    (analyzeSkillGaps quotaRuntime oneKeyPool (some "Node.js, Express, MongoDB") guruRole).1 =
      .ok (.fallback
        { gaps :=
            [ { skill := "Docker", currentLevel := "not_mentioned", requiredLevel := "guru",
                priority := "urgent",
                description := "Your resume does not mention Docker. Start learning the fundamentals and highlight relevant experience." } ]
          summary := "Keep strengthening the listed skills to align fully with the Platform Lead role requirements." }) ∧
    "guru" ∉ requiredLevels ∧ "urgent" ∉ priorities := by
  refine ⟨rfl, rfl, by decide, by decide⟩

/-- C24, amended: on the AI path `analyzeSkillGaps` returns the value decoded
from the model's reply as it is, whatever it holds. On the fallback path the
result has a summary and a non-empty gap list in which every gap has a skill, a
description and a current level among beginner, intermediate, advanced, expert
and not_mentioned; its required level and priority are among the enumerated
ones when every level and importance the role's requirements carry is. -/
theorem analyzeSkillGaps_result_shape (rt : Runtime) (p : KeyPool) (resumeText : Option String)
    (jobRole : JobRole) :
    (∀ value p', analyzeSkillGapsTry rt p = (.ok value, p') →
      analyzeSkillGaps rt p resumeText jobRole = (.ok (.parsed value), p')) ∧
    (∀ a p', analyzeSkillGaps rt p resumeText jobRole = (.ok (.fallback a), p') →
      a.gaps ≠ [] ∧
      (∀ g ∈ a.gaps, g.currentLevel ∈ currentLevels) ∧
      (enumeratedRole jobRole = true →
        ∀ g ∈ a.gaps, g.requiredLevel ∈ requiredLevels ∧ g.priority ∈ priorities)) := by
  refine ⟨?_, ?_⟩
  · intro value p' htry
    simp [analyzeSkillGaps, htry]
  · intro a p' h
    have hfb := analyzeSkillGaps_fallback_inv rt p p' resumeText jobRole a h
    have hcur := fallbackAnalysis_gaps rt resumeText jobRole a hfb
    unfold fallbackAnalysis at hfb
    simp only at hfb
    split at hfb
    · simp at hfb
    · next gs hgs =>
      simp only [Except.ok.injEq] at hfb
      subst hfb
      refine ⟨?_, ?_, ?_⟩
      · by_cases hlen : gs.length > 0
        · simp only [hlen, if_true]
          exact List.length_pos.mp hlen
        · simp only [hlen, if_false]
          exact List.cons_ne_nil _ _
      · intro g hg
        rcases hcur g hg with h1 | h1
        · rw [h1]; decide
        · rw [h1]; exact defaultCurrentLevel_mem _ _
      · intro henum g hg
        by_cases hlen : gs.length > 0
        · simp only [hlen, if_true] at hg
          obtain ⟨sr, hsr, hl, hp⟩ := gapsOf_levels rt _ _ gs hgs g hg
          have := skillsToAnalyze_levels rt _ jobRole henum sr hsr
          rw [hl, hp]
          exact this
        · simp only [hlen, if_false, List.mem_singleton] at hg
          rw [hg]
          exact ⟨by decide, by decide⟩

/-- The fallback analysis against the backend role, the service out of quota. -/
theorem analyzeSkillGaps_result_shape_witness :
    ∃ a, (analyzeSkillGaps quotaRuntime oneKeyPool (some "Node.js, Express, MongoDB")
        backendRole).1 = .ok (.fallback a) ∧
      a.gaps.map (fun g => (g.skill, g.currentLevel, g.requiredLevel, g.priority)) =
        [("Node.js", "beginner", "intermediate", "medium"),
         ("Docker", "not_mentioned", "intermediate", "medium")] ∧
      ∀ g ∈ a.gaps, g.requiredLevel ∈ requiredLevels ∧ g.priority ∈ priorities :=
  ⟨_, rfl, rfl,
    ((analyzeSkillGaps_result_shape quotaRuntime oneKeyPool (some "Node.js, Express, MongoDB")
      backendRole).2 _ _ rfl).2.2 (by decide)⟩

/-! ## Rejected and failing quiz submissions -/

/-- C25: a quiz submission that is rejected leaves the user document, and so
every stored quiz with its answers, `passed` and `passedAt`, as it was; a
submission without an answers array is rejected with status 400. -/
theorem submitQuiz_rejected_unchanged (rt : Runtime) (now : Nat) (user : User)
    (stepIndex : Option Int) (answers : Option (List Answer)) (status : Nat) (message : String)
    (h : (submitQuiz rt now user stepIndex answers).1 = .rejected status message) :
    (submitQuiz rt now user stepIndex answers).2 = user ∧
    (∀ i, quizAt (submitQuiz rt now user stepIndex answers).2 i = quizAt user i) ∧
    (answers = none → status = 400) := by
  have hu : (submitQuiz rt now user stepIndex answers).2 = user := by
    unfold submitQuiz at h ⊢
    repeat' split
    all_goals first
      | rfl
      | (exfalso; simp_all)
  refine ⟨hu, fun i => by rw [hu], ?_⟩
  intro hnone
  subst hnone
  simp only [submitQuiz, SubmitResponse.rejected.injEq] at h
  exact h.1.symm

/-- Rejected submissions to the two-question quiz: no answers array, a step
without quiz, one answer for two questions, a question index out of range and
an answer "E". Each is answered with status 400 and leaves the user as it
was. -/
theorem submitQuiz_rejected_unchanged_witness :
    (submitQuiz demoRuntime 5 (userWithQuiz twoQuestions) (some 0) none).2 =
      userWithQuiz twoQuestions ∧
    (submitQuiz demoRuntime 5 userWithoutQuiz (some 0) (some [⟨0, "A"⟩])).2 = userWithoutQuiz ∧
    (submitQuiz demoRuntime 5 (userWithQuiz twoQuestions) (some 0) (some [⟨0, "A"⟩])).2 =
      userWithQuiz twoQuestions ∧
    (submitQuiz demoRuntime 5 (userWithQuiz twoQuestions) (some 0)
      (some [⟨0, "A"⟩, ⟨2, "B"⟩])).2 = userWithQuiz twoQuestions ∧
    (submitQuiz demoRuntime 5 (userWithQuiz twoQuestions) (some 0)
      (some [⟨0, "A"⟩, ⟨1, "E"⟩])).2 = userWithQuiz twoQuestions :=
  ⟨(submitQuiz_rejected_unchanged demoRuntime 5 (userWithQuiz twoQuestions) (some 0) none
      400 "Answers array is required" rfl).1,
   (submitQuiz_rejected_unchanged demoRuntime 5 userWithoutQuiz (some 0) (some [⟨0, "A"⟩])
      400 "No quiz found for this step. Generate quiz first." rfl).1,
   (submitQuiz_rejected_unchanged demoRuntime 5 (userWithQuiz twoQuestions) (some 0)
      (some [⟨0, "A"⟩]) 400 "Please answer all 2 questions. You provided 1 answers." rfl).1,
   (submitQuiz_rejected_unchanged demoRuntime 5 (userWithQuiz twoQuestions) (some 0)
      (some [⟨0, "A"⟩, ⟨2, "B"⟩]) 400 "Invalid question index: 2" rfl).1,
   (submitQuiz_rejected_unchanged demoRuntime 5 (userWithQuiz twoQuestions) (some 0)
      (some [⟨0, "A"⟩, ⟨1, "E"⟩]) 400 "Invalid answer: E. Must be A, B, C, or D." rfl).1⟩

/-- The `passed` flag and the pass date that scoring stores: the flag is decided
by the submitted answers and the questions' correct answers alone. -/
theorem scoreQuiz_passed (rt : Runtime) (now : Nat) (quiz : Quiz) (submitted : List Answer) :
    (scoreQuiz rt now quiz submitted).1.passed =
      decide (passThreshold quiz.questions.length ≤ correctAnswers quiz.questions submitted) ∧
    (scoreQuiz rt now quiz submitted).2.passed = (scoreQuiz rt now quiz submitted).1.passed ∧
    (scoreQuiz rt now quiz submitted).1.passedAt =
      if passThreshold quiz.questions.length ≤ correctAnswers quiz.questions submitted
      then some now else quiz.passedAt := by
  obtain ⟨hmap, hcount⟩ := foldl_recordAnswer_spec submitted quiz.questions 0
  have hlen : (submitted.foldl recordAnswer (quiz.questions, 0)).1.length =
      quiz.questions.length := by
    have := congrArg List.length hmap
    simpa using this
  rw [Nat.zero_add] at hcount
  refine ⟨?_, rfl, ?_⟩
  · simp only [scoreQuiz, hlen, hcount, ge_iff_le]
  · simp only [scoreQuiz, hlen, hcount, ge_iff_le, decide_eq_true_eq]

/-- C30: after an accepted submission the stored `passed` flag is decided by
that submission alone: it is true exactly when the number of submitted answers
that give the correct answer of the question they name reaches ceil(4n/5), and
it is the same whatever `passed` and `passedAt` the quiz held before. A failing
resubmission therefore stores `passed = false`, also on a quiz that had been
passed, and leaves `passedAt` as it was; a passing one stores the time of the
request. The step keeps its status and completion date, so a completed step
can carry a quiz that is not passed. -/
theorem submitQuiz_failing_resubmission (rt : Runtime) (now : Nat) (user user' : User)
    (stepIndex : Option Int) (answers : Option (List Answer)) (result : SubmitResult)
    (h : submitQuiz rt now user stepIndex answers = (.accepted result, user')) :
    ∃ (i : Nat) (steps : List RoadmapStep) (step : RoadmapStep) (quiz quiz' : Quiz)
      (submitted : List Answer),
      stepIndex = some (i : Int) ∧ answers = some submitted ∧ user.roadmap = some steps ∧
      steps[i]? = some step ∧ step.quiz = some quiz ∧
      user'.roadmap = some (steps.set i { step with quiz := some quiz' }) ∧
      quizAt user' i = some quiz' ∧
      quiz'.passed =
        decide (passThreshold quiz.questions.length ≤ correctAnswers quiz.questions submitted) ∧
      result.passed = quiz'.passed ∧
      (∀ (prior : Bool) (priorAt : Option Nat),
        (scoreQuiz rt now { quiz with passed := prior, passedAt := priorAt } submitted).1.passed =
          quiz'.passed) ∧
      (correctAnswers quiz.questions submitted < passThreshold quiz.questions.length →
        quiz'.passed = false ∧ quiz'.passedAt = quiz.passedAt) ∧
      (passThreshold quiz.questions.length ≤ correctAnswers quiz.questions submitted →
        quiz'.passed = true ∧ quiz'.passedAt = some now) := by
  obtain ⟨i, steps, step, quiz, submitted, hidx, hans, hsteps, hstep, hquiz, _, _, _, hres,
    huser⟩ := submitQuiz_accepted_inv rt now user user' stepIndex answers result h
  have hlt : i < steps.length := by
    rcases Nat.lt_or_ge i steps.length with h1 | h1
    · exact h1
    · rw [List.getElem?_eq_none h1] at hstep
      cases hstep
  obtain ⟨hp, hrp, hat⟩ := scoreQuiz_passed rt now quiz submitted
  refine ⟨i, steps, step, quiz, (scoreQuiz rt now quiz submitted).1, submitted, hidx, hans,
    hsteps, hstep, hquiz, by rw [huser], ?_, hp, ?_, ?_, ?_, ?_⟩
  · rw [huser]
    simp [quizAt, hlt]
  · rw [hres]; exact hrp
  · intro prior priorAt
    rw [(scoreQuiz_passed rt now { quiz with passed := prior, passedAt := priorAt } submitted).1,
      hp]
  · intro hfail
    have hnot : ¬ passThreshold quiz.questions.length ≤
        correctAnswers quiz.questions submitted := by omega
    refine ⟨?_, ?_⟩
    · rw [hp]; simp [hnot]
    · rw [hat, if_neg hnot]
  · intro hpass
    refine ⟨?_, ?_⟩
    · rw [hp]; simp [hpass]
    · rw [hat, if_pos hpass]

/-- The completed step with a quiz passed at time 2 receives two wrong answers:
the submission is accepted, the quiz is stored as not passed with `passedAt`
still 2, and the step is still completed. -/
theorem submitQuiz_failing_resubmission_witness :
    (∃ (i : Nat) (steps : List RoadmapStep) (step : RoadmapStep) (quiz quiz' : Quiz)
      (submitted : List Answer),
      (some (0 : Int)) = some (i : Int) ∧
      some [(⟨0, "B"⟩ : Answer), ⟨1, "A"⟩] = some submitted ∧
      passedUser.roadmap = some steps ∧
      steps[i]? = some step ∧ step.quiz = some quiz ∧
      (submitQuiz demoRuntime 7 passedUser (some 0) (some [⟨0, "B"⟩, ⟨1, "A"⟩])).2.roadmap =
        some (steps.set i { step with quiz := some quiz' }) ∧
      quizAt (submitQuiz demoRuntime 7 passedUser (some 0) (some [⟨0, "B"⟩, ⟨1, "A"⟩])).2 i =
        some quiz' ∧
      quiz'.passed =
        decide (passThreshold quiz.questions.length ≤ correctAnswers quiz.questions submitted) ∧
      (scoreQuiz demoRuntime 7
        { questions := twoQuestions, generatedAt := some 1, passed := true, passedAt := some 2 }
        [⟨0, "B"⟩, ⟨1, "A"⟩]).2.passed = quiz'.passed ∧
      (∀ (prior : Bool) (priorAt : Option Nat),
        (scoreQuiz demoRuntime 7 { quiz with passed := prior, passedAt := priorAt }
          submitted).1.passed = quiz'.passed) ∧
      (correctAnswers quiz.questions submitted < passThreshold quiz.questions.length →
        quiz'.passed = false ∧ quiz'.passedAt = quiz.passedAt) ∧
      (passThreshold quiz.questions.length ≤ correctAnswers quiz.questions submitted →
        quiz'.passed = true ∧ quiz'.passedAt = some 7)) ∧
    correctAnswers twoQuestions [⟨0, "B"⟩, ⟨1, "A"⟩] = 0 ∧ passThreshold 2 = 2 ∧
    (quizAt passedUser 0).map (fun quiz => (quiz.passed, quiz.passedAt)) =
      some (true, some 2) ∧
    stepStatuses (submitQuiz demoRuntime 7 passedUser (some 0)
      (some [⟨0, "B"⟩, ⟨1, "A"⟩])).2 = ["completed"] ∧
    (quizAt (submitQuiz demoRuntime 7 passedUser (some 0)
      (some [⟨0, "B"⟩, ⟨1, "A"⟩])).2 0).map (fun quiz => (quiz.passed, quiz.passedAt)) =
      some (false, some 2) :=
  ⟨submitQuiz_failing_resubmission demoRuntime 7 passedUser _ (some 0)
    (some [⟨0, "B"⟩, ⟨1, "A"⟩]) _ rfl, by decide, by decide, rfl, rfl, rfl⟩

/-! ## Denominators of the percentages -/

/-- C29: the three handlers that compute a percentage never ask for one over
zero: their responses and the documents they save are the same whatever the
runtime answers for a denominator of zero. The status update divides by the
number of steps behind the index check, `GET /progress` by the number of
critical or high gaps only when there is one, and the quiz score by the number
of questions only when there is one. -/
theorem percentages_nonzero_denominator (rt : Runtime) (atZero : Nat → Nat) (now : Nat)
    (user : User) (stepIndex : Option Int) (status : String) (answers : Option (List Answer)) :
    updateStep (withZeroPercent rt atZero) now user stepIndex status =
      updateStep rt now user stepIndex status ∧
    getProgress (withZeroPercent rt atZero) now user = getProgress rt now user ∧
    submitQuiz (withZeroPercent rt atZero) now user stepIndex answers =
      submitQuiz rt now user stepIndex answers := by
  have hpos : ∀ a b, 0 < b → (withZeroPercent rt atZero).roundPercent a b = rt.roundPercent a b := by
    intro a b hb
    simp only [withZeroPercent]
    rw [if_neg (by omega)]
  refine ⟨?_, ?_, ?_⟩
  · unfold updateStep
    split
    · rfl
    · split
      · rfl
      · next steps hsteps =>
        split
        · rfl
        · next index =>
          split
          · rfl
          · next hrange =>
            have hr : 0 ≤ index ∧ index < (steps.length : Int) := by
              simp only [Bool.or_eq_true, decide_eq_true_eq, not_or, not_lt, ge_iff_le,
                not_le] at hrange
              exact hrange
            split
            · rfl
            · split
              · rfl
              · simp only
                rw [hpos _ _ (by rw [List.length_set]; omega)]
  · have hj : jobAccessibility (withZeroPercent rt atZero) user = jobAccessibility rt user := by
      unfold jobAccessibility
      split
      · rfl
      · split
        · simp only
          split
          · next hc => rw [hpos _ _ hc]
          · rfl
        · rfl
    unfold getProgress
    simp only [hj]
  · have hs : ∀ quiz submitted, scoreQuiz (withZeroPercent rt atZero) now quiz submitted =
        scoreQuiz rt now quiz submitted := by
      intro quiz submitted
      unfold scoreQuiz
      simp only
      generalize List.foldl recordAnswer (quiz.questions, 0) submitted = graded
      by_cases hq : graded.1.length > 0
      · simp only [hq, if_true, hpos _ _ hq]
      · simp only [hq, if_false]
    unfold submitQuiz
    repeat' split
    all_goals first
      | rfl
      | simp only [hs]

end SkillGap
